import Mathlib

/-!
# TrajPlanning: the obstacle-penalty field `tpg::ObsPen`

A shallow embedding of `src/ObsPen.cpp`.

* `double` is embedded twice. The definitions of `tpg` proper read every
  `double` operation as the exact operation on rationals (`ℚ`): they say what
  the algorithm computes in exact arithmetic. The definitions of `tpg.fp` read
  the same source lines in IEEE 754 binary64 arithmetic (`tpg.Double`: round
  to nearest, ties to even, signed zeros, infinities, NaN), every operation
  rounded on its own: they say what the compiled program computes where
  `double` is binary64, expressions are evaluated in `double` precision and no
  sum of products is contracted into a fused multiply-add.
* `std::size_t` is a natural number below `2^64`; the subtraction `size - 1`
  of `inBound` wraps modulo `2^64` as unsigned arithmetic does.
* `int` is an integer in `[-2^31, 2^31 - 1]`; an `int` operation whose result
  leaves that range, a read past the end of a `std::vector`, and an index
  outside a `boost::multi_array` are undefined behaviour, modelled as `none`.
* `boost::multi_array<T, 3>` is its shape and its flat element storage in the
  default (C, row-major) storage order.
* Where it matters which object owns which storage (`Memory`), an array is its
  shape and the address of a storage block of the free store: `resize`
  allocates a block and deallocates the old one, the assignment of arrays,
  `memcpy` and the loop of `setPen` write into the block the array owns, and a
  deallocated block cannot be read.
-/

namespace tpg

/-! ## Machine integers -/

/-- Largest value of `int`. -/
def INT_MAX : Int := 2147483647

/-- Smallest value of `int`. -/
def INT_MIN : Int := -2147483648

/-- Number of values of `std::size_t`. -/
def SIZE_MOD : Nat := 18446744073709551616

/-- Whether an integer is a value of `int`. -/
def isInt (z : Int) : Bool := decide (INT_MIN ≤ z ∧ z ≤ INT_MAX)

/-- Conversion of a mathematical integer to `int`: undefined outside the range. -/
def toInt (z : Int) : Option Int := if isInt z then some z else none

/-- Product of two `int`s: undefined on signed overflow. -/
def imul (a b : Int) : Option Int :=
  if isInt a ∧ isInt b then toInt (a * b) else none

/-- The unsigned subtraction `size - 1` on `std::size_t`. -/
def sizePred (size : Nat) : Nat := (size + (SIZE_MOD - 1)) % SIZE_MOD

/-! ## `Eigen::Vector3d` -/

/-- A vector of three `double`s, each an exact rational. -/
@[ext]
structure Vector3d where
  x : ℚ
  y : ℚ
  z : ℚ
deriving DecidableEq

namespace Vector3d

instance : Zero Vector3d := ⟨⟨0, 0, 0⟩⟩
instance : Add Vector3d := ⟨fun a b => ⟨a.x + b.x, a.y + b.y, a.z + b.z⟩⟩
instance : Neg Vector3d := ⟨fun a => ⟨-a.x, -a.y, -a.z⟩⟩
instance : Sub Vector3d := ⟨fun a b => ⟨a.x - b.x, a.y - b.y, a.z - b.z⟩⟩
instance : SMul ℚ Vector3d := ⟨fun c a => ⟨c * a.x, c * a.y, c * a.z⟩⟩

instance : AddCommGroup Vector3d where
  add_assoc a b c := by ext <;> exact add_assoc _ _ _
  zero_add a := by ext <;> exact zero_add _
  add_zero a := by ext <;> exact add_zero _
  add_comm a b := by ext <;> exact add_comm _ _
  neg_add_cancel a := by ext <;> exact neg_add_cancel _
  sub_eq_add_neg a b := by ext <;> exact sub_eq_add_neg _ _
  nsmul := nsmulRec
  zsmul := zsmulRec

instance : Module ℚ Vector3d where
  one_smul a := by ext <;> exact one_mul _
  mul_smul c d a := by ext <;> exact mul_assoc _ _ _
  smul_zero c := by ext <;> exact mul_zero _
  smul_add c a b := by ext <;> exact mul_add _ _ _
  add_smul c d a := by ext <;> exact add_mul _ _ _
  zero_smul a := by ext <;> exact zero_mul _

/-- Squared Euclidean norm (`squaredNorm()`). -/
def squaredNorm (a : Vector3d) : ℚ := a.x * a.x + a.y * a.y + a.z * a.z

end Vector3d

/-! ## `boost::multi_array<T, 3>` -/

/-- A three-dimensional array: its extents and its elements in row-major order. -/
structure MultiArray (T : Type) where
  shape0 : Nat
  shape1 : Nat
  shape2 : Nat
  data : List T

namespace MultiArray

variable {T : Type}

/-- The default-constructed (empty) array. -/
def empty : MultiArray T := ⟨0, 0, 0, []⟩

/-- Position of element `[x][y][z]` in the flat storage. -/
def offset (a : MultiArray T) (x y z : Nat) : Nat :=
  (x * a.shape1 + y) * a.shape2 + z

/-- Whether `[x][y][z]` is a valid index triple. -/
def validIndex (a : MultiArray T) (x y z : Int) : Bool :=
  decide (0 ≤ x ∧ x < a.shape0 ∧ 0 ≤ y ∧ y < a.shape1 ∧ 0 ≤ z ∧ z < a.shape2)

/-- Read `array[x][y][z]`; `none` outside the extents. -/
def get? (a : MultiArray T) (x y z : Int) : Option T :=
  if a.validIndex x y z then a.data[a.offset x.toNat y.toNat z.toNat]? else none

/-- Write `array[x][y][z] = v`; `none` outside the extents. -/
def set? (a : MultiArray T) (x y z : Int) (v : T) : Option (MultiArray T) :=
  if a.validIndex x y z then
    some { a with data := a.data.set (a.offset x.toNat y.toNat z.toNat) v }
  else none

/-- The call `resize(boost::extents[n0][n1][n2])`: the elements whose index
triple is valid in both the old and the new array are kept, the others are
default-constructed (`fill`). -/
def resize (a : MultiArray T) (fill : T) (n0 n1 n2 : Nat) : MultiArray T :=
  { shape0 := n0, shape1 := n1, shape2 := n2,
    data := (List.range (n0 * n1 * n2)).map fun i =>
      (a.get? ((i / (n1 * n2) : Nat) : Int) (((i / n2) % n1 : Nat) : Int)
        ((i % n2 : Nat) : Int)).getD fill }

/-- Storage invariant of an array held by an `ObsPen`: the storage has one
element per index triple, and every extent is a value of `int` (extents only
ever come from the `int` arguments of `setPen`). -/
def WF (a : MultiArray T) : Prop :=
  a.data.length = a.shape0 * a.shape1 * a.shape2 ∧
  (a.shape0 : Int) ≤ INT_MAX ∧ (a.shape1 : Int) ≤ INT_MAX ∧ (a.shape2 : Int) ≤ INT_MAX

end MultiArray

/-! ## The free functions of `ObsPen.cpp` -/

/-- Map a world point to fractional array coordinates:
`(point - start).array()/scale`, in exact arithmetic (`fp.pointToArray` rounds). -/
def pointToArray (point start scale : Vector3d) : Vector3d :=
  let d := point - start
  ⟨d.x / scale.x, d.y / scale.y, d.z / scale.z⟩

/-- The bounds test `val > 0. && val < (size - 1)`, with `size - 1` computed
on `std::size_t`. -/
def inBound (val : ℚ) (size : Nat) : Bool :=
  decide (val > 0) && decide (val < ((sizePred size : Nat) : ℚ))

/-- The conversion `int(std::floor(v))` of an exactly computed `v` (for the
rounded sum `v + 1.` see `fp.axisCell`). -/
def floorInt (v : ℚ) : Option Int := toInt ⌊v⌋

/-- One line of the x-blend: `xdm*array[x0][y][z] + xd*array[x1][y][z]`. -/
@[nospecialize] def blendX {T : Type} [AddCommGroup T] [Module ℚ T]
    (array : MultiArray T) (xdm xd : ℚ) (x0 x1 y z : Int) : Option T := do
  let low ← array.get? x0 y z
  let high ← array.get? x1 y z
  pure (xdm • low + xd • high)

/-- Trilinear interpolation of `array` at the fractional coordinate `arrPoint`
in exact arithmetic (`fp.interpolate3d` is the same code in binary64
arithmetic); the zero of `T` outside the bounds. -/
@[nospecialize] def interpolate3d {T : Type} [AddCommGroup T] [Module ℚ T]
    (array : MultiArray T) (arrPoint : Vector3d) : Option T :=
  if !inBound arrPoint.x array.shape0 ||
     !inBound arrPoint.y array.shape1 ||
     !inBound arrPoint.z array.shape2 then
    some 0
  else do
    let x0 ← floorInt arrPoint.x
    let x1 ← floorInt (arrPoint.x + 1)
    let y0 ← floorInt arrPoint.y
    let y1 ← floorInt (arrPoint.y + 1)
    let z0 ← floorInt arrPoint.z
    let z1 ← floorInt (arrPoint.z + 1)
    let xd : ℚ := arrPoint.x - x0
    let xdm : ℚ := x1 - arrPoint.x
    let yd : ℚ := arrPoint.y - y0
    let ydm : ℚ := y1 - arrPoint.y
    let zd : ℚ := arrPoint.z - z0
    let zdm : ℚ := z1 - arrPoint.z
    let c00 ← blendX array xdm xd x0 x1 y0 z0
    let c10 ← blendX array xdm xd x0 x1 y1 z0
    let c01 ← blendX array xdm xd x0 x1 y0 z1
    let c11 ← blendX array xdm xd x0 x1 y1 z1
    let c0 := ydm • c00 + yd • c10
    let c1 := ydm • c01 + yd • c11
    pure (zdm • c0 + zd • c1)

/-! ## The class `ObsPen` -/

/-- The members `pen_`, `penGrad_`, `start_` and `scale_` of `tpg::ObsPen`. -/
structure ObsPen where
  pen_ : MultiArray ℚ
  penGrad_ : MultiArray Vector3d
  start_ : Vector3d
  scale_ : Vector3d

/-- Body of the innermost loop of `setPen`: store
`Vector3d(penalityGradX[i], penalityGradY[i], penalityGradZ[i])` at `[x][y][z]`,
then `++i`. The state is the gradient grid and the counter `i`. -/
def setPenBody (penalityGradX penalityGradY penalityGradZ : List ℚ) (x y z : Nat)
    (st : MultiArray Vector3d × Nat) : Option (MultiArray Vector3d × Nat) := do
  let gx ← penalityGradX[st.2]?
  let gy ← penalityGradY[st.2]?
  let gz ← penalityGradZ[st.2]?
  let grid ← st.1.set? x y z ⟨gx, gy, gz⟩
  pure (grid, st.2 + 1)

/-- The triple loop of `setPen`, started with `i = 0`. -/
def setPenLoop (penalityGradX penalityGradY penalityGradZ : List ℚ)
    (sizeX sizeY sizeZ : Nat) (grid : MultiArray Vector3d) :
    Option (MultiArray Vector3d × Nat) :=
  (List.range sizeX).foldlM (fun st x =>
    (List.range sizeY).foldlM (fun st y =>
      (List.range sizeZ).foldlM (fun st z =>
        setPenBody penalityGradX penalityGradY penalityGradZ x y z st) st) st) (grid, 0)

/-- The call `std::memcpy(dst.data(), src.data(), n*sizeof(double))`: the first
`n` elements of `dst` are replaced by those of `src`; reading or writing past
the end of either is undefined. -/
def memcpyDoubles (dst src : List ℚ) (n : Nat) : Option (List ℚ) :=
  if n ≤ src.length ∧ n ≤ dst.length then some (src.take n ++ dst.drop n) else none

namespace ObsPen

/-- The method `ObsPen::setPen`. The three sizes are `int`s and
`boost::extents` needs them non-negative; `uninit` is the indeterminate value
of a default-constructed `Eigen::Vector3d`, with which `resize` fills the new
elements of `penGrad_`. -/
def setPen (self : ObsPen) (start scale : Vector3d) (sizeX sizeY sizeZ : Int)
    (penality penalityGradX penalityGradY penalityGradZ : List ℚ)
    (uninit : Vector3d) : Option ObsPen :=
  if isInt sizeX ∧ isInt sizeY ∧ isInt sizeZ ∧ 0 ≤ sizeX ∧ 0 ≤ sizeY ∧ 0 ≤ sizeZ then do
    let pen := self.pen_.resize 0 sizeX.toNat sizeY.toNat sizeZ.toNat
    let penGrad := self.penGrad_.resize uninit sizeX.toNat sizeY.toNat sizeZ.toNat
    let n ← imul (← imul sizeX sizeY) sizeZ
    let penData ← memcpyDoubles pen.data penality n.toNat
    let st ← setPenLoop penalityGradX penalityGradY penalityGradZ
      sizeX.toNat sizeY.toNat sizeZ.toNat penGrad
    pure { pen_ := { pen with data := penData }, penGrad_ := st.1,
           start_ := start, scale_ := scale }
  else none

/-- The method `ObsPen::penality`. -/
def penality (self : ObsPen) (pos : Vector3d) : Option ℚ :=
  interpolate3d self.pen_ (pointToArray pos self.start_ self.scale_)

/-- The method `ObsPen::penalityGrad`. -/
def penalityGrad (self : ObsPen) (pos : Vector3d) : Option Vector3d :=
  interpolate3d self.penGrad_ (pointToArray pos self.start_ self.scale_)

end ObsPen

/-! ## The data of `ObsPenTest` (`tests/TrajTest.cpp`) -/

namespace ObsPenTest

/-- The vector `pen`. -/
def pen : List ℚ :=
  [0.19338496, 0.08683781, 0.76232272, 0.10032556, 0.0311701,
   0.74030221, 0.4986186, 0.58865215, 0.63947176, 0.37107554,
   0.77703448, 0.94472095, 0.16495522, 0.2537881, 0.12636114,
   0.89338157, 0.18361576, 0.7980018, 0.58179607, 0.19751129,
   0.2025195, 0.70539315, 0.06764872, 0.90060331, 0.23950046,
   0.30006224, 0.33118872]

/-- The vector `penGradX`. -/
def penGradX : List ℚ :=
  [0.17769058, 0.69019667, 0.18239823, 0.06462966, 0.222618,
   -0.61394108, 0.39476297, -0.40503639, 0.15853003, 0.19420555,
   0.05533674, -0.27990161, 0.30253379, 0.01823931, 0.08015055,
   -0.12955907, -0.14429495, -0.15414152, 0.21072053, -0.57952318,
   -0.74220145, 0.54043792, -0.18613938, 0.77424217, -0.65388111,
   0.11644648, -0.46681308]

/-- The vector `penGradY`. -/
def penGradY : List ℚ :=
  [-0.0930594, -0.0556677, -0.02202051, 0.15261682, 0.25090717,
   -0.06142548, 0.39829304, 0.55748205, -0.10083045, -0.20612032,
   -0.52324638, -0.81835981, 0.26115301, -0.29670936, -0.07335958,
   0.72842634, -0.07017234, 0.67164066, 0.12359707, -0.12986258,
   0.6980838, -0.17114781, 0.05127547, 0.06433461, -0.46589269,
   0.23241353, -0.56941459]

/-- The vector `penGradZ`. -/
def penGradZ : List ℚ :=
  [-0.10654716, 0.28446888, 0.67548491, -0.06915546, 0.31998833,
   0.70913211, 0.09003355, 0.07042658, 0.05081961, 0.40595893,
   0.2868227, 0.16768647, 0.08883288, -0.01929704, -0.12742697,
   -0.70976581, -0.04768988, 0.61438604, -0.38428478, -0.18963829,
   0.00500821, -0.63774443, 0.09760508, 0.83295459, 0.06056178,
   0.04584413, 0.03112647]

/-- The element `points[0]`. -/
def point1 : Vector3d := ⟨0.23352768013842229, 1.7767243859557733, 0.26601814042029426⟩

/-- The element `points[1]`. -/
def point2 : Vector3d := ⟨2.2485555785893334, 0.55614005239213393, 1.269660653465275⟩

/-- The element `points[2]`. -/
def point3 : Vector3d := ⟨2.1185875346180856, 2.071751514751571, 1.509121136794852⟩

/-- The element `points[3]`. -/
def point4 : Vector3d := ⟨1.8537692322878447, 1.2411053144925532, 1.4575584431698618⟩

/-- The element `points[4]`. -/
def point5 : Vector3d := ⟨1.3542112341981949, 0.85807431414450286, 2.6060901323821746⟩

end ObsPenTest

/-! ## Vocabulary of the specification -/

/-- The spec's strict interior on one axis: `0 < v < size - 1`, with `size - 1`
the mathematical integer. -/
def StrictInterior (v : ℚ) (size : Nat) : Prop := 0 < v ∧ v < (size : ℚ) - 1

/-- The spec's strict interior of a grid: every axis is strictly inside. -/
def MultiArray.Interior {T : Type} (a : MultiArray T) (p : Vector3d) : Prop :=
  StrictInterior p.x a.shape0 ∧ StrictInterior p.y a.shape1 ∧ StrictInterior p.z a.shape2

/-- Index of a corner on one axis: `floor v` for the low corner, `floor (v + 1)`
for the high one. -/
def axisIndex (v : ℚ) (high : Bool) : Int := if high then ⌊v + 1⌋ else ⌊v⌋

/-- Per-axis factor of a corner: `dm = a1 - v` for the low index, `d = v - a0`
for the high one. -/
def axisWeight (v : ℚ) (high : Bool) : ℚ :=
  if high then v - (⌊v⌋ : ℚ) else (⌊v + 1⌋ : ℚ) - v

/-- Weight of the corner `(i, j, k)`: the product of its three per-axis factors. -/
def cornerWeight (p : Vector3d) (i j k : Bool) : ℚ :=
  axisWeight p.x i * axisWeight p.y j * axisWeight p.z k

/-- The gradient sample that the loop of `setPen` stores when its counter is `i`. -/
def gradAt (gX gY gZ : List ℚ) (i : Nat) : Vector3d :=
  ⟨gX[i]?.getD 0, gY[i]?.getD 0, gZ[i]?.getD 0⟩

/-- Loop invariant of `setPen` when the counter is `i`: the extents are unchanged
and the first `i` elements of the storage have been written. -/
def LoopInv (gX gY gZ : List ℚ) (sx sy sz : Nat) (i : Nat)
    (st : MultiArray Vector3d × Nat) : Prop :=
  st.2 = i ∧ st.1.shape0 = sx ∧ st.1.shape1 = sy ∧ st.1.shape2 = sz ∧
  st.1.data.length = sx * sy * sz ∧ ∀ j < i, st.1.data[j]? = some (gradAt gX gY gZ j)

/-! ## Assignment, construction and the states of a program -/

/-- Assignment `*this = x` of a `boost::multi_array`: the extents must agree
(asserted by the library), then every element is overwritten by the element of
`x` at the same position. -/
def MultiArray.assign {T : Type} (a x : MultiArray T) : Option (MultiArray T) :=
  if a.shape0 = x.shape0 ∧ a.shape1 = x.shape1 ∧ a.shape2 = x.shape2 then
    some { a with data := List.zipWith (fun _ v => v) a.data x.data }
  else none

/-- The operator `ObsPen::operator=`: each grid is resized to the extents of the
grid of `op` and then assigned from it, `start_` and `scale_` are copied.
`uninit` is the indeterminate value of a default-constructed `Eigen::Vector3d`. -/
def ObsPen.assign (self op : ObsPen) (uninit : Vector3d) : Option ObsPen := do
  let pen ← (self.pen_.resize 0 op.pen_.shape0 op.pen_.shape1 op.pen_.shape2).assign op.pen_
  let penGrad ← (self.penGrad_.resize uninit op.penGrad_.shape0 op.penGrad_.shape1
    op.penGrad_.shape2).assign op.penGrad_
  pure { pen_ := pen, penGrad_ := penGrad, start_ := op.start_, scale_ := op.scale_ }

/-- Modelled from the spec: the constructor of `ObsPen` is declared in
`ObsPen.h`, which is not among the sources; by the spec a field is created
empty, that is with both grids empty. `start` and `scale` stand for the
indeterminate initial values of `start_` and `scale_`. -/
def ObsPen.created (start scale : Vector3d) : ObsPen :=
  { pen_ := MultiArray.empty, penGrad_ := MultiArray.empty, start_ := start, scale_ := scale }

/-- The fields a program can hold: a created field, the result of `setPen` on a
reachable field, the result of assigning a reachable field to a reachable field. -/
inductive Reachable : ObsPen → Prop
  | created (start scale : Vector3d) : Reachable (ObsPen.created start scale)
  | setPen {self f : ObsPen} (start scale : Vector3d) (sizeX sizeY sizeZ : Int)
      (penality penalityGradX penalityGradY penalityGradZ : List ℚ) (uninit : Vector3d) :
      Reachable self →
      self.setPen start scale sizeX sizeY sizeZ penality penalityGradX penalityGradY
        penalityGradZ uninit = some f →
      Reachable f
  | assign {dst src f : ObsPen} (uninit : Vector3d) :
      Reachable dst → Reachable src → dst.assign src uninit = some f → Reachable f

/-- A program state with two `ObsPen` objects `a` and `b`, each held as a value.
Who owns which storage is not visible here; for that see `Memory`. -/
structure TwoFields where
  a : ObsPen
  b : ObsPen

namespace TwoFields

/-- The statement `b = a;`. -/
def assignB (w : TwoFields) (uninit : Vector3d) : Option TwoFields := do
  let b ← w.b.assign w.a uninit
  pure { w with b := b }

/-- The statement `a.setPen(...)`. -/
def setPenA (w : TwoFields) (start scale : Vector3d) (sizeX sizeY sizeZ : Int)
    (penality penalityGradX penalityGradY penalityGradZ : List ℚ)
    (uninit : Vector3d) : Option TwoFields := do
  let a ← w.a.setPen start scale sizeX sizeY sizeZ penality penalityGradX penalityGradY
    penalityGradZ uninit
  pure { w with a := a }

/-- The statement `b.setPen(...)`. -/
def setPenB (w : TwoFields) (start scale : Vector3d) (sizeX sizeY sizeZ : Int)
    (penality penalityGradX penalityGradY penalityGradZ : List ℚ)
    (uninit : Vector3d) : Option TwoFields := do
  let b ← w.b.setPen start scale sizeX sizeY sizeZ penality penalityGradX penalityGradY
    penalityGradZ uninit
  pure { w with b := b }

end TwoFields

/-! ## Vocabulary of the specification: the piecewise-trilinear interpolant -/

/-- The hat function `max 0 (1 - |t|)`: the weight of a grid node at signed
distance `t` on one axis. -/
def hat (t : ℚ) : ℚ := max 0 (1 - |t|)

/-- Sample of a scalar grid at natural indices (`0` where there is none). -/
def sampleAt (a : MultiArray ℚ) (i j k : Nat) : ℚ := (a.get? i j k).getD 0

/-- The piecewise-trilinear interpolant of a scalar grid as one formula over
all grid nodes: every node weighs in with the product of its three hats. -/
def hatSum (a : MultiArray ℚ) (x y z : ℚ) : ℚ :=
  ∑ i in Finset.range a.shape0, hat (x - i) *
    ∑ j in Finset.range a.shape1, hat (y - j) *
      ∑ k in Finset.range a.shape2, hat (z - k) * sampleAt a i j k

/-- The grid of the images of the samples under `f`. -/
def MultiArray.map {T U : Type} (f : T → U) (a : MultiArray T) : MultiArray U :=
  { shape0 := a.shape0, shape1 := a.shape1, shape2 := a.shape2, data := a.data.map f }

/-- The smallest of the eight corner samples. -/
def cornerMin (s : Bool → Bool → Bool → ℚ) : ℚ :=
  min (min (min (s false false false) (s true false false))
        (min (s false true false) (s true true false)))
      (min (min (s false false true) (s true false true))
        (min (s false true true) (s true true true)))

/-- The largest of the eight corner samples. -/
def cornerMax (s : Bool → Bool → Bool → ℚ) : ℚ :=
  max (max (max (s false false false) (s true false false))
        (max (s false true false) (s true true false)))
      (max (max (s false false true) (s true false true))
        (max (s false true true) (s true true true)))

/-- The component `x()` as a linear map. -/
def Vector3d.xLin : Vector3d →ₗ[ℚ] ℚ :=
  { toFun := Vector3d.x, map_add' := fun _ _ => rfl, map_smul' := fun _ _ => rfl }

/-- The component `y()` as a linear map. -/
def Vector3d.yLin : Vector3d →ₗ[ℚ] ℚ :=
  { toFun := Vector3d.y, map_add' := fun _ _ => rfl, map_smul' := fun _ _ => rfl }

/-- The component `z()` as a linear map. -/
def Vector3d.zLin : Vector3d →ₗ[ℚ] ℚ :=
  { toFun := Vector3d.z, map_add' := fun _ _ => rfl, map_smul' := fun _ _ => rfl }

/-- The open box `(0, sizeX-1) x (0, sizeY-1) x (0, sizeZ-1)` of a grid. -/
def MultiArray.box {T : Type} (a : MultiArray T) : Set (ℚ × ℚ × ℚ) :=
  {u | StrictInterior u.1 a.shape0 ∧ StrictInterior u.2.1 a.shape1 ∧
    StrictInterior u.2.2 a.shape2}

/-- The value of `interpolate3d` on a scalar grid as a function of the three
coordinates (`0` where the call is undefined). -/
def interpolate3dValue (a : MultiArray ℚ) (u : ℚ × ℚ × ℚ) : ℚ :=
  (interpolate3d a ⟨u.1, u.2.1, u.2.2⟩).getD 0

/-! ## `double` as IEEE 754 binary64 -/

/-- Round a rational to the nearest integer, a tie to the even neighbour. -/
def roundEven (x : ℚ) : Int :=
  if x - ⌊x⌋ < 1 / 2 then ⌊x⌋
  else if 1 / 2 < x - ⌊x⌋ then ⌊x⌋ + 1
  else if ⌊x⌋ % 2 = 0 then ⌊x⌋ else ⌊x⌋ + 1

/-- Exponent `e` of the binade `2^e ≤ |q| < 2^(e+1)` of `q`, and `-1022` (the
exponent of the smallest normal numbers) where that is less. -/
def binade (q : ℚ) : Int := max (Int.log 2 |q|) (-1022)

/-- Distance between neighbouring binary64 numbers in the binade of `q`:
53 significant bits, so `2^(e - 52)`. -/
def ulp (q : ℚ) : ℚ := 2 ^ (binade q - 52)

/-- The multiple of `ulp q` nearest to `q`, a tie to the even multiple: the
binary64 rounding of `q` before the overflow test. -/
def roundQ (q : ℚ) : ℚ := roundEven (q / ulp q) * ulp q

/-- A value of type `double`: a finite number (`fin 0` is `+0`), `-0`, an
infinity with its sign bit, or a NaN. -/
inductive Double where
  | fin (q : ℚ)
  | negZero
  | inf (neg : Bool)
  | nan
deriving DecidableEq

namespace Double

/-- The binary64 values among the terms of `Double`: a finite one is
`n * 2^k` with `|n| < 2^53`, `k ≥ -1074` and magnitude below `2^1024`. -/
def IsBinary64 : Double → Prop
  | fin q => ∃ n k : Int, q = n * 2 ^ k ∧ |n| < 2 ^ 53 ∧ -1074 ≤ k ∧ |q| < 2 ^ 1024
  | _ => True

/-- Rounding of the exact result `q` of an operation, to nearest, ties to even;
`neg` is the sign bit a zero result gets. A result that rounds to magnitude
`2^1024` or more overflows to the infinity of its sign. -/
def round (neg : Bool) (q : ℚ) : Double :=
  if 2 ^ 1024 ≤ |roundQ q| then inf (decide (q < 0))
  else if roundQ q = 0 then (if neg then negZero else fin 0)
  else fin (roundQ q)

/-- The sign bit. -/
def signBit : Double → Bool
  | fin q => decide (q < 0)
  | negZero => true
  | inf neg => neg
  | nan => false

/-- The number a finite value stands for (`0` for the others). -/
def toRat : Double → ℚ
  | fin q => q
  | _ => 0

/-- Whether the value is `+0` or `-0`. -/
def isZero : Double → Bool
  | fin q => decide (q = 0)
  | negZero => true
  | _ => false

/-- Whether the value is finite (neither an infinity nor a NaN). -/
def isFinite : Double → Bool
  | fin _ => true
  | negZero => true
  | _ => false

/-- Unary minus: flips the sign bit. -/
def neg : Double → Double
  | fin q => if q = 0 then negZero else fin (-q)
  | negZero => fin 0
  | inf s => inf (!s)
  | nan => nan

/-- The sum `a + b`. -/
def add : Double → Double → Double
  | nan, _ => nan
  | _, nan => nan
  | inf s, inf t => if s = t then inf s else nan
  | inf s, _ => inf s
  | _, inf t => inf t
  | negZero, negZero => negZero
  | negZero, fin b => fin b
  | fin a, negZero => fin a
  | fin a, fin b => round false (a + b)

/-- The difference `a - b`, which is `a + (-b)`. -/
def sub (a b : Double) : Double := add a (neg b)

/-- The product `a * b`. -/
def mul : Double → Double → Double
  | nan, _ => nan
  | _, nan => nan
  | inf s, b => if b.isZero then nan else inf (xor s b.signBit)
  | a, inf t => if a.isZero then nan else inf (xor a.signBit t)
  | a, b => round (xor a.signBit b.signBit) (a.toRat * b.toRat)

/-- The quotient `a / b`. -/
def div : Double → Double → Double
  | nan, _ => nan
  | _, nan => nan
  | inf _, inf _ => nan
  | inf s, b => inf (xor s b.signBit)
  | a, inf t => round (xor a.signBit t) 0
  | a, b =>
    if b.isZero then (if a.isZero then nan else inf (xor a.signBit b.signBit))
    else round (xor a.signBit b.signBit) (a.toRat / b.toRat)

instance : Neg Double := ⟨neg⟩
instance : Add Double := ⟨add⟩
instance : Sub Double := ⟨sub⟩
instance : Mul Double := ⟨mul⟩
instance : Div Double := ⟨div⟩

/-- The comparison `a < b`: false when either side is a NaN, the two zeros
are equal. -/
def lt : Double → Double → Bool
  | nan, _ => false
  | _, nan => false
  | inf s, inf t => s && !t
  | inf s, _ => s
  | _, inf t => !t
  | a, b => decide (a.toRat < b.toRat)

/-- The comparison `a == b`: false when either side is a NaN, the two zeros
are equal. -/
def eq : Double → Double → Bool
  | nan, _ => false
  | _, nan => false
  | inf s, inf t => s == t
  | inf _, _ => false
  | _, inf _ => false
  | a, b => decide (a.toRat = b.toRat)

/-- The function `std::floor`. -/
def floor : Double → Double
  | fin q => fin ⌊q⌋
  | d => d

/-- The conversion `int(d)`: truncation toward zero, undefined when the
truncated value is not a value of `int` (so for the infinities and NaN). -/
def toInt : Double → Option Int
  | fin q => tpg.toInt (if 0 ≤ q then ⌊q⌋ else ⌈q⌉)
  | negZero => some 0
  | _ => none

/-- The conversion of an `int` to `double`. -/
def ofInt (z : Int) : Double := round false z

/-- The conversion of a `std::size_t` to `double`. -/
def ofNat (n : Nat) : Double := round false n

end Double

/-! ## The functions of `ObsPen.cpp` in binary64 arithmetic -/

namespace fp

/-- A vector of three `double`s (`Eigen::Vector3d`, `Eigen::Array3d`). -/
structure Vector3d where
  x : Double
  y : Double
  z : Double
deriving DecidableEq

/-- What `interpolate3d` uses of its sample type `T`: `zero_value<T>::zero()`,
the sum of two samples and the product `double * T`. -/
class Sample (T : Type) where
  /-- The value `zero_value<T>::zero()`. -/
  zero : T
  /-- The sum `a + b`. -/
  add : T → T → T
  /-- The product `w * a` of a `double` and a sample. -/
  scale : Double → T → T

instance : Sample Double := ⟨Double.fin 0, Double.add, Double.mul⟩

instance : Sample Vector3d :=
  ⟨⟨Double.fin 0, Double.fin 0, Double.fin 0⟩,
   fun a b => ⟨a.x + b.x, a.y + b.y, a.z + b.z⟩,
   fun w a => ⟨w * a.x, w * a.y, w * a.z⟩⟩

/-- Map a world point to fractional array coordinates:
`(point - start).array()/scale`, each difference and each quotient rounded. -/
def pointToArray (point start scale : Vector3d) : Vector3d :=
  ⟨(point.x - start.x) / scale.x, (point.y - start.y) / scale.y,
   (point.z - start.z) / scale.z⟩

/-- The bounds test `val > 0. && val < (size - 1)`: `size - 1` is computed on
`std::size_t` and converted to `double` for the comparison. -/
def inBound (val : Double) (size : Nat) : Bool :=
  Double.lt (Double.fin 0) val && Double.lt val (Double.ofNat (sizePred size))

/-- The two indices and the two weights of one axis. -/
structure AxisCell where
  a0 : Int
  a1 : Int
  d : Double
  dm : Double
deriving DecidableEq

/-- Lines 71-72 and 78-79 of `interpolate3d` (likewise for `y` and `z`):
`a0 = int(std::floor(v))`, `a1 = int(std::floor(v + 1.))`, `d = v - a0` and
`dm = a1 - v`; the sum and the two differences are rounded. -/
def axisCell (v : Double) : Option AxisCell := do
  let a0 ← (Double.floor v).toInt
  let a1 ← (Double.floor (v + Double.fin 1)).toInt
  pure ⟨a0, a1, v - Double.ofInt a0, Double.ofInt a1 - v⟩

/-- One line of the x-blend: `xdm*array[x0][y][z] + xd*array[x1][y][z]`. -/
@[nospecialize] def blendX {T : Type} [Sample T]
    (array : MultiArray T) (cx : AxisCell) (y z : Int) : Option T := do
  let low ← array.get? cx.a0 y z
  let high ← array.get? cx.a1 y z
  pure (Sample.add (Sample.scale cx.dm low) (Sample.scale cx.d high))

/-- Trilinear interpolation of `array` at the fractional coordinate `arrPoint`
in binary64 arithmetic; `zero_value<T>::zero()` outside the bounds. Every
product and every sum is rounded on its own (no fused multiply-add). -/
@[nospecialize] def interpolate3d {T : Type} [Sample T]
    (array : MultiArray T) (arrPoint : Vector3d) : Option T :=
  if !inBound arrPoint.x array.shape0 ||
     !inBound arrPoint.y array.shape1 ||
     !inBound arrPoint.z array.shape2 then
    some Sample.zero
  else do
    let cx ← axisCell arrPoint.x
    let cy ← axisCell arrPoint.y
    let cz ← axisCell arrPoint.z
    let c00 ← blendX array cx cy.a0 cz.a0
    let c10 ← blendX array cx cy.a1 cz.a0
    let c01 ← blendX array cx cy.a0 cz.a1
    let c11 ← blendX array cx cy.a1 cz.a1
    let c0 := Sample.add (Sample.scale cy.dm c00) (Sample.scale cy.d c10)
    let c1 := Sample.add (Sample.scale cy.dm c01) (Sample.scale cy.d c11)
    pure (Sample.add (Sample.scale cz.dm c0) (Sample.scale cz.d c1))

/-- The members of `tpg::ObsPen`, their `double`s binary64 values. -/
structure ObsPen where
  pen_ : MultiArray Double
  penGrad_ : MultiArray Vector3d
  start_ : Vector3d
  scale_ : Vector3d

/-- Body of the innermost loop of `setPen`, see `tpg.setPenBody`. -/
def setPenBody (penalityGradX penalityGradY penalityGradZ : List Double) (x y z : Nat)
    (st : MultiArray Vector3d × Nat) : Option (MultiArray Vector3d × Nat) := do
  let gx ← penalityGradX[st.2]?
  let gy ← penalityGradY[st.2]?
  let gz ← penalityGradZ[st.2]?
  let grid ← st.1.set? x y z ⟨gx, gy, gz⟩
  pure (grid, st.2 + 1)

/-- The triple loop of `setPen`, started with `i = 0`. -/
def setPenLoop (penalityGradX penalityGradY penalityGradZ : List Double)
    (sizeX sizeY sizeZ : Nat) (grid : MultiArray Vector3d) :
    Option (MultiArray Vector3d × Nat) :=
  (List.range sizeX).foldlM (fun st x =>
    (List.range sizeY).foldlM (fun st y =>
      (List.range sizeZ).foldlM (fun st z =>
        setPenBody penalityGradX penalityGradY penalityGradZ x y z st) st) st) (grid, 0)

/-- The call `std::memcpy(dst.data(), src.data(), n*sizeof(double))`, see
`tpg.memcpyDoubles`. -/
def memcpyDoubles (dst src : List Double) (n : Nat) : Option (List Double) :=
  if n ≤ src.length ∧ n ≤ dst.length then some (src.take n ++ dst.drop n) else none

namespace ObsPen

/-- The method `ObsPen::setPen` on binary64 values: it moves values and does
no arithmetic on them, so it reads as `tpg.ObsPen.setPen` does. -/
def setPen (self : ObsPen) (start scale : Vector3d) (sizeX sizeY sizeZ : Int)
    (penality penalityGradX penalityGradY penalityGradZ : List Double)
    (uninit : Vector3d) : Option ObsPen :=
  if isInt sizeX ∧ isInt sizeY ∧ isInt sizeZ ∧ 0 ≤ sizeX ∧ 0 ≤ sizeY ∧ 0 ≤ sizeZ then do
    let pen := self.pen_.resize (Double.fin 0) sizeX.toNat sizeY.toNat sizeZ.toNat
    let penGrad := self.penGrad_.resize uninit sizeX.toNat sizeY.toNat sizeZ.toNat
    let n ← imul (← imul sizeX sizeY) sizeZ
    let penData ← memcpyDoubles pen.data penality n.toNat
    let st ← setPenLoop penalityGradX penalityGradY penalityGradZ
      sizeX.toNat sizeY.toNat sizeZ.toNat penGrad
    pure { pen_ := { pen with data := penData }, penGrad_ := st.1,
           start_ := start, scale_ := scale }
  else none

/-- The method `ObsPen::penality`. -/
def penality (self : ObsPen) (pos : Vector3d) : Option Double :=
  interpolate3d self.pen_ (pointToArray pos self.start_ self.scale_)

/-- The method `ObsPen::penalityGrad`. -/
def penalityGrad (self : ObsPen) (pos : Vector3d) : Option Vector3d :=
  interpolate3d self.penGrad_ (pointToArray pos self.start_ self.scale_)

end ObsPen

end fp

namespace Double

/-- A decimal literal of a program: the binary64 number nearest to it. -/
def ofRat (q : ℚ) : Double := round false q

end Double

namespace fp

/-- The `3 x 3 x 3` grid whose 27 samples all are `c`. -/
def constGrid {T : Type} (c : T) : MultiArray T := ⟨3, 3, 3, List.replicate 27 c⟩

/-- The `3 x 3 x 3` grid with the sample `spike` at `[x][y][z]` and the sample
`base` everywhere else. -/
def spikeGrid {T : Type} (base spike : T) (x y z : Nat) : MultiArray T :=
  ⟨3, 3, 3, (List.replicate 27 base).set ((x * 3 + y) * 3 + z) spike⟩

/-- The `3 x 3 x 3` grid of doubles with the sample `1` at `[x][y][z]` and `0`
everywhere else: what `interpolate3d` returns on it is the weight it gives to
that sample. -/
def unitGrid (x y z : Nat) : MultiArray Double := spikeGrid (Double.fin 0) (Double.fin 1) x y z

/-- Whether the three components are finite. -/
def Vector3d.isFinite (a : Vector3d) : Bool := a.x.isFinite && a.y.isFinite && a.z.isFinite

/-- The three components are binary64 values. -/
def Vector3d.IsBinary64 (a : Vector3d) : Prop :=
  a.x.IsBinary64 ∧ a.y.IsBinary64 ∧ a.z.IsBinary64

/-- The comparison `a == b` of two vectors: all three components compare equal. -/
def Vector3d.eq (a b : Vector3d) : Bool := a.x.eq b.x && a.y.eq b.y && a.z.eq b.z

end fp

namespace fp

/-- The gradient sample that the loop of `setPen` stores when its counter is `i`. -/
def gradAt (gX gY gZ : List Double) (i : Nat) : Vector3d :=
  ⟨gX[i]?.getD (Double.fin 0), gY[i]?.getD (Double.fin 0), gZ[i]?.getD (Double.fin 0)⟩

/-- Loop invariant of `setPen` when the counter is `i`, see `tpg.LoopInv`. -/
def LoopInv (gX gY gZ : List Double) (sx sy sz : Nat) (i : Nat)
    (st : MultiArray Vector3d × Nat) : Prop :=
  st.2 = i ∧ st.1.shape0 = sx ∧ st.1.shape1 = sy ∧ st.1.shape2 = sz ∧
  st.1.data.length = sx * sy * sz ∧ ∀ j < i, st.1.data[j]? = some (gradAt gX gY gZ j)

end fp

/-! ## Objects in memory: who owns which storage -/

/-- A storage block of the free store: the elements of one
`boost::multi_array`. -/
inductive Block where
  | doubles (d : List ℚ)
  | vectors (d : List Vector3d)

/-- A `boost::multi_array<T, 3>` object as it lies in memory: its extents and
the address of the storage block it owns. Two such objects with the same `base`
share their storage. -/
structure ArrayObj where
  shape0 : Nat
  shape1 : Nat
  shape2 : Nat
  base : Nat

/-- An `ObsPen` object as it lies in memory. -/
structure ObsPenObj where
  pen_ : ArrayObj
  penGrad_ : ArrayObj
  start_ : Vector3d
  scale_ : Vector3d

/-- The memory of a program: the free store, a block at every address that was
ever allocated (`none` once the block is deallocated), and the `ObsPen` objects
of the program, by object number. -/
structure Memory where
  heap : List (Option Block)
  objs : List ObsPenObj

namespace Memory

/-- The array of doubles that `o` denotes; undefined when its block is not an
allocated block of doubles. -/
def readDoubles (m : Memory) (o : ArrayObj) : Option (MultiArray ℚ) :=
  match m.heap[o.base]? with
  | some (some (Block.doubles d)) => some ⟨o.shape0, o.shape1, o.shape2, d⟩
  | _ => none

/-- The array of vectors that `o` denotes; undefined when its block is not an
allocated block of vectors. -/
def readVectors (m : Memory) (o : ArrayObj) : Option (MultiArray Vector3d) :=
  match m.heap[o.base]? with
  | some (some (Block.vectors d)) => some ⟨o.shape0, o.shape1, o.shape2, d⟩
  | _ => none

/-- The statements `start_ = start; scale_ = scale;` in object `self`. -/
def setStartScale (m : Memory) (self : Nat) (start scale : Vector3d) : Option Memory := do
  let o ← m.objs[self]?
  pure { m with objs := m.objs.set self { o with start_ := start, scale_ := scale } }

/-- The call `pen_.resize(boost::extents[n0][n1][n2])` in object `self`: a new
block is allocated and filled as `MultiArray.resize` says, the old block is
deallocated and `pen_` owns the new one. -/
def resizePen (m : Memory) (self : Nat) (n0 n1 n2 : Nat) : Option Memory := do
  let o ← m.objs[self]?
  let a ← m.readDoubles o.pen_
  pure { heap := m.heap.set o.pen_.base none ++
           [some (Block.doubles (a.resize 0 n0 n1 n2).data)],
         objs := m.objs.set self { o with pen_ := ⟨n0, n1, n2, m.heap.length⟩ } }

/-- The call `penGrad_.resize(boost::extents[n0][n1][n2])` in object `self`. -/
def resizeGrad (m : Memory) (self : Nat) (uninit : Vector3d) (n0 n1 n2 : Nat) :
    Option Memory := do
  let o ← m.objs[self]?
  let a ← m.readVectors o.penGrad_
  pure { heap := m.heap.set o.penGrad_.base none ++
           [some (Block.vectors (a.resize uninit n0 n1 n2).data)],
         objs := m.objs.set self { o with penGrad_ := ⟨n0, n1, n2, m.heap.length⟩ } }

/-- The call `std::memcpy(pen_.data(), penality.data(), n*sizeof(double))` in
object `self`: it writes into the block of `pen_`. -/
def memcpyPen (m : Memory) (self : Nat) (penality : List ℚ) (n : Nat) : Option Memory := do
  let o ← m.objs[self]?
  let a ← m.readDoubles o.pen_
  let d ← memcpyDoubles a.data penality n
  pure { m with heap := m.heap.set o.pen_.base (some (Block.doubles d)) }

/-- The triple loop of `setPen` in object `self`: it writes into the block of
`penGrad_`. -/
def loopGrad (m : Memory) (self : Nat) (penalityGradX penalityGradY penalityGradZ : List ℚ)
    (sizeX sizeY sizeZ : Nat) : Option Memory := do
  let o ← m.objs[self]?
  let a ← m.readVectors o.penGrad_
  let st ← setPenLoop penalityGradX penalityGradY penalityGradZ sizeX sizeY sizeZ a
  pure { m with heap := m.heap.set o.penGrad_.base (some (Block.vectors st.1.data)) }

/-- The statement `pen_ = op.pen_;` in object `self`: the elements of the block
of `op.pen_` are copied into the block of `pen_`. -/
def assignPen (m : Memory) (self op : Nat) : Option Memory := do
  let o ← m.objs[self]?
  let src ← m.objs[op]?
  let dst ← m.readDoubles o.pen_
  let s ← m.readDoubles src.pen_
  let r ← dst.assign s
  pure { m with heap := m.heap.set o.pen_.base (some (Block.doubles r.data)) }

/-- The statement `penGrad_ = op.penGrad_;` in object `self`. -/
def assignGrad (m : Memory) (self op : Nat) : Option Memory := do
  let o ← m.objs[self]?
  let src ← m.objs[op]?
  let dst ← m.readVectors o.penGrad_
  let s ← m.readVectors src.penGrad_
  let r ← dst.assign s
  pure { m with heap := m.heap.set o.penGrad_.base (some (Block.vectors r.data)) }

/-- The method `ObsPen::setPen` called on object `self`, statement by
statement. -/
def setPen (m : Memory) (self : Nat) (start scale : Vector3d) (sizeX sizeY sizeZ : Int)
    (penality penalityGradX penalityGradY penalityGradZ : List ℚ)
    (uninit : Vector3d) : Option Memory :=
  if isInt sizeX ∧ isInt sizeY ∧ isInt sizeZ ∧ 0 ≤ sizeX ∧ 0 ≤ sizeY ∧ 0 ≤ sizeZ then do
    let m ← m.setStartScale self start scale
    let m ← m.resizePen self sizeX.toNat sizeY.toNat sizeZ.toNat
    let m ← m.resizeGrad self uninit sizeX.toNat sizeY.toNat sizeZ.toNat
    let n ← imul (← imul sizeX sizeY) sizeZ
    let m ← m.memcpyPen self penality n.toNat
    m.loopGrad self penalityGradX penalityGradY penalityGradZ
      sizeX.toNat sizeY.toNat sizeZ.toNat
  else none

/-- The operator `ObsPen::operator=` called on object `self` with argument
object `op`, statement by statement. -/
def assign (m : Memory) (self op : Nat) (uninit : Vector3d) : Option Memory := do
  let src ← m.objs[op]?
  let m ← m.resizePen self src.pen_.shape0 src.pen_.shape1 src.pen_.shape2
  let m ← m.assignPen self op
  let src ← m.objs[op]?
  let m ← m.resizeGrad self uninit src.penGrad_.shape0 src.penGrad_.shape1 src.penGrad_.shape2
  let m ← m.assignGrad self op
  let src ← m.objs[op]?
  m.setStartScale self src.start_ src.scale_

/-- The method `ObsPen::penality` called on object `self`. -/
def penality (m : Memory) (self : Nat) (pos : Vector3d) : Option ℚ := do
  let o ← m.objs[self]?
  let a ← m.readDoubles o.pen_
  interpolate3d a (pointToArray pos o.start_ o.scale_)

/-- The method `ObsPen::penalityGrad` called on object `self`. -/
def penalityGrad (m : Memory) (self : Nat) (pos : Vector3d) : Option Vector3d := do
  let o ← m.objs[self]?
  let a ← m.readVectors o.penGrad_
  interpolate3d a (pointToArray pos o.start_ o.scale_)

/-- The field that object `self` holds: its arrays read from their blocks. -/
def load (m : Memory) (self : Nat) : Option ObsPen := do
  let o ← m.objs[self]?
  let pen ← m.readDoubles o.pen_
  let penGrad ← m.readVectors o.penGrad_
  pure ⟨pen, penGrad, o.start_, o.scale_⟩

/-- Object `self` exists and neither of its arrays owns the block at address
`p`, which has been allocated. -/
def Apart (m : Memory) (self : Nat) (p : Nat) : Prop :=
  ∃ o, m.objs[self]? = some o ∧ o.pen_.base ≠ p ∧ o.penGrad_.base ≠ p ∧ p < m.heap.length

/-- The arrays of object `self` own blocks that have been allocated. -/
def Owns (m : Memory) (self : Nat) : Prop :=
  ∀ o, m.objs[self]? = some o → o.pen_.base < m.heap.length ∧ o.penGrad_.base < m.heap.length

/-- What every statement of `setPen` and `operator=` executed in object `self`
does to the memory: no block is removed from the store, the other objects are
untouched, each array of `self` keeps its block or owns one allocated by the
statement, and every block that `self` did not own is untouched. -/
def Step (m m' : Memory) (self : Nat) : Prop :=
  ∃ o o', m.objs[self]? = some o ∧ m'.objs[self]? = some o' ∧
    m.heap.length ≤ m'.heap.length ∧
    (∀ i, i ≠ self → m'.objs[i]? = m.objs[i]?) ∧
    (o'.pen_.base = o.pen_.base ∨
      (m.heap.length ≤ o'.pen_.base ∧ o'.pen_.base < m'.heap.length)) ∧
    (o'.penGrad_.base = o.penGrad_.base ∨
      (m.heap.length ≤ o'.penGrad_.base ∧ o'.penGrad_.base < m'.heap.length)) ∧
    (∀ p, p < m.heap.length → p ≠ o.pen_.base → p ≠ o.penGrad_.base →
      m'.heap[p]? = m.heap[p]?)

/-- The array `pen_` of object `self` owns an allocated block at an address not
below `L`. -/
def PenFresh (L : Nat) (m : Memory) (self : Nat) : Prop :=
  ∃ o, m.objs[self]? = some o ∧ L ≤ o.pen_.base ∧ o.pen_.base < m.heap.length

/-- The array `penGrad_` of object `self` owns an allocated block at an address
not below `L`. -/
def GradFresh (L : Nat) (m : Memory) (self : Nat) : Prop :=
  ∃ o, m.objs[self]? = some o ∧ L ≤ o.penGrad_.base ∧ o.penGrad_.base < m.heap.length

/-- Object `self` is `o`, and the blocks its arrays own are allocated and hold
the elements `dp` and `dg`. -/
def Holds (m : Memory) (self : Nat) (o : ObsPenObj) (dp : List ℚ) (dg : List Vector3d) : Prop :=
  m.objs[self]? = some o ∧ m.heap[o.pen_.base]? = some (some (Block.doubles dp)) ∧
    m.heap[o.penGrad_.base]? = some (some (Block.vectors dg))

end Memory

/-- The field that an object holds whose blocks hold the elements `dp` and
`dg`. -/
def ObsPenObj.value (o : ObsPenObj) (dp : List ℚ) (dg : List Vector3d) : ObsPen :=
  ⟨⟨o.pen_.shape0, o.pen_.shape1, o.pen_.shape2, dp⟩,
   ⟨o.penGrad_.shape0, o.penGrad_.shape1, o.penGrad_.shape2, dg⟩, o.start_, o.scale_⟩

/-- A memory with two `ObsPen` objects: object `0` holds the grids of
`ObsPenTest` in the blocks `0` and `1`, object `1` is empty and owns the empty
blocks `2` and `3`. -/
def ObsPenTest.twoObjects : Memory :=
  { heap := [some (Block.doubles ObsPenTest.pen),
             some (Block.vectors ((List.range 27).map
               (gradAt ObsPenTest.penGradX ObsPenTest.penGradY ObsPenTest.penGradZ))),
             some (Block.doubles []), some (Block.vectors [])],
    objs := [⟨⟨3, 3, 3, 0⟩, ⟨3, 3, 3, 1⟩, 0, ⟨1, 1, 1⟩⟩,
             ⟨⟨0, 0, 0, 2⟩, ⟨0, 0, 0, 3⟩, 0, 0⟩] }

/-- A memory with two `ObsPen` objects whose arrays share their storage: both
hold the grids of `ObsPenTest` in the blocks `0` and `1`. -/
def ObsPenTest.sharedObjects : Memory :=
  { heap := [some (Block.doubles ObsPenTest.pen),
             some (Block.vectors ((List.range 27).map
               (gradAt ObsPenTest.penGradX ObsPenTest.penGradY ObsPenTest.penGradZ)))],
    objs := [⟨⟨3, 3, 3, 0⟩, ⟨3, 3, 3, 1⟩, 0, ⟨1, 1, 1⟩⟩,
             ⟨⟨3, 3, 3, 0⟩, ⟨3, 3, 3, 1⟩, 0, ⟨1, 1, 1⟩⟩] }

/-! ## Lemmas: `Vector3d` -/

namespace Vector3d

@[simp] theorem zero_x : (0 : Vector3d).x = 0 := rfl
@[simp] theorem zero_y : (0 : Vector3d).y = 0 := rfl
@[simp] theorem zero_z : (0 : Vector3d).z = 0 := rfl
@[simp] theorem add_x (a b : Vector3d) : (a + b).x = a.x + b.x := rfl
@[simp] theorem add_y (a b : Vector3d) : (a + b).y = a.y + b.y := rfl
@[simp] theorem add_z (a b : Vector3d) : (a + b).z = a.z + b.z := rfl
@[simp] theorem neg_x (a : Vector3d) : (-a).x = -a.x := rfl
@[simp] theorem neg_y (a : Vector3d) : (-a).y = -a.y := rfl
@[simp] theorem neg_z (a : Vector3d) : (-a).z = -a.z := rfl
@[simp] theorem sub_x (a b : Vector3d) : (a - b).x = a.x - b.x := rfl
@[simp] theorem sub_y (a b : Vector3d) : (a - b).y = a.y - b.y := rfl
@[simp] theorem sub_z (a b : Vector3d) : (a - b).z = a.z - b.z := rfl
@[simp] theorem smul_x (c : ℚ) (a : Vector3d) : (c • a).x = c * a.x := rfl
@[simp] theorem smul_y (c : ℚ) (a : Vector3d) : (c • a).y = c * a.y := rfl
@[simp] theorem smul_z (c : ℚ) (a : Vector3d) : (c • a).z = c * a.z := rfl

end Vector3d

/-! ## Lemmas: machine integers and the bounds test -/

theorem sizePred_of_pos {n : Nat} (h1 : 1 ≤ n) (h2 : n < SIZE_MOD) : sizePred n = n - 1 := by
  unfold sizePred SIZE_MOD at *
  omega

theorem int_max_lt_size_mod {n : Nat} (h : (n : Int) ≤ INT_MAX) : n < SIZE_MOD := by
  unfold INT_MAX at h; unfold SIZE_MOD; omega

theorem isInt_iff (z : Int) : isInt z = true ↔ INT_MIN ≤ z ∧ z ≤ INT_MAX := by
  simp [isInt]

theorem isInt_natCast {n : Nat} (h : (n : Int) ≤ INT_MAX) : isInt (n : Int) = true := by
  rw [isInt_iff]; unfold INT_MIN; omega

theorem toInt_of_range {z bound : Int} (hb : bound ≤ INT_MAX) (h0 : 0 ≤ z) (h1 : z ≤ bound) :
    toInt z = some z := by
  have : isInt z = true := by
    rw [isInt_iff]; unfold INT_MIN; omega
  simp [toInt, this]

theorem imul_natCast {m n : Nat} (hm : (m : Int) ≤ INT_MAX) (hn : (n : Int) ≤ INT_MAX)
    (h : ((m * n : Nat) : Int) ≤ INT_MAX) :
    imul (m : Int) (n : Int) = some ((m * n : Nat) : Int) := by
  have := isInt_natCast h
  simp only [imul, isInt_natCast hm, isInt_natCast hn, and_self, if_true, toInt]
  rw [← Nat.cast_mul, this]; simp

theorem inBound_iff (v : ℚ) (n : Nat) :
    inBound v n = true ↔ 0 < v ∧ v < ((sizePred n : Nat) : ℚ) := by
  simp [inBound]

theorem inBound_iff_of_pos {v : ℚ} {n : Nat} (h1 : 1 ≤ n) (h2 : n < SIZE_MOD) :
    inBound v n = true ↔ 0 < v ∧ v < (n : ℚ) - 1 := by
  rw [inBound_iff, sizePred_of_pos h1 h2, Nat.cast_sub h1]; simp

theorem inBound_false_of_edge {v : ℚ} {n : Nat} (h1 : 1 ≤ n) (h2 : n < SIZE_MOD)
    (h : v ≤ 0 ∨ (n : ℚ) - 1 ≤ v) : inBound v n = false := by
  rw [← Bool.not_eq_true, inBound_iff_of_pos h1 h2]
  rintro ⟨a, b⟩
  rcases h with h | h <;> linarith

theorem StrictInterior.one_le {v : ℚ} {n : Nat} (h : StrictInterior v n) : 1 ≤ n := by
  obtain ⟨h0, h1⟩ := h
  rcases Nat.eq_zero_or_pos n with hn | hn
  · subst hn; norm_num at h1; linarith
  · exact hn

theorem inBound_of_strictInterior {v : ℚ} {n : Nat} (hn : n < SIZE_MOD)
    (h : StrictInterior v n) : inBound v n = true :=
  (inBound_iff_of_pos h.one_le hn).mpr h

theorem strictInterior_of_inBound {v : ℚ} {n : Nat} (hn1 : 1 ≤ n) (hn : n < SIZE_MOD)
    (h : inBound v n = true) : StrictInterior v n :=
  (inBound_iff_of_pos hn1 hn).mp h

theorem floor_bounds {v : ℚ} {n : Nat} (h : StrictInterior v n) :
    0 ≤ ⌊v⌋ ∧ ⌊v⌋ + 1 < (n : Int) := by
  obtain ⟨h0, h1⟩ := h
  refine ⟨Int.floor_nonneg.mpr h0.le, ?_⟩
  have h2 : ⌊v⌋ < (n : Int) - 1 := by
    rw [Int.floor_lt]; push_cast; exact h1
  omega

theorem floorInt_low {v : ℚ} {n : Nat} (hn : (n : Int) ≤ INT_MAX) (h : StrictInterior v n) :
    floorInt v = some ⌊v⌋ := by
  obtain ⟨h0, h1⟩ := floor_bounds h
  exact toInt_of_range hn h0 (by omega)

theorem floorInt_high {v : ℚ} {n : Nat} (hn : (n : Int) ≤ INT_MAX) (h : StrictInterior v n) :
    floorInt (v + 1) = some (⌊v⌋ + 1) := by
  obtain ⟨h0, h1⟩ := floor_bounds h
  unfold floorInt
  rw [Int.floor_add_one]
  exact toInt_of_range hn (by omega) h1.le

/-! ## Lemmas: `boost::multi_array` -/

namespace MultiArray

variable {T : Type}

theorem offset_lt (a : MultiArray T) {x y z : Nat} (hx : x < a.shape0) (hy : y < a.shape1)
    (hz : z < a.shape2) : a.offset x y z < a.shape0 * a.shape1 * a.shape2 := by
  unfold offset
  have h1 : x * a.shape1 + y < a.shape0 * a.shape1 := by
    calc x * a.shape1 + y < x * a.shape1 + a.shape1 := by omega
      _ = (x + 1) * a.shape1 := by ring
      _ ≤ a.shape0 * a.shape1 := Nat.mul_le_mul_right _ hx
  calc (x * a.shape1 + y) * a.shape2 + z < (x * a.shape1 + y) * a.shape2 + a.shape2 := by omega
    _ = (x * a.shape1 + y + 1) * a.shape2 := by ring
    _ ≤ a.shape0 * a.shape1 * a.shape2 := Nat.mul_le_mul_right _ h1

theorem validIndex_iff (a : MultiArray T) (x y z : Int) :
    a.validIndex x y z = true ↔
      0 ≤ x ∧ x < a.shape0 ∧ 0 ≤ y ∧ y < a.shape1 ∧ 0 ≤ z ∧ z < a.shape2 := by
  simp [validIndex]

theorem get?_isSome {a : MultiArray T} (hwf : a.WF) {x y z : Int}
    (hv : a.validIndex x y z = true) : ∃ s, a.get? x y z = some s := by
  have h := (a.validIndex_iff x y z).mp hv
  have hlt : a.offset x.toNat y.toNat z.toNat < a.data.length := by
    rw [hwf.1]
    apply a.offset_lt <;> omega
  exact ⟨a.data[a.offset x.toNat y.toNat z.toNat],
    by simp [get?, hv, List.getElem?_eq_getElem hlt]⟩

theorem get?_natCast (a : MultiArray T) {x y z : Nat}
    (hx : x < a.shape0) (hy : y < a.shape1) (hz : z < a.shape2) :
    a.get? (x : Int) (y : Int) (z : Int) = a.data[(x * a.shape1 + y) * a.shape2 + z]? := by
  have hv : a.validIndex (x : Int) (y : Int) (z : Int) = true := by
    rw [validIndex_iff]; omega
  simp [get?, hv, offset]

@[simp] theorem resize_shape0 (a : MultiArray T) (fill : T) (n0 n1 n2 : Nat) :
    (a.resize fill n0 n1 n2).shape0 = n0 := rfl

@[simp] theorem resize_shape1 (a : MultiArray T) (fill : T) (n0 n1 n2 : Nat) :
    (a.resize fill n0 n1 n2).shape1 = n1 := rfl

@[simp] theorem resize_shape2 (a : MultiArray T) (fill : T) (n0 n1 n2 : Nat) :
    (a.resize fill n0 n1 n2).shape2 = n2 := rfl

@[simp] theorem resize_length (a : MultiArray T) (fill : T) (n0 n1 n2 : Nat) :
    (a.resize fill n0 n1 n2).data.length = n0 * n1 * n2 := by
  simp [resize]

end MultiArray

theorem offset_lt_of {sx sy sz x y z : Nat} (hx : x < sx) (hy : y < sy) (hz : z < sz) :
    (x * sy + y) * sz + z < sx * sy * sz :=
  MultiArray.offset_lt (⟨sx, sy, sz, ([] : List Unit)⟩) hx hy hz

theorem getElem?_some_of_lt {α : Type} (l : List α) {n : Nat} (h : n < l.length) :
    ∃ v, l[n]? = some v := ⟨l[n], List.getElem?_eq_getElem h⟩

/-! ## Lemmas: `interpolate3d` -/

theorem interpolate3d_outside {T : Type} [AddCommGroup T] [Module ℚ T]
    (a : MultiArray T) (p : Vector3d)
    (h : inBound p.x a.shape0 = false ∨ inBound p.y a.shape1 = false ∨
      inBound p.z a.shape2 = false) : interpolate3d a p = some 0 := by
  unfold interpolate3d
  rw [if_pos]
  rcases h with h | h | h <;> simp [h]

theorem axisIndex_valid {T : Type} {a : MultiArray T} {p : Vector3d} (h : a.Interior p)
    (i j k : Bool) :
    a.validIndex (axisIndex p.x i) (axisIndex p.y j) (axisIndex p.z k) = true := by
  obtain ⟨hx, hy, hz⟩ := h
  have bx := floor_bounds hx
  have bY := floor_bounds hy
  have bz := floor_bounds hz
  rw [MultiArray.validIndex_iff]
  unfold axisIndex
  simp only [Int.floor_add_one]
  cases i <;> cases j <;> cases k <;> simp <;> omega

/-- Inside the strict interior of a well-formed grid the eight corners are read
successfully and the nested blend of the code is the flat eight-term sum. -/
theorem interpolate3d_interior {T : Type} [AddCommGroup T] [Module ℚ T]
    (a : MultiArray T) (p : Vector3d) (hwf : a.WF) (h : a.Interior p) :
    ∃ s : Bool → Bool → Bool → T,
      (∀ i j k, a.get? (axisIndex p.x i) (axisIndex p.y j) (axisIndex p.z k) = some (s i j k)) ∧
      interpolate3d a p = some
        (cornerWeight p false false false • s false false false
          + cornerWeight p true false false • s true false false
          + cornerWeight p false true false • s false true false
          + cornerWeight p true true false • s true true false
          + cornerWeight p false false true • s false false true
          + cornerWeight p true false true • s true false true
          + cornerWeight p false true true • s false true true
          + cornerWeight p true true true • s true true true) := by
  have hs : ∀ i j k, ∃ s, a.get? (axisIndex p.x i) (axisIndex p.y j) (axisIndex p.z k) = some s :=
    fun i j k => MultiArray.get?_isSome hwf (axisIndex_valid h i j k)
  choose s hs using hs
  refine ⟨s, hs, ?_⟩
  obtain ⟨hx, hy, hz⟩ := h
  have ix := inBound_of_strictInterior (int_max_lt_size_mod hwf.2.1) hx
  have iy := inBound_of_strictInterior (int_max_lt_size_mod hwf.2.2.1) hy
  have iz := inBound_of_strictInterior (int_max_lt_size_mod hwf.2.2.2) hz
  have e000 := hs false false false
  have e100 := hs true false false
  have e010 := hs false true false
  have e110 := hs true true false
  have e001 := hs false false true
  have e101 := hs true false true
  have e011 := hs false true true
  have e111 := hs true true true
  simp only [axisIndex, Int.floor_add_one, Bool.false_eq_true, if_false, if_true]
    at e000 e100 e010 e110 e001 e101 e011 e111
  simp only [interpolate3d, ix, iy, iz, Bool.not_true, Bool.or_self, Bool.false_eq_true, if_false,
    floorInt_low hwf.2.1 hx, floorInt_high hwf.2.1 hx, floorInt_low hwf.2.2.1 hy,
    floorInt_high hwf.2.2.1 hy, floorInt_low hwf.2.2.2 hz, floorInt_high hwf.2.2.2 hz,
    Option.bind_eq_bind, Option.some_bind, blendX, e000, e100, e010, e110, e001, e101, e011, e111,
    Option.pure_def, cornerWeight, axisWeight, Int.floor_add_one, if_true, Option.some.injEq]
  push_cast
  module

/-- Evaluation of `interpolate3d` at a point whose floors and corner samples are known. -/
theorem interpolate3d_eval {T : Type} [AddCommGroup T] [Module ℚ T]
    (a : MultiArray T) (p : Vector3d) (x0 y0 z0 : Nat)
    (hx : ⌊p.x⌋ = x0) (hy : ⌊p.y⌋ = y0) (hz : ⌊p.z⌋ = z0)
    (bx : inBound p.x a.shape0 = true) (bY : inBound p.y a.shape1 = true)
    (bz : inBound p.z a.shape2 = true)
    (mx : ((x0 : Int) + 1) ≤ INT_MAX) (my : ((y0 : Int) + 1) ≤ INT_MAX)
    (mz : ((z0 : Int) + 1) ≤ INT_MAX)
    (a000 a100 a010 a110 a001 a101 a011 a111 : T)
    (e000 : a.get? x0 y0 z0 = some a000) (e100 : a.get? (x0 + 1) y0 z0 = some a100)
    (e010 : a.get? x0 (y0 + 1) z0 = some a010) (e110 : a.get? (x0 + 1) (y0 + 1) z0 = some a110)
    (e001 : a.get? x0 y0 (z0 + 1) = some a001) (e101 : a.get? (x0 + 1) y0 (z0 + 1) = some a101)
    (e011 : a.get? x0 (y0 + 1) (z0 + 1) = some a011)
    (e111 : a.get? (x0 + 1) (y0 + 1) (z0 + 1) = some a111) :
    interpolate3d a p = some
      ((z0 + 1 - p.z) • ((y0 + 1 - p.y) • ((x0 + 1 - p.x) • a000 + (p.x - x0) • a100)
          + (p.y - y0) • ((x0 + 1 - p.x) • a010 + (p.x - x0) • a110))
        + (p.z - z0) • ((y0 + 1 - p.y) • ((x0 + 1 - p.x) • a001 + (p.x - x0) • a101)
          + (p.y - y0) • ((x0 + 1 - p.x) • a011 + (p.x - x0) • a111))) := by
  have fl : ∀ (v : ℚ) (n : Nat), ⌊v⌋ = n → (n : Int) + 1 ≤ INT_MAX →
      floorInt v = some (n : Int) ∧ floorInt (v + 1) = some ((n : Int) + 1) := by
    intro v n hv hm
    unfold floorInt
    rw [Int.floor_add_one, hv]
    have h0 : (0 : Int) ≤ n := Int.natCast_nonneg n
    exact ⟨toInt_of_range hm h0 (by omega), toInt_of_range hm (by omega) le_rfl⟩
  obtain ⟨fx0, fx1⟩ := fl _ _ hx mx
  obtain ⟨fy0, fy1⟩ := fl _ _ hy my
  obtain ⟨fz0, fz1⟩ := fl _ _ hz mz
  simp only [interpolate3d, bx, bY, bz, Bool.not_true, Bool.or_self, Bool.false_eq_true, if_false,
    fx0, fx1, fy0, fy1, fz0, fz1, Option.bind_eq_bind, Option.some_bind, blendX,
    e000, e100, e010, e110, e001, e101, e011, e111, Option.pure_def]
  push_cast
  rfl

theorem axisWeight_low_add_high (v : ℚ) : axisWeight v false + axisWeight v true = 1 := by
  simp only [axisWeight, Int.floor_add_one, if_true, Bool.false_eq_true, if_false]
  push_cast; ring

theorem axisWeight_mem (v : ℚ) (b : Bool) : 0 ≤ axisWeight v b ∧ axisWeight v b ≤ 1 := by
  have h1 := Int.floor_le v
  have h2 := Int.lt_floor_add_one v
  cases b <;> simp only [axisWeight, Int.floor_add_one, if_true, Bool.false_eq_true, if_false] <;>
    push_cast <;> constructor <;> linarith

theorem pointToArray_unit (p : Vector3d) : pointToArray p 0 ⟨1, 1, 1⟩ = p := by
  ext <;> simp [pointToArray]

/-! ## Lemmas: the loops of `setPen` -/

/-- Total-correctness rule for a counted loop in the `Option` monad. -/
theorem foldlM_range_total {σ : Type} (f : σ → Nat → Option σ) (Inv : Nat → σ → Prop)
    (n : Nat) (s0 : σ) (h0 : Inv 0 s0)
    (step : ∀ k s, k < n → Inv k s → ∃ s', f s k = some s' ∧ Inv (k + 1) s') :
    ∃ s', (List.range n).foldlM f s0 = some s' ∧ Inv n s' := by
  induction n with
  | zero => exact ⟨s0, by simp, h0⟩
  | succ m ih =>
    obtain ⟨s1, h1, i1⟩ := ih fun k s hk hi => step k s (Nat.lt_succ_of_lt hk) hi
    obtain ⟨s2, h2, i2⟩ := step m s1 (Nat.lt_succ_self m) i1
    refine ⟨s2, ?_, i2⟩
    rw [List.range_succ, List.foldlM_append, h1]
    simp [h2]

/-- Partial-correctness rule: a property kept by every step is kept by the loop. -/
theorem foldlM_preserves {σ α : Type} (f : σ → α → Option σ) (P : σ → Prop)
    (step : ∀ s k s', f s k = some s' → P s → P s') :
    ∀ (l : List α) (s0 s' : σ), l.foldlM f s0 = some s' → P s0 → P s' := by
  intro l
  induction l with
  | nil => intro s0 s' h hp; simp at h; exact h ▸ hp
  | cons k t ih =>
    intro s0 s' h hp
    rw [List.foldlM_cons] at h
    cases hk : f s0 k with
    | none => simp [hk] at h
    | some s1 =>
      rw [hk] at h
      exact ih s1 s' (by simpa using h) (step s0 k s1 hk hp)

theorem setPenBody_step (gX gY gZ : List ℚ) {sx sy sz x y z : Nat}
    (hx : x < sx) (hy : y < sy) (hz : z < sz)
    (hX : sx * sy * sz ≤ gX.length) (hY : sx * sy * sz ≤ gY.length)
    (hZ : sx * sy * sz ≤ gZ.length) (st : MultiArray Vector3d × Nat)
    (h : LoopInv gX gY gZ sx sy sz ((x * sy + y) * sz + z) st) :
    ∃ st', setPenBody gX gY gZ x y z st = some st' ∧
      LoopInv gX gY gZ sx sy sz ((x * sy + y) * sz + (z + 1)) st' := by
  obtain ⟨hi, h0, h1, h2, hlen, hdata⟩ := h
  have hlt := offset_lt_of hx hy hz
  have eX : gX[st.2]? = some (gX[st.2]?.getD 0) := by
    rw [List.getElem?_eq_getElem (by omega)]; rfl
  have eY : gY[st.2]? = some (gY[st.2]?.getD 0) := by
    rw [List.getElem?_eq_getElem (by omega)]; rfl
  have eZ : gZ[st.2]? = some (gZ[st.2]?.getD 0) := by
    rw [List.getElem?_eq_getElem (by omega)]; rfl
  have hv : st.1.validIndex x y z = true := by
    rw [MultiArray.validIndex_iff]; omega
  have hoff : st.1.offset x y z = st.2 := by
    simp [MultiArray.offset, h1, h2, hi]
  refine ⟨(⟨st.1.shape0, st.1.shape1, st.1.shape2,
      st.1.data.set st.2 (gradAt gX gY gZ st.2)⟩, st.2 + 1), ?_, ?_⟩
  · unfold setPenBody
    rw [eX, eY, eZ]
    simp [MultiArray.set?, hv, hoff, gradAt]
  · refine ⟨by simp; omega, h0, h1, h2, by simpa using hlen, ?_⟩
    intro j hj
    simp only
    by_cases hji : j = st.2
    · subst hji
      rw [List.getElem?_set_self (by omega)]
    · rw [List.getElem?_set_ne (Ne.symm hji)]
      exact hdata j (by omega)

theorem setPenLoop_total (gX gY gZ : List ℚ) (sx sy sz : Nat)
    (hX : sx * sy * sz ≤ gX.length) (hY : sx * sy * sz ≤ gY.length)
    (hZ : sx * sy * sz ≤ gZ.length) (grid : MultiArray Vector3d)
    (h0 : grid.shape0 = sx) (h1 : grid.shape1 = sy) (h2 : grid.shape2 = sz)
    (hlen : grid.data.length = sx * sy * sz) :
    ∃ st, setPenLoop gX gY gZ sx sy sz grid = some st ∧
      LoopInv gX gY gZ sx sy sz (sx * sy * sz) st := by
  unfold setPenLoop
  have hz : ∀ x y, x < sx → y < sy → ∀ st, LoopInv gX gY gZ sx sy sz ((x * sy + y) * sz) st →
      ∃ st', (List.range sz).foldlM (fun st z => setPenBody gX gY gZ x y z st) st = some st' ∧
        LoopInv gX gY gZ sx sy sz ((x * sy + (y + 1)) * sz) st' := by
    intro x y hx hy st hst
    have e : (x * sy + (y + 1)) * sz = (x * sy + y) * sz + sz := by ring
    rw [e]
    exact foldlM_range_total _ (fun k => LoopInv gX gY gZ sx sy sz ((x * sy + y) * sz + k)) sz st
      (by simpa using hst)
      (fun k s hk hs => setPenBody_step gX gY gZ hx hy hk hX hY hZ s hs)
  have hy : ∀ x, x < sx → ∀ st, LoopInv gX gY gZ sx sy sz (x * sy * sz) st →
      ∃ st', (List.range sy).foldlM (fun st y =>
          (List.range sz).foldlM (fun st z => setPenBody gX gY gZ x y z st) st) st = some st' ∧
        LoopInv gX gY gZ sx sy sz ((x + 1) * sy * sz) st' := by
    intro x hx st hst
    have e : (x + 1) * sy * sz = (x * sy + sy) * sz := by ring
    rw [e]
    exact foldlM_range_total _ (fun k => LoopInv gX gY gZ sx sy sz ((x * sy + k) * sz)) sy st
      (by simpa using hst)
      (fun k s hk hs => hz x k hx hk s hs)
  exact foldlM_range_total
    (fun st x => (List.range sy).foldlM (fun st y =>
          (List.range sz).foldlM (fun st z => setPenBody gX gY gZ x y z st) st) st)
    (fun k => LoopInv gX gY gZ sx sy sz (k * sy * sz)) sx (grid, 0)
    ⟨by simp, h0, h1, h2, hlen, by simp⟩
    (fun k s hk hs => hy k hk s hs)

theorem setPenBody_shape (gX gY gZ : List ℚ) (x y z : Nat) (st st' : MultiArray Vector3d × Nat)
    (h : setPenBody gX gY gZ x y z st = some st') :
    st'.1.shape0 = st.1.shape0 ∧ st'.1.shape1 = st.1.shape1 ∧ st'.1.shape2 = st.1.shape2 ∧
    st'.1.data.length = st.1.data.length := by
  unfold setPenBody at h
  simp only [Option.bind_eq_bind, Option.bind_eq_some, Option.pure_def, Option.some.injEq] at h
  obtain ⟨_, _, _, _, _, _, g, hg, rfl⟩ := h
  unfold MultiArray.set? at hg
  split at hg
  · simp only [Option.some.injEq] at hg
    subst hg; exact ⟨rfl, rfl, rfl, by simp⟩
  · simp at hg

/-- Whenever the triple loop finishes, the extents and the storage size of the
grid are those it started with. -/
theorem setPenLoop_shape (gX gY gZ : List ℚ) (sx sy sz : Nat) (grid : MultiArray Vector3d)
    (st : MultiArray Vector3d × Nat) (h : setPenLoop gX gY gZ sx sy sz grid = some st) :
    st.1.shape0 = grid.shape0 ∧ st.1.shape1 = grid.shape1 ∧ st.1.shape2 = grid.shape2 ∧
    st.1.data.length = grid.data.length := by
  let P : MultiArray Vector3d × Nat → Prop := fun s =>
    s.1.shape0 = grid.shape0 ∧ s.1.shape1 = grid.shape1 ∧ s.1.shape2 = grid.shape2 ∧
    s.1.data.length = grid.data.length
  have hb : ∀ x y z s s', setPenBody gX gY gZ x y z s = some s' → P s → P s' := by
    intro x y z s s' hs hp
    obtain ⟨a, b, c, d⟩ := setPenBody_shape gX gY gZ x y z s s' hs
    exact ⟨a.trans hp.1, b.trans hp.2.1, c.trans hp.2.2.1, d.trans hp.2.2.2⟩
  have hz : ∀ x y s s', (List.range sz).foldlM (fun st z => setPenBody gX gY gZ x y z st) s
      = some s' → P s → P s' :=
    fun x y s s' => foldlM_preserves _ P (fun s z s' => hb x y z s s') _ s s'
  have hy : ∀ x s s', (List.range sy).foldlM (fun st y =>
      (List.range sz).foldlM (fun st z => setPenBody gX gY gZ x y z st) st) s = some s' →
      P s → P s' :=
    fun x s s' => foldlM_preserves _ P (fun s y s' => hz x y s s') _ s s'
  exact foldlM_preserves _ P (fun s x s' => hy x s s') _ _ _ h ⟨rfl, rfl, rfl, rfl⟩

theorem memcpyDoubles_length {dst src d : List ℚ} {n : Nat}
    (h : memcpyDoubles dst src n = some d) : d.length = dst.length := by
  unfold memcpyDoubles at h
  split at h
  · rename_i hn
    simp only [Option.some.injEq] at h
    subst h
    simp only [List.length_append, List.length_take, List.length_drop]
    omega
  · simp at h

/-! ## Lemmas: `ObsPen::setPen` -/

/-- Closed form of a successful `setPen` on natural extents: the penalty grid holds
the first `nx*ny*nz` elements of `penality`, the gradient grid the recombined
triples, in the same flat order; nothing of the prior state is left. -/
theorem setPen_eq_nat (self : ObsPen) (start scale : Vector3d) (nx ny nz : Nat)
    (penality gX gY gZ : List ℚ) (uninit : Vector3d)
    (hx : (nx : Int) ≤ INT_MAX) (hy : (ny : Int) ≤ INT_MAX) (hz : (nz : Int) ≤ INT_MAX)
    (hxy : ((nx * ny : Nat) : Int) ≤ INT_MAX) (hxyz : ((nx * ny * nz : Nat) : Int) ≤ INT_MAX)
    (hp : nx * ny * nz ≤ penality.length) (hX : nx * ny * nz ≤ gX.length)
    (hY : nx * ny * nz ≤ gY.length) (hZ : nx * ny * nz ≤ gZ.length) :
    self.setPen start scale nx ny nz penality gX gY gZ uninit = some
      { pen_ := ⟨nx, ny, nz, penality.take (nx * ny * nz)⟩,
        penGrad_ := ⟨nx, ny, nz, (List.range (nx * ny * nz)).map (gradAt gX gY gZ)⟩,
        start_ := start, scale_ := scale } := by
  obtain ⟨st, hst, -, s0, s1, s2, slen, sdata⟩ := setPenLoop_total gX gY gZ nx ny nz hX hY hZ
    (self.penGrad_.resize uninit nx ny nz) rfl rfl rfl (by simp)
  have hgrid : st.1 = ⟨nx, ny, nz, (List.range (nx * ny * nz)).map (gradAt gX gY gZ)⟩ := by
    have hd : st.1.data = (List.range (nx * ny * nz)).map (gradAt gX gY gZ) := by
      apply List.ext_getElem?
      intro j
      by_cases hj : j < nx * ny * nz
      · rw [sdata j hj, List.getElem?_map, List.getElem?_range hj]; rfl
      · rw [List.getElem?_eq_none (by omega), List.getElem?_eq_none (by simp; omega)]
    cases hs : st.1 with
    | mk a b c d =>
      rw [hs] at s0 s1 s2 hd
      simp only at s0 s1 s2 hd
      subst s0 s1 s2 hd
      rfl
  have hmem : memcpyDoubles (self.pen_.resize 0 nx ny nz).data penality (nx * ny * nz)
      = some (penality.take (nx * ny * nz)) := by
    unfold memcpyDoubles
    rw [if_pos ⟨hp, by simp⟩, List.drop_of_length_le (by simp)]
    simp
  unfold ObsPen.setPen
  rw [if_pos ⟨isInt_natCast hx, isInt_natCast hy, isInt_natCast hz, by omega, by omega, by omega⟩]
  simp only [Option.bind_eq_bind, imul_natCast hx hy hxy, Option.some_bind,
    imul_natCast (by exact_mod_cast hxy) hz hxyz, Int.toNat_ofNat, hmem, hst,
    Option.pure_def, hgrid]
  rfl

/-- What a successful `setPen` fixes whatever the sequences hold: the sizes were
non-negative `int`s, both grids have these extents and are well formed, `start`
and `scale` are stored. -/
theorem setPen_frame {self : ObsPen} {start scale : Vector3d} {sizeX sizeY sizeZ : Int}
    {penality gX gY gZ : List ℚ} {uninit : Vector3d} {f : ObsPen}
    (h : self.setPen start scale sizeX sizeY sizeZ penality gX gY gZ uninit = some f) :
    (0 ≤ sizeX ∧ sizeX ≤ INT_MAX) ∧ (0 ≤ sizeY ∧ sizeY ≤ INT_MAX) ∧
    (0 ≤ sizeZ ∧ sizeZ ≤ INT_MAX) ∧
    f.start_ = start ∧ f.scale_ = scale ∧
    (f.pen_.shape0 = sizeX.toNat ∧ f.pen_.shape1 = sizeY.toNat ∧ f.pen_.shape2 = sizeZ.toNat) ∧
    (f.penGrad_.shape0 = sizeX.toNat ∧ f.penGrad_.shape1 = sizeY.toNat ∧
      f.penGrad_.shape2 = sizeZ.toNat) ∧
    f.pen_.WF ∧ f.penGrad_.WF := by
  unfold ObsPen.setPen at h
  split at h
  · rename_i hg
    obtain ⟨ix, iy, iz, px, py, pz⟩ := hg
    rw [isInt_iff] at ix iy iz
    simp only [Option.bind_eq_bind, Option.bind_eq_some, Option.pure_def, Option.some.injEq] at h
    obtain ⟨_, _, _, _, d, hd, st, hst, rfl⟩ := h
    obtain ⟨s0, s1, s2, sl⟩ := setPenLoop_shape _ _ _ _ _ _ _ _ hst
    have dl := memcpyDoubles_length hd
    have cx : ((sizeX.toNat : Nat) : Int) ≤ INT_MAX := by rw [Int.toNat_of_nonneg px]; exact ix.2
    have cy : ((sizeY.toNat : Nat) : Int) ≤ INT_MAX := by rw [Int.toNat_of_nonneg py]; exact iy.2
    have cz : ((sizeZ.toNat : Nat) : Int) ≤ INT_MAX := by rw [Int.toNat_of_nonneg pz]; exact iz.2
    refine ⟨⟨px, ix.2⟩, ⟨py, iy.2⟩, ⟨pz, iz.2⟩, rfl, rfl, ⟨rfl, rfl, rfl⟩, ⟨s0, s1, s2⟩,
      ⟨?_, cx, cy, cz⟩, ⟨?_, ?_, ?_, ?_⟩⟩
    · simpa using dl
    · rw [sl, s0, s1, s2]; simp
    · rw [s0]; exact cx
    · rw [s1]; exact cy
    · rw [s2]; exact cz
  · simp at h

/-! ## Claims -/

/-- C1: for every well-formed grid (any sample type that is a `ℚ`-module, so
scalars and 3-vectors) and every fractional coordinate in the strict interior
on all three axes, `interpolate3d` reads the 8 corner samples
`array[xi][yj][zk]` (`xi` in `{floor x, floor (x+1)}`, likewise `y`, `z`) and
returns the flat sum of these samples weighted by the product of the three
per-axis factors (`dm` for the low index, `d` for the high index). -/
theorem interpolate3d_eq_corner_sum {T : Type} [AddCommGroup T] [Module ℚ T]
    (array : MultiArray T) (arrPoint : Vector3d) (hwf : array.WF)
    (hin : array.Interior arrPoint) :
    ∃ s : Bool → Bool → Bool → T,
      (∀ i j k, array.get? (axisIndex arrPoint.x i) (axisIndex arrPoint.y j)
        (axisIndex arrPoint.z k) = some (s i j k)) ∧
      interpolate3d array arrPoint = some
        (cornerWeight arrPoint false false false • s false false false
          + cornerWeight arrPoint true false false • s true false false
          + cornerWeight arrPoint false true false • s false true false
          + cornerWeight arrPoint true true false • s true true false
          + cornerWeight arrPoint false false true • s false false true
          + cornerWeight arrPoint true false true • s true false true
          + cornerWeight arrPoint false true true • s false true true
          + cornerWeight arrPoint true true true • s true true true) :=
  interpolate3d_interior array arrPoint hwf hin

/-- C1, witness: the penalty grid of `ObsPenTest` at the test's first point. -/
theorem interpolate3d_eq_corner_sum_witness :
    ∃ s : Bool → Bool → Bool → ℚ,
      (∀ i j k, (⟨3, 3, 3, ObsPenTest.pen⟩ : MultiArray ℚ).get?
        (axisIndex ObsPenTest.point1.x i) (axisIndex ObsPenTest.point1.y j)
        (axisIndex ObsPenTest.point1.z k) = some (s i j k)) ∧
      interpolate3d (⟨3, 3, 3, ObsPenTest.pen⟩ : MultiArray ℚ) ObsPenTest.point1 = some
        (cornerWeight ObsPenTest.point1 false false false • s false false false
          + cornerWeight ObsPenTest.point1 true false false • s true false false
          + cornerWeight ObsPenTest.point1 false true false • s false true false
          + cornerWeight ObsPenTest.point1 true true false • s true true false
          + cornerWeight ObsPenTest.point1 false false true • s false false true
          + cornerWeight ObsPenTest.point1 true false true • s true false true
          + cornerWeight ObsPenTest.point1 false true true • s false true true
          + cornerWeight ObsPenTest.point1 true true true • s true true true) :=
  interpolate3d_eq_corner_sum ⟨3, 3, 3, ObsPenTest.pen⟩ ObsPenTest.point1
    ⟨rfl, by decide, by decide, by decide⟩
    ⟨by norm_num [StrictInterior, ObsPenTest.point1],
     by norm_num [StrictInterior, ObsPenTest.point1],
     by norm_num [StrictInterior, ObsPenTest.point1]⟩

/-- In exact arithmetic: for every well-formed grid and every coordinate whose
components are integers `i`, `j`, `k` strictly inside `(0, size-1)` on their
axes, `interpolate3d` returns exactly the stored sample `array[i][j][k]`. -/
theorem interpolate3d_at_sample {T : Type} [AddCommGroup T] [Module ℚ T]
    (array : MultiArray T) (i j k : Int) (hwf : array.WF)
    (hi : 0 < i ∧ i < (array.shape0 : Int) - 1) (hj : 0 < j ∧ j < (array.shape1 : Int) - 1)
    (hk : 0 < k ∧ k < (array.shape2 : Int) - 1) :
    ∃ s, array.get? i j k = some s ∧ interpolate3d array ⟨i, j, k⟩ = some s := by
  have conv : ∀ (m : Int) (n : Nat), 0 < m ∧ m < (n : Int) - 1 → StrictInterior (m : ℚ) n := by
    intro m n ⟨h0, h1⟩
    refine ⟨by exact_mod_cast h0, ?_⟩
    have : ((m : Int) : ℚ) < (((n : Int) - 1 : Int) : ℚ) := by exact_mod_cast h1
    simpa using this
  have hint : array.Interior ⟨i, j, k⟩ := ⟨conv i _ hi, conv j _ hj, conv k _ hk⟩
  obtain ⟨s, hs, he⟩ := interpolate3d_interior array ⟨i, j, k⟩ hwf hint
  refine ⟨s false false false, ?_, ?_⟩
  · simpa [axisIndex] using hs false false false
  · rw [he]
    simp [cornerWeight, axisWeight, Int.floor_add_one]

/-- Example for `interpolate3d_at_sample`: the centre sample of the penalty grid of `ObsPenTest`. -/
theorem interpolate3d_at_sample_witness :
    ∃ s, (⟨3, 3, 3, ObsPenTest.pen⟩ : MultiArray ℚ).get? 1 1 1 = some s ∧
      interpolate3d (⟨3, 3, 3, ObsPenTest.pen⟩ : MultiArray ℚ) ⟨(1 : Int), (1 : Int), (1 : Int)⟩
        = some s :=
  interpolate3d_at_sample ⟨3, 3, 3, ObsPenTest.pen⟩ 1 1 1 ⟨rfl, by decide, by decide, by decide⟩
    (by decide) (by decide) (by decide)

/-- In exact arithmetic: for every coordinate in the strict interior of a
well-formed grid, the conversions `int(std::floor(..))` succeed and the 8 corner
weights built from `xd`/`xdm`, `yd`/`ydm`, `zd`/`zdm` each lie in `[0, 1]` and
sum to exactly 1. -/
theorem interpolate3d_weights {T : Type} (array : MultiArray T) (arrPoint : Vector3d)
    (hwf : array.WF) (hin : array.Interior arrPoint) :
    ∃ x0 x1 y0 y1 z0 z1 : Int,
      floorInt arrPoint.x = some x0 ∧ floorInt (arrPoint.x + 1) = some x1 ∧
      floorInt arrPoint.y = some y0 ∧ floorInt (arrPoint.y + 1) = some y1 ∧
      floorInt arrPoint.z = some z0 ∧ floorInt (arrPoint.z + 1) = some z1 ∧
      (∀ wx ∈ [(x1 : ℚ) - arrPoint.x, arrPoint.x - x0],
        ∀ wy ∈ [(y1 : ℚ) - arrPoint.y, arrPoint.y - y0],
        ∀ wz ∈ [(z1 : ℚ) - arrPoint.z, arrPoint.z - z0],
          0 ≤ wx * wy * wz ∧ wx * wy * wz ≤ 1) ∧
      (x1 - arrPoint.x) * (y1 - arrPoint.y) * (z1 - arrPoint.z)
        + (arrPoint.x - x0) * (y1 - arrPoint.y) * (z1 - arrPoint.z)
        + (x1 - arrPoint.x) * (arrPoint.y - y0) * (z1 - arrPoint.z)
        + (arrPoint.x - x0) * (arrPoint.y - y0) * (z1 - arrPoint.z)
        + (x1 - arrPoint.x) * (y1 - arrPoint.y) * (arrPoint.z - z0)
        + (arrPoint.x - x0) * (y1 - arrPoint.y) * (arrPoint.z - z0)
        + (x1 - arrPoint.x) * (arrPoint.y - y0) * (arrPoint.z - z0)
        + (arrPoint.x - x0) * (arrPoint.y - y0) * (arrPoint.z - z0) = 1 := by
  obtain ⟨hx, hy, hz⟩ := hin
  refine ⟨⌊arrPoint.x⌋, ⌊arrPoint.x⌋ + 1, ⌊arrPoint.y⌋, ⌊arrPoint.y⌋ + 1,
    ⌊arrPoint.z⌋, ⌊arrPoint.z⌋ + 1,
    floorInt_low hwf.2.1 hx, floorInt_high hwf.2.1 hx, floorInt_low hwf.2.2.1 hy,
    floorInt_high hwf.2.2.1 hy, floorInt_low hwf.2.2.2 hz, floorInt_high hwf.2.2.2 hz, ?_, ?_⟩
  · intro wx hwx wy hwy wz hwz
    simp only [List.mem_cons, List.mem_singleton, List.not_mem_nil, or_false] at hwx hwy hwz
    have key : ∀ (v w : ℚ), w = ((⌊v⌋ + 1 : Int) : ℚ) - v ∨ w = v - (⌊v⌋ : ℚ) →
        0 ≤ w ∧ w ≤ 1 := by
      intro v w hw
      have h1 := Int.floor_le v
      have h2 := Int.lt_floor_add_one v
      rcases hw with rfl | rfl <;> push_cast <;> constructor <;> linarith
    obtain ⟨a0, a1⟩ := key _ _ hwx
    obtain ⟨b0, b1⟩ := key _ _ hwy
    obtain ⟨c0, c1⟩ := key _ _ hwz
    refine ⟨mul_nonneg (mul_nonneg a0 b0) c0, ?_⟩
    calc wx * wy * wz ≤ 1 * 1 * 1 := by gcongr
      _ = 1 := by norm_num
  · push_cast; ring

/-- Example for `interpolate3d_weights`: the penalty grid of `ObsPenTest` at the test's fourth point. -/
theorem interpolate3d_weights_witness :
    ∃ x0 x1 y0 y1 z0 z1 : Int,
      floorInt ObsPenTest.point4.x = some x0 ∧ floorInt (ObsPenTest.point4.x + 1) = some x1 ∧
      floorInt ObsPenTest.point4.y = some y0 ∧ floorInt (ObsPenTest.point4.y + 1) = some y1 ∧
      floorInt ObsPenTest.point4.z = some z0 ∧ floorInt (ObsPenTest.point4.z + 1) = some z1 ∧
      (∀ wx ∈ [(x1 : ℚ) - ObsPenTest.point4.x, ObsPenTest.point4.x - x0],
        ∀ wy ∈ [(y1 : ℚ) - ObsPenTest.point4.y, ObsPenTest.point4.y - y0],
        ∀ wz ∈ [(z1 : ℚ) - ObsPenTest.point4.z, ObsPenTest.point4.z - z0],
          0 ≤ wx * wy * wz ∧ wx * wy * wz ≤ 1) ∧
      (x1 - ObsPenTest.point4.x) * (y1 - ObsPenTest.point4.y) * (z1 - ObsPenTest.point4.z)
        + (ObsPenTest.point4.x - x0) * (y1 - ObsPenTest.point4.y) * (z1 - ObsPenTest.point4.z)
        + (x1 - ObsPenTest.point4.x) * (ObsPenTest.point4.y - y0) * (z1 - ObsPenTest.point4.z)
        + (ObsPenTest.point4.x - x0) * (ObsPenTest.point4.y - y0) * (z1 - ObsPenTest.point4.z)
        + (x1 - ObsPenTest.point4.x) * (y1 - ObsPenTest.point4.y) * (ObsPenTest.point4.z - z0)
        + (ObsPenTest.point4.x - x0) * (y1 - ObsPenTest.point4.y) * (ObsPenTest.point4.z - z0)
        + (x1 - ObsPenTest.point4.x) * (ObsPenTest.point4.y - y0) * (ObsPenTest.point4.z - z0)
        + (ObsPenTest.point4.x - x0) * (ObsPenTest.point4.y - y0) * (ObsPenTest.point4.z - z0)
        = 1 :=
  interpolate3d_weights (⟨3, 3, 3, ObsPenTest.pen⟩ : MultiArray ℚ) ObsPenTest.point4
    ⟨rfl, by decide, by decide, by decide⟩
    ⟨by norm_num [StrictInterior, ObsPenTest.point4],
     by norm_num [StrictInterior, ObsPenTest.point4],
     by norm_num [StrictInterior, ObsPenTest.point4]⟩

/-- C7 (failing input): at the axis size `n = 0` the unsigned `size - 1` wraps
to `2^64 - 1`, so `inBound(1.0, 0)` is true although `0 < 1 < 0 - 1` is false
over the integers; on the empty grid the query then reads a sample that does
not exist instead of returning the zero fallback. -/
theorem inBound_size_zero :
    inBound 1 0 = true ∧ ¬ ((0 : ℚ) < 1 ∧ (1 : ℚ) < ((0 : Nat) : ℚ) - 1) ∧
    interpolate3d (MultiArray.empty : MultiArray ℚ) ⟨1, 1, 1⟩ = none := by
  refine ⟨by decide, by norm_num, ?_⟩
  have hb : inBound (1 : ℚ) (0 : Nat) = true := by decide
  have f0 : floorInt (1 : ℚ) = some 1 := by
    unfold floorInt; rw [Int.floor_one]; rfl
  have f1 : floorInt ((1 : ℚ) + 1) = some 2 := by
    unfold floorInt; rw [Int.floor_add_one, Int.floor_one]; rfl
  have hr : ∀ x y z : Int, (MultiArray.empty : MultiArray ℚ).get? x y z = none := by
    intro x y z
    have hv : (MultiArray.empty : MultiArray ℚ).validIndex x y z = false := by
      rw [← Bool.not_eq_true, MultiArray.validIndex_iff]
      rintro ⟨a, b, -⟩
      exact absurd b (by simp [MultiArray.empty]; omega)
    simp [MultiArray.get?, hv]
  have e0 : (MultiArray.empty : MultiArray ℚ).shape0 = 0 := rfl
  have e1 : (MultiArray.empty : MultiArray ℚ).shape1 = 0 := rfl
  have e2 : (MultiArray.empty : MultiArray ℚ).shape2 = 0 := rfl
  simp only [interpolate3d, e0, e1, e2, hb, f0, f1, Bool.not_true, Bool.or_self,
    Bool.false_eq_true, if_false, Option.bind_eq_bind, Option.some_bind, blendX, hr,
    Option.none_bind]

/-- C8 (counterexample): on an axis of size 3 the coordinate `1/2`, which lies
in `[0, 1)`, and the coordinate `3/2`, which is past `size - 2`, are both
classified inside. -/
theorem inBound_edge_cell_counterexample :
    ((2 : Nat) ≤ 3 ∧ (0 : ℚ) ≤ 1 / 2 ∧ (1 / 2 : ℚ) < 1 ∧ inBound (1 / 2) 3 = true) ∧
    ((3 / 2 : ℚ) > ((3 : Nat) : ℚ) - 2 ∧ inBound (3 / 2) 3 = true) := by
  refine ⟨⟨by decide, by norm_num, by norm_num, ?_⟩, by norm_num, ?_⟩
  · rw [inBound_iff_of_pos (by decide) (by decide)]; norm_num
  · rw [inBound_iff_of_pos (by decide) (by decide)]; norm_num

/-- C8 (amended): for every axis size `n >= 2` of the size type, a coordinate
`v <= 0` or `v >= n - 1` is classified outside, and a query with an axis
classified outside returns the zero fallback; a coordinate with `0 < v < 1`
or with `n - 2 < v < n - 1` is classified inside. -/
theorem inBound_edge (v : ℚ) (n : Nat) (h2 : 2 ≤ n) (hn : n < SIZE_MOD) :
    ((v ≤ 0 ∨ (n : ℚ) - 1 ≤ v) → inBound v n = false) ∧
    ((0 < v ∧ v < 1) ∨ ((n : ℚ) - 2 < v ∧ v < (n : ℚ) - 1) → inBound v n = true) ∧
    (∀ (T : Type) [AddCommGroup T] [Module ℚ T] (array : MultiArray T) (arrPoint : Vector3d),
      inBound arrPoint.x array.shape0 = false ∨ inBound arrPoint.y array.shape1 = false ∨
        inBound arrPoint.z array.shape2 = false →
      interpolate3d array arrPoint = some 0) := by
  have h1 : 1 ≤ n := by omega
  have hq : (2 : ℚ) ≤ n := by exact_mod_cast h2
  refine ⟨inBound_false_of_edge h1 hn, ?_, fun T _ _ a p h => interpolate3d_outside a p h⟩
  rw [inBound_iff_of_pos h1 hn]
  rintro (⟨a, b⟩ | ⟨a, b⟩)
  · exact ⟨a, by linarith⟩
  · exact ⟨by linarith, b⟩

/-- C8 (amended), witness: on an axis of size 3 the coordinate `5/2` is outside
and the coordinate `1/2` is inside. -/
theorem inBound_edge_witness : inBound (5 / 2) 3 = false ∧ inBound (1 / 2) 3 = true :=
  ⟨(inBound_edge (5 / 2) 3 (by decide) (by decide)).1 (Or.inr (by norm_num)),
   (inBound_edge (1 / 2) 3 (by decide) (by decide)).2.1 (Or.inl (by norm_num))⟩

/-- In exact arithmetic: for every well-formed grid whose three extents are each
`>= 1` and every fractional coordinate, `interpolate3d` returns a value (no
conversion and no read is undefined), and on the interpolating branch each of
`x0`, `x1`, `y0`, `y1`, `z0`, `z1` lies in `[0, size-1]` on its axis, so that
every corner read succeeds without clamping. -/
theorem interpolate3d_indices_in_range {T : Type} [AddCommGroup T] [Module ℚ T]
    (array : MultiArray T) (arrPoint : Vector3d) (hwf : array.WF)
    (h0 : 1 ≤ array.shape0) (h1 : 1 ≤ array.shape1) (h2 : 1 ≤ array.shape2) :
    (∃ r, interpolate3d array arrPoint = some r) ∧
    (inBound arrPoint.x array.shape0 = true → inBound arrPoint.y array.shape1 = true →
      inBound arrPoint.z array.shape2 = true →
      ∃ x0 x1 y0 y1 z0 z1 : Int,
        floorInt arrPoint.x = some x0 ∧ floorInt (arrPoint.x + 1) = some x1 ∧
        floorInt arrPoint.y = some y0 ∧ floorInt (arrPoint.y + 1) = some y1 ∧
        floorInt arrPoint.z = some z0 ∧ floorInt (arrPoint.z + 1) = some z1 ∧
        (∀ x ∈ [x0, x1], 0 ≤ x ∧ x ≤ (array.shape0 : Int) - 1) ∧
        (∀ y ∈ [y0, y1], 0 ≤ y ∧ y ≤ (array.shape1 : Int) - 1) ∧
        (∀ z ∈ [z0, z1], 0 ≤ z ∧ z ≤ (array.shape2 : Int) - 1) ∧
        (∀ x ∈ [x0, x1], ∀ y ∈ [y0, y1], ∀ z ∈ [z0, z1], ∃ s, array.get? x y z = some s)) := by
  have s0 := int_max_lt_size_mod hwf.2.1
  have s1 := int_max_lt_size_mod hwf.2.2.1
  have s2 := int_max_lt_size_mod hwf.2.2.2
  constructor
  · by_cases hb : inBound arrPoint.x array.shape0 = true ∧ inBound arrPoint.y array.shape1 = true
        ∧ inBound arrPoint.z array.shape2 = true
    · obtain ⟨bx, bY, bz⟩ := hb
      obtain ⟨s, -, hs⟩ := interpolate3d_interior array arrPoint hwf
        ⟨strictInterior_of_inBound h0 s0 bx, strictInterior_of_inBound h1 s1 bY,
          strictInterior_of_inBound h2 s2 bz⟩
      exact ⟨_, hs⟩
    · refine ⟨0, interpolate3d_outside array arrPoint ?_⟩
      by_contra hc
      push_neg at hc
      simp only [Bool.not_eq_false] at hc
      exact hb hc
  · intro bx bY bz
    have ix := strictInterior_of_inBound h0 s0 bx
    have iy := strictInterior_of_inBound h1 s1 bY
    have iz := strictInterior_of_inBound h2 s2 bz
    obtain ⟨x0, x1⟩ := floor_bounds ix
    obtain ⟨y0, y1⟩ := floor_bounds iy
    obtain ⟨z0, z1⟩ := floor_bounds iz
    refine ⟨⌊arrPoint.x⌋, ⌊arrPoint.x⌋ + 1, ⌊arrPoint.y⌋, ⌊arrPoint.y⌋ + 1,
      ⌊arrPoint.z⌋, ⌊arrPoint.z⌋ + 1,
      floorInt_low hwf.2.1 ix, floorInt_high hwf.2.1 ix, floorInt_low hwf.2.2.1 iy,
      floorInt_high hwf.2.2.1 iy, floorInt_low hwf.2.2.2 iz, floorInt_high hwf.2.2.2 iz,
      ?_, ?_, ?_, ?_⟩
    · intro x hx
      simp only [List.mem_cons, List.mem_singleton, List.not_mem_nil, or_false] at hx
      rcases hx with rfl | rfl <;> omega
    · intro y hy
      simp only [List.mem_cons, List.mem_singleton, List.not_mem_nil, or_false] at hy
      rcases hy with rfl | rfl <;> omega
    · intro z hz
      simp only [List.mem_cons, List.mem_singleton, List.not_mem_nil, or_false] at hz
      rcases hz with rfl | rfl <;> omega
    · intro x hx y hy z hz
      simp only [List.mem_cons, List.mem_singleton, List.not_mem_nil, or_false] at hx hy hz
      apply MultiArray.get?_isSome hwf
      rw [MultiArray.validIndex_iff]
      rcases hx with rfl | rfl <;> rcases hy with rfl | rfl <;> rcases hz with rfl | rfl <;> omega

/-- Example for `interpolate3d_indices_in_range`: the penalty grid of `ObsPenTest` at the test's first point. -/
theorem interpolate3d_indices_in_range_witness :
    (∃ r, interpolate3d (⟨3, 3, 3, ObsPenTest.pen⟩ : MultiArray ℚ) ObsPenTest.point1 = some r) ∧
    (∃ x0 x1 y0 y1 z0 z1 : Int,
        floorInt ObsPenTest.point1.x = some x0 ∧ floorInt (ObsPenTest.point1.x + 1) = some x1 ∧
        floorInt ObsPenTest.point1.y = some y0 ∧ floorInt (ObsPenTest.point1.y + 1) = some y1 ∧
        floorInt ObsPenTest.point1.z = some z0 ∧ floorInt (ObsPenTest.point1.z + 1) = some z1 ∧
        (∀ x ∈ [x0, x1], 0 ≤ x ∧ x ≤ ((3 : Nat) : Int) - 1) ∧
        (∀ y ∈ [y0, y1], 0 ≤ y ∧ y ≤ ((3 : Nat) : Int) - 1) ∧
        (∀ z ∈ [z0, z1], 0 ≤ z ∧ z ≤ ((3 : Nat) : Int) - 1) ∧
        (∀ x ∈ [x0, x1], ∀ y ∈ [y0, y1], ∀ z ∈ [z0, z1],
          ∃ s, (⟨3, 3, 3, ObsPenTest.pen⟩ : MultiArray ℚ).get? x y z = some s)) :=
  ⟨(interpolate3d_indices_in_range (⟨3, 3, 3, ObsPenTest.pen⟩ : MultiArray ℚ)
      ObsPenTest.point1 ⟨rfl, by decide, by decide, by decide⟩
      (by decide) (by decide) (by decide)).1,
   (interpolate3d_indices_in_range (⟨3, 3, 3, ObsPenTest.pen⟩ : MultiArray ℚ)
      ObsPenTest.point1 ⟨rfl, by decide, by decide, by decide⟩
      (by decide) (by decide) (by decide)).2
      (by rw [inBound_iff_of_pos (by decide) (by decide)]; norm_num [ObsPenTest.point1])
      (by rw [inBound_iff_of_pos (by decide) (by decide)]; norm_num [ObsPenTest.point1])
      (by rw [inBound_iff_of_pos (by decide) (by decide)]; norm_num [ObsPenTest.point1])⟩

/-- C10: for every field and every world point, `penality` is `interpolate3d`
of the scalar grid and `penalityGrad` is `interpolate3d` of the vector grid,
both at `pointToArray` of the point with the field's own `start_` and `scale_`,
and that coordinate is the elementwise quotient `(pos - start_)/scale_`. -/
theorem penality_eq_interpolate3d (self : ObsPen) (pos : Vector3d) :
    self.penality pos = interpolate3d self.pen_ (pointToArray pos self.start_ self.scale_) ∧
    self.penalityGrad pos
      = interpolate3d self.penGrad_ (pointToArray pos self.start_ self.scale_) ∧
    pointToArray pos self.start_ self.scale_
      = ⟨(pos.x - self.start_.x) / self.scale_.x, (pos.y - self.start_.y) / self.scale_.y,
         (pos.z - self.start_.z) / self.scale_.z⟩ :=
  ⟨rfl, rfl, rfl⟩

/-- C2: for every field configured by `setPen` with extents `>= 1` and non-zero
scale, and every world point whose mapped coordinate `(pos - start)/scale` is
`<= 0` or `>= size - 1` on at least one axis, `penality` returns exactly 0 and
`penalityGrad` returns exactly `(0, 0, 0)`. -/
theorem penality_boundary_zero (self : ObsPen) (start scale : Vector3d)
    (sizeX sizeY sizeZ : Int) (penality gX gY gZ : List ℚ) (uninit : Vector3d) (f : ObsPen)
    (pos : Vector3d)
    (hset : self.setPen start scale sizeX sizeY sizeZ penality gX gY gZ uninit = some f)
    (hx : 1 ≤ sizeX) (hy : 1 ≤ sizeY) (hz : 1 ≤ sizeZ)
    (_hscale : scale.x ≠ 0 ∧ scale.y ≠ 0 ∧ scale.z ≠ 0)
    (hout : (pos.x - start.x) / scale.x ≤ 0 ∨ (sizeX : ℚ) - 1 ≤ (pos.x - start.x) / scale.x ∨
      (pos.y - start.y) / scale.y ≤ 0 ∨ (sizeY : ℚ) - 1 ≤ (pos.y - start.y) / scale.y ∨
      (pos.z - start.z) / scale.z ≤ 0 ∨ (sizeZ : ℚ) - 1 ≤ (pos.z - start.z) / scale.z) :
    f.penality pos = some 0 ∧ f.penalityGrad pos = some 0 := by
  obtain ⟨⟨_, mx⟩, ⟨_, my⟩, ⟨_, mz⟩, hs, hc, ⟨p0, p1, p2⟩, ⟨g0, g1, g2⟩, -, -⟩ :=
    setPen_frame hset
  have key : ∀ (s : Int) (v : ℚ), 1 ≤ s → s ≤ INT_MAX → (v ≤ 0 ∨ (s : ℚ) - 1 ≤ v) →
      inBound v s.toNat = false := by
    intro s v h1 hm hv
    lift s to ℕ using (by omega) with n
    have hn1 : 1 ≤ n := by omega
    exact inBound_false_of_edge hn1 (int_max_lt_size_mod hm) (by simpa using hv)
  have hb : inBound (pointToArray pos start scale).x sizeX.toNat = false ∨
      inBound (pointToArray pos start scale).y sizeY.toNat = false ∨
      inBound (pointToArray pos start scale).z sizeZ.toNat = false := by
    simp only [pointToArray, Vector3d.sub_x, Vector3d.sub_y, Vector3d.sub_z]
    rcases hout with h | h | h | h | h | h
    · exact Or.inl (key _ _ hx mx (Or.inl h))
    · exact Or.inl (key _ _ hx mx (Or.inr h))
    · exact Or.inr (Or.inl (key _ _ hy my (Or.inl h)))
    · exact Or.inr (Or.inl (key _ _ hy my (Or.inr h)))
    · exact Or.inr (Or.inr (key _ _ hz mz (Or.inl h)))
    · exact Or.inr (Or.inr (key _ _ hz mz (Or.inr h)))
  constructor
  · unfold ObsPen.penality
    rw [hs, hc]
    exact interpolate3d_outside _ _ (by rw [p0, p1, p2]; exact hb)
  · unfold ObsPen.penalityGrad
    rw [hs, hc]
    exact interpolate3d_outside _ _ (by rw [g0, g1, g2]; exact hb)

/-- C2, witness: the field of `ObsPenTest` (loaded into an empty field) at the
test's second point, whose x coordinate is past `size - 1 = 2`. -/
theorem penality_boundary_zero_witness :
    ObsPen.penality
      { pen_ := ⟨3, 3, 3, ObsPenTest.pen.take 27⟩,
        penGrad_ := ⟨3, 3, 3, (List.range 27).map
          (gradAt ObsPenTest.penGradX ObsPenTest.penGradY ObsPenTest.penGradZ)⟩,
        start_ := 0, scale_ := ⟨1, 1, 1⟩ } ObsPenTest.point2 = some 0 ∧
    ObsPen.penalityGrad
      { pen_ := ⟨3, 3, 3, ObsPenTest.pen.take 27⟩,
        penGrad_ := ⟨3, 3, 3, (List.range 27).map
          (gradAt ObsPenTest.penGradX ObsPenTest.penGradY ObsPenTest.penGradZ)⟩,
        start_ := 0, scale_ := ⟨1, 1, 1⟩ } ObsPenTest.point2 = some 0 :=
  penality_boundary_zero ⟨MultiArray.empty, MultiArray.empty, 0, 0⟩ 0 ⟨1, 1, 1⟩ 3 3 3
    ObsPenTest.pen ObsPenTest.penGradX ObsPenTest.penGradY ObsPenTest.penGradZ 0 _
    ObsPenTest.point2
    (setPen_eq_nat _ 0 ⟨1, 1, 1⟩ 3 3 3 _ _ _ _ 0 (by decide) (by decide) (by decide)
      (by decide) (by decide) (by decide) (by decide) (by decide) (by decide))
    (by decide) (by decide) (by decide) (by norm_num)
    (Or.inr (Or.inl (by norm_num [ObsPenTest.point2])))

/-- C4 (failing input): with extents `65536 x 32768 x 1` and four sequences of
exactly `65536*32768*1 = 2^31` elements, the `int` product `sizeX*sizeY` of the
`memcpy` size overflows: the call is undefined and no field is produced. -/
theorem setPen_overflow_counterexample :
    ((1 : Int) ≤ 65536 ∧ (1 : Int) ≤ 32768 ∧ (1 : Int) ≤ 1) ∧
    ((List.replicate 2147483648 (0 : ℚ)).length : Int) = 65536 * 32768 * 1 ∧
    ObsPen.setPen ⟨MultiArray.empty, MultiArray.empty, 0, 0⟩ 0 ⟨1, 1, 1⟩ 65536 32768 1
      (List.replicate 2147483648 0) (List.replicate 2147483648 0)
      (List.replicate 2147483648 0) (List.replicate 2147483648 0) 0 = none := by
  refine ⟨by decide, by rw [List.length_replicate]; rfl, ?_⟩
  have h : imul 65536 32768 = none := by decide
  unfold ObsPen.setPen
  simp only [Option.bind_eq_bind, h, Option.none_bind, ite_self]

/-- The layout within the range of `int`: for all extents `>= 1` whose product
is at most `INT_MAX` and four sequences each of length exactly
`sizeX*sizeY*sizeZ`, `setPen` succeeds, both grids have extents `(sizeX, sizeY,
sizeZ)`, and at every index triple `(x, y, z)` inside the extents, with `i =
(x*sizeY + y)*sizeZ + z`, the penalty sample is `penality[i]` and the gradient
sample is `(penalityGradX[i], penalityGradY[i], penalityGradZ[i])`. -/
theorem setPen_layout (self : ObsPen) (start scale : Vector3d) (sizeX sizeY sizeZ : Int)
    (penality gX gY gZ : List ℚ) (uninit : Vector3d)
    (hx : 1 ≤ sizeX) (hy : 1 ≤ sizeY) (hz : 1 ≤ sizeZ)
    (hmax : sizeX * sizeY * sizeZ ≤ INT_MAX)
    (hp : (penality.length : Int) = sizeX * sizeY * sizeZ)
    (hX : (gX.length : Int) = sizeX * sizeY * sizeZ)
    (hY : (gY.length : Int) = sizeX * sizeY * sizeZ)
    (hZ : (gZ.length : Int) = sizeX * sizeY * sizeZ) :
    ∃ f, self.setPen start scale sizeX sizeY sizeZ penality gX gY gZ uninit = some f ∧
      ((f.pen_.shape0 : Int) = sizeX ∧ (f.pen_.shape1 : Int) = sizeY ∧
        (f.pen_.shape2 : Int) = sizeZ) ∧
      ((f.penGrad_.shape0 : Int) = sizeX ∧ (f.penGrad_.shape1 : Int) = sizeY ∧
        (f.penGrad_.shape2 : Int) = sizeZ) ∧
      ∀ x y z : Int, 0 ≤ x → x < sizeX → 0 ≤ y → y < sizeY → 0 ≤ z → z < sizeZ →
        ∃ (i : Nat) (p gx gy gz : ℚ), (i : Int) = (x * sizeY + y) * sizeZ + z ∧
          penality[i]? = some p ∧ gX[i]? = some gx ∧ gY[i]? = some gy ∧ gZ[i]? = some gz ∧
          f.pen_.get? x y z = some p ∧ f.penGrad_.get? x y z = some ⟨gx, gy, gz⟩ := by
  lift sizeX to ℕ using (by omega) with nx
  lift sizeY to ℕ using (by omega) with ny
  lift sizeZ to ℕ using (by omega) with nz
  have hx' : 1 ≤ nx := by omega
  have hy' : 1 ≤ ny := by omega
  have hz' : 1 ≤ nz := by omega
  have hN : ((nx * ny * nz : Nat) : Int) ≤ INT_MAX := by push_cast; exact hmax
  have hxy_le : nx * ny ≤ nx * ny * nz := Nat.le_mul_of_pos_right _ hz'
  have hx_le : nx ≤ nx * ny := Nat.le_mul_of_pos_right _ hy'
  have hy_le : ny ≤ nx * ny := Nat.le_mul_of_pos_left _ hx'
  have hz_le : nz ≤ nx * ny * nz := Nat.le_mul_of_pos_left _ (Nat.mul_pos hx' hy')
  have lp : penality.length = nx * ny * nz := by exact_mod_cast hp
  have lX : gX.length = nx * ny * nz := by exact_mod_cast hX
  have lY : gY.length = nx * ny * nz := by exact_mod_cast hY
  have lZ : gZ.length = nx * ny * nz := by exact_mod_cast hZ
  refine ⟨_, setPen_eq_nat self start scale nx ny nz penality gX gY gZ uninit
      (by omega) (by omega) (by omega) (by omega) hN lp.ge lX.ge lY.ge lZ.ge,
    ⟨rfl, rfl, rfl⟩, ⟨rfl, rfl, rfl⟩, ?_⟩
  intro x y z x0 x1 y0 y1 z0 z1
  lift x to ℕ using x0 with i
  lift y to ℕ using y0 with j
  lift z to ℕ using z0 with k
  have hi : i < nx := by exact_mod_cast x1
  have hj : j < ny := by exact_mod_cast y1
  have hk : k < nz := by exact_mod_cast z1
  have hlt : (i * ny + j) * nz + k < nx * ny * nz := offset_lt_of hi hj hk
  obtain ⟨p, ep⟩ := getElem?_some_of_lt penality (lp ▸ hlt)
  obtain ⟨gx, ex⟩ := getElem?_some_of_lt gX (lX ▸ hlt)
  obtain ⟨gy, ey⟩ := getElem?_some_of_lt gY (lY ▸ hlt)
  obtain ⟨gz, ez⟩ := getElem?_some_of_lt gZ (lZ ▸ hlt)
  refine ⟨(i * ny + j) * nz + k, p, gx, gy, gz, by push_cast; ring, ep, ex, ey, ez, ?_, ?_⟩
  · rw [MultiArray.get?_natCast _ hi hj hk]
    simp only [List.take_of_length_le lp.le, ep]
  · rw [MultiArray.get?_natCast _ hi hj hk]
    simp only [List.getElem?_map, List.getElem?_range hlt, Option.map_some', gradAt, ex, ey, ez,
      Option.getD_some]

/-- Example for `setPen_layout`: the arguments of `ObsPenTest`. -/
theorem setPen_layout_witness :
    ∃ f, ObsPen.setPen ⟨MultiArray.empty, MultiArray.empty, 0, 0⟩ 0 ⟨1, 1, 1⟩ 3 3 3
        ObsPenTest.pen ObsPenTest.penGradX ObsPenTest.penGradY ObsPenTest.penGradZ 0 = some f ∧
      ((f.pen_.shape0 : Int) = 3 ∧ (f.pen_.shape1 : Int) = 3 ∧ (f.pen_.shape2 : Int) = 3) ∧
      ((f.penGrad_.shape0 : Int) = 3 ∧ (f.penGrad_.shape1 : Int) = 3 ∧
        (f.penGrad_.shape2 : Int) = 3) ∧
      ∀ x y z : Int, 0 ≤ x → x < 3 → 0 ≤ y → y < 3 → 0 ≤ z → z < 3 →
        ∃ (i : Nat) (p gx gy gz : ℚ), (i : Int) = (x * 3 + y) * 3 + z ∧
          ObsPenTest.pen[i]? = some p ∧ ObsPenTest.penGradX[i]? = some gx ∧
          ObsPenTest.penGradY[i]? = some gy ∧ ObsPenTest.penGradZ[i]? = some gz ∧
          f.pen_.get? x y z = some p ∧ f.penGrad_.get? x y z = some ⟨gx, gy, gz⟩ :=
  setPen_layout ⟨MultiArray.empty, MultiArray.empty, 0, 0⟩ 0 ⟨1, 1, 1⟩ 3 3 3
    ObsPenTest.pen ObsPenTest.penGradX ObsPenTest.penGradY ObsPenTest.penGradZ 0
    (by decide) (by decide) (by decide) (by decide) (by decide) (by decide) (by decide)
    (by decide)

/-- C3: the field built by `setPen` (on any prior field) with start `(0,0,0)`,
scale `(1,1,1)`, extents `3x3x3` and the four arrays of `ObsPenTest`, in exact
arithmetic on the test's decimal literals: at points 1 and 4 `penality` is
within `1e-4` of `0.46275887` and `0.39354775` and `penalityGrad` is within
Euclidean distance `1e-4` of the expected vectors; at points 2, 3 and 5
`penality` is exactly 0 and `penalityGrad` exactly `(0, 0, 0)`. -/
theorem obsPenTest_scenario (self : ObsPen) (uninit : Vector3d) :
    ∃ f, self.setPen 0 ⟨1, 1, 1⟩ 3 3 3 ObsPenTest.pen ObsPenTest.penGradX ObsPenTest.penGradY
        ObsPenTest.penGradZ uninit = some f ∧
      (∃ v g, f.penality ObsPenTest.point1 = some v ∧ |v - 0.46275887| < 0.0001 ∧
        f.penalityGrad ObsPenTest.point1 = some g ∧
        Real.sqrt (((g - ⟨0.11422513837340077, 0.39239411239478911,
          -0.037287388077032885⟩).squaredNorm : ℚ) : ℝ) < 0.0001) ∧
      (f.penality ObsPenTest.point2 = some 0 ∧ f.penalityGrad ObsPenTest.point2 = some 0) ∧
      (f.penality ObsPenTest.point3 = some 0 ∧ f.penalityGrad ObsPenTest.point3 = some 0) ∧
      (∃ v g, f.penality ObsPenTest.point4 = some v ∧ |v - 0.39354775| < 0.0001 ∧
        f.penalityGrad ObsPenTest.point4 = some g ∧
        Real.sqrt (((g - ⟨0.13306870948137786, -0.0026793299369999649,
          0.29066137572319539⟩).squaredNorm : ℚ) : ℝ) < 0.0001) ∧
      (f.penality ObsPenTest.point5 = some 0 ∧ f.penalityGrad ObsPenTest.point5 = some 0) := by
  have hset := setPen_eq_nat self 0 ⟨1, 1, 1⟩ 3 3 3 ObsPenTest.pen ObsPenTest.penGradX
    ObsPenTest.penGradY ObsPenTest.penGradZ uninit (by decide) (by decide) (by decide)
    (by decide) (by decide) (by decide) (by decide) (by decide) (by decide)
  have hout : ∀ pos : Vector3d, (2 ≤ pos.x ∨ 2 ≤ pos.z) →
      ObsPen.penality
        { pen_ := ⟨3, 3, 3, ObsPenTest.pen.take (3 * 3 * 3)⟩,
          penGrad_ := ⟨3, 3, 3, (List.range (3 * 3 * 3)).map
            (gradAt ObsPenTest.penGradX ObsPenTest.penGradY ObsPenTest.penGradZ)⟩,
          start_ := 0, scale_ := ⟨1, 1, 1⟩ } pos = some 0 ∧
      ObsPen.penalityGrad
        { pen_ := ⟨3, 3, 3, ObsPenTest.pen.take (3 * 3 * 3)⟩,
          penGrad_ := ⟨3, 3, 3, (List.range (3 * 3 * 3)).map
            (gradAt ObsPenTest.penGradX ObsPenTest.penGradY ObsPenTest.penGradZ)⟩,
          start_ := 0, scale_ := ⟨1, 1, 1⟩ } pos = some 0 := by
    intro pos h
    have hb : inBound pos.x 3 = false ∨ inBound pos.y 3 = false ∨ inBound pos.z 3 = false := by
      rcases h with h | h
      · exact Or.inl (inBound_false_of_edge (by decide) (by decide) (Or.inr (by norm_num; exact h)))
      · exact Or.inr (Or.inr
          (inBound_false_of_edge (by decide) (by decide) (Or.inr (by norm_num; exact h))))
    constructor
    · unfold ObsPen.penality
      rw [pointToArray_unit]
      exact interpolate3d_outside _ _ hb
    · unfold ObsPen.penalityGrad
      rw [pointToArray_unit]
      exact interpolate3d_outside _ _ hb
  have hin : ∀ v : ℚ, 0 < v → v < 2 → inBound v 3 = true := by
    intro v h0 h1
    rw [inBound_iff_of_pos (by decide) (by decide)]
    exact ⟨h0, by norm_num; exact h1⟩
  have hsqrt : ∀ q : ℚ, q < 1 / 100000000 → Real.sqrt ((q : ℚ) : ℝ) < 0.0001 := by
    intro q hq
    rw [Real.sqrt_lt' (by norm_num)]
    have : ((q : ℚ) : ℝ) < ((1 / 100000000 : ℚ) : ℝ) := by exact_mod_cast hq
    refine lt_of_lt_of_eq this ?_
    norm_num
  have hpen : ∀ (f : ObsPen) (pos : Vector3d), f.start_ = 0 → f.scale_ = ⟨1, 1, 1⟩ →
      f.penality pos = interpolate3d f.pen_ pos ∧
      f.penalityGrad pos = interpolate3d f.penGrad_ pos := by
    intro f pos h0 h1
    unfold ObsPen.penality ObsPen.penalityGrad
    rw [h0, h1, pointToArray_unit]
    exact ⟨rfl, rfl⟩
  refine ⟨_, hset, ?_, hout _ (Or.inl (by norm_num [ObsPenTest.point2])),
    hout _ (Or.inl (by norm_num [ObsPenTest.point3])), ?_,
    hout _ (Or.inr (by norm_num [ObsPenTest.point5]))⟩
  · have hv := interpolate3d_eval (⟨3, 3, 3, ObsPenTest.pen.take (3 * 3 * 3)⟩ : MultiArray ℚ)
        ObsPenTest.point1 0 1 0
        (by rw [Int.floor_eq_iff]; norm_num [ObsPenTest.point1])
        (by rw [Int.floor_eq_iff]; norm_num [ObsPenTest.point1])
        (by rw [Int.floor_eq_iff]; norm_num [ObsPenTest.point1])
        (hin _ (by norm_num [ObsPenTest.point1]) (by norm_num [ObsPenTest.point1]))
        (hin _ (by norm_num [ObsPenTest.point1]) (by norm_num [ObsPenTest.point1]))
        (hin _ (by norm_num [ObsPenTest.point1]) (by norm_num [ObsPenTest.point1]))
        (by decide) (by decide) (by decide)
        (0.10032556 : ℚ) (0.16495522 : ℚ) (0.4986186 : ℚ) (0.89338157 : ℚ)
        (0.0311701 : ℚ) (0.2537881 : ℚ) (0.58865215 : ℚ) (0.18361576 : ℚ)
        rfl rfl rfl rfl rfl rfl rfl rfl
    have hg := interpolate3d_eval (⟨3, 3, 3, (List.range (3 * 3 * 3)).map
          (gradAt ObsPenTest.penGradX ObsPenTest.penGradY ObsPenTest.penGradZ)⟩ :
          MultiArray Vector3d) ObsPenTest.point1 0 1 0
        (by rw [Int.floor_eq_iff]; norm_num [ObsPenTest.point1])
        (by rw [Int.floor_eq_iff]; norm_num [ObsPenTest.point1])
        (by rw [Int.floor_eq_iff]; norm_num [ObsPenTest.point1])
        (hin _ (by norm_num [ObsPenTest.point1]) (by norm_num [ObsPenTest.point1]))
        (hin _ (by norm_num [ObsPenTest.point1]) (by norm_num [ObsPenTest.point1]))
        (hin _ (by norm_num [ObsPenTest.point1]) (by norm_num [ObsPenTest.point1]))
        (by decide) (by decide) (by decide)
        (⟨0.06462966, 0.15261682, -0.06915546⟩ : Vector3d)
        (⟨0.30253379, 0.26115301, 0.08883288⟩ : Vector3d)
        (⟨0.39476297, 0.39829304, 0.09003355⟩ : Vector3d)
        (⟨-0.12955907, 0.72842634, -0.70976581⟩ : Vector3d)
        (⟨0.222618, 0.25090717, 0.31998833⟩ : Vector3d)
        (⟨0.01823931, -0.29670936, -0.01929704⟩ : Vector3d)
        (⟨-0.40503639, 0.55748205, 0.07042658⟩ : Vector3d)
        (⟨-0.14429495, -0.07017234, -0.04768988⟩ : Vector3d)
        rfl rfl rfl rfl rfl rfl rfl rfl
    refine ⟨_, _, ((hpen _ _ rfl rfl).1).trans hv, ?_, ((hpen _ _ rfl rfl).2).trans hg, ?_⟩
    · rw [abs_lt]; norm_num [ObsPenTest.point1]
    · apply hsqrt
      norm_num [Vector3d.squaredNorm, ObsPenTest.point1]
  · have hv := interpolate3d_eval (⟨3, 3, 3, ObsPenTest.pen.take (3 * 3 * 3)⟩ : MultiArray ℚ)
        ObsPenTest.point4 1 1 1
        (by rw [Int.floor_eq_iff]; norm_num [ObsPenTest.point4])
        (by rw [Int.floor_eq_iff]; norm_num [ObsPenTest.point4])
        (by rw [Int.floor_eq_iff]; norm_num [ObsPenTest.point4])
        (hin _ (by norm_num [ObsPenTest.point4]) (by norm_num [ObsPenTest.point4]))
        (hin _ (by norm_num [ObsPenTest.point4]) (by norm_num [ObsPenTest.point4]))
        (hin _ (by norm_num [ObsPenTest.point4]) (by norm_num [ObsPenTest.point4]))
        (by decide) (by decide) (by decide)
        (0.2537881 : ℚ) (0.06764872 : ℚ) (0.18361576 : ℚ) (0.30006224 : ℚ)
        (0.12636114 : ℚ) (0.90060331 : ℚ) (0.7980018 : ℚ) (0.33118872 : ℚ)
        rfl rfl rfl rfl rfl rfl rfl rfl
    have hg := interpolate3d_eval (⟨3, 3, 3, (List.range (3 * 3 * 3)).map
          (gradAt ObsPenTest.penGradX ObsPenTest.penGradY ObsPenTest.penGradZ)⟩ :
          MultiArray Vector3d) ObsPenTest.point4 1 1 1
        (by rw [Int.floor_eq_iff]; norm_num [ObsPenTest.point4])
        (by rw [Int.floor_eq_iff]; norm_num [ObsPenTest.point4])
        (by rw [Int.floor_eq_iff]; norm_num [ObsPenTest.point4])
        (hin _ (by norm_num [ObsPenTest.point4]) (by norm_num [ObsPenTest.point4]))
        (hin _ (by norm_num [ObsPenTest.point4]) (by norm_num [ObsPenTest.point4]))
        (hin _ (by norm_num [ObsPenTest.point4]) (by norm_num [ObsPenTest.point4]))
        (by decide) (by decide) (by decide)
        (⟨0.01823931, -0.29670936, -0.01929704⟩ : Vector3d)
        (⟨-0.18613938, 0.05127547, 0.09760508⟩ : Vector3d)
        (⟨-0.14429495, -0.07017234, -0.04768988⟩ : Vector3d)
        (⟨0.11644648, 0.23241353, 0.04584413⟩ : Vector3d)
        (⟨0.08015055, -0.07335958, -0.12742697⟩ : Vector3d)
        (⟨0.77424217, 0.06433461, 0.83295459⟩ : Vector3d)
        (⟨-0.15414152, 0.67164066, 0.61438604⟩ : Vector3d)
        (⟨-0.46681308, -0.56941459, 0.03112647⟩ : Vector3d)
        rfl rfl rfl rfl rfl rfl rfl rfl
    refine ⟨_, _, ((hpen _ _ rfl rfl).1).trans hv, ?_, ((hpen _ _ rfl rfl).2).trans hg, ?_⟩
    · rw [abs_lt]; norm_num [ObsPenTest.point4]
    · apply hsqrt
      norm_num [Vector3d.squaredNorm, ObsPenTest.point4]

/-! ## Lemmas: assignment -/

theorem zipWith_snd_eq_take {α β : Type} (l : List α) (r : List β) :
    List.zipWith (fun _ v => v) l r = r.take l.length := by
  induction l generalizing r with
  | nil => simp
  | cons a l ih =>
    cases r with
    | nil => simp
    | cons b r => simp [ih]

/-- Assigning after resizing to the extents of the source always succeeds: the
result has the extents of the source and, position by position, its elements. -/
theorem MultiArray.assign_resize {T : Type} (a x : MultiArray T) (fill : T) :
    (a.resize fill x.shape0 x.shape1 x.shape2).assign x = some
      { shape0 := x.shape0, shape1 := x.shape1, shape2 := x.shape2,
        data := x.data.take (x.shape0 * x.shape1 * x.shape2) } := by
  unfold MultiArray.assign
  rw [if_pos ⟨rfl, rfl, rfl⟩, zipWith_snd_eq_take, MultiArray.resize_length]
  rfl

theorem MultiArray.assign_resize_of_WF {T : Type} (a x : MultiArray T) (fill : T) (h : x.WF) :
    (a.resize fill x.shape0 x.shape1 x.shape2).assign x = some x := by
  rw [MultiArray.assign_resize, List.take_of_length_le h.1.le]

/-- Closed form of `operator=`. -/
theorem ObsPen.assign_eq (self op : ObsPen) (uninit : Vector3d) :
    self.assign op uninit = some
      { pen_ := ⟨op.pen_.shape0, op.pen_.shape1, op.pen_.shape2,
          op.pen_.data.take (op.pen_.shape0 * op.pen_.shape1 * op.pen_.shape2)⟩,
        penGrad_ := ⟨op.penGrad_.shape0, op.penGrad_.shape1, op.penGrad_.shape2,
          op.penGrad_.data.take
            (op.penGrad_.shape0 * op.penGrad_.shape1 * op.penGrad_.shape2)⟩,
        start_ := op.start_, scale_ := op.scale_ } := by
  unfold ObsPen.assign
  simp only [MultiArray.assign_resize, Option.bind_eq_bind, Option.some_bind, Option.pure_def]

/-- Assignment from a field with well-formed grids yields that very field. -/
theorem ObsPen.assign_eq_of_WF (self op : ObsPen) (uninit : Vector3d)
    (hp : op.pen_.WF) (hg : op.penGrad_.WF) : self.assign op uninit = some op := by
  rw [ObsPen.assign_eq, List.take_of_length_le hp.1.le, List.take_of_length_le hg.1.le]

/-- Reading a grid does not see the elements stored past the last index triple. -/
theorem MultiArray.get?_take {T : Type} (a : MultiArray T) (x y z : Int) :
    (⟨a.shape0, a.shape1, a.shape2, a.data.take (a.shape0 * a.shape1 * a.shape2)⟩ :
      MultiArray T).get? x y z = a.get? x y z := by
  unfold MultiArray.get?
  by_cases hv : a.validIndex x y z = true
  · have hv' : (⟨a.shape0, a.shape1, a.shape2,
        a.data.take (a.shape0 * a.shape1 * a.shape2)⟩ : MultiArray T).validIndex x y z = true := hv
    have h := (a.validIndex_iff x y z).mp hv
    have hlt : a.offset x.toNat y.toNat z.toNat < a.shape0 * a.shape1 * a.shape2 := by
      apply a.offset_lt <;> omega
    rw [if_pos hv, if_pos hv']
    rw [List.getElem?_take]
    exact if_pos hlt
  · have hv' : ¬ (⟨a.shape0, a.shape1, a.shape2,
        a.data.take (a.shape0 * a.shape1 * a.shape2)⟩ : MultiArray T).validIndex x y z = true := hv
    rw [if_neg hv, if_neg hv']

/-- `interpolate3d` sees a grid only through its extents and its reads. -/
theorem interpolate3d_congr {T : Type} [AddCommGroup T] [Module ℚ T] (a b : MultiArray T)
    (h0 : a.shape0 = b.shape0) (h1 : a.shape1 = b.shape1) (h2 : a.shape2 = b.shape2)
    (hr : ∀ x y z, a.get? x y z = b.get? x y z) (p : Vector3d) :
    interpolate3d a p = interpolate3d b p := by
  simp only [interpolate3d, blendX, h0, h1, h2, hr]

theorem ObsPen.queries_congr (f g : ObsPen) (hs : f.start_ = g.start_)
    (hc : f.scale_ = g.scale_)
    (p0 : f.pen_.shape0 = g.pen_.shape0) (p1 : f.pen_.shape1 = g.pen_.shape1)
    (p2 : f.pen_.shape2 = g.pen_.shape2)
    (pr : ∀ x y z, f.pen_.get? x y z = g.pen_.get? x y z)
    (g0 : f.penGrad_.shape0 = g.penGrad_.shape0) (g1 : f.penGrad_.shape1 = g.penGrad_.shape1)
    (g2 : f.penGrad_.shape2 = g.penGrad_.shape2)
    (gr : ∀ x y z, f.penGrad_.get? x y z = g.penGrad_.get? x y z) (pos : Vector3d) :
    f.penality pos = g.penality pos ∧ f.penalityGrad pos = g.penalityGrad pos := by
  unfold ObsPen.penality ObsPen.penalityGrad
  rw [hs, hc]
  exact ⟨interpolate3d_congr f.pen_ g.pen_ p0 p1 p2 pr _,
    interpolate3d_congr f.penGrad_ g.penGrad_ g0 g1 g2 gr _⟩

/-- What the result of `operator=` shares with its source. -/
theorem ObsPen.assign_some {self op f : ObsPen} {uninit : Vector3d}
    (h : self.assign op uninit = some f) :
    f.start_ = op.start_ ∧ f.scale_ = op.scale_ ∧
    (f.pen_.shape0 = op.pen_.shape0 ∧ f.pen_.shape1 = op.pen_.shape1 ∧
      f.pen_.shape2 = op.pen_.shape2) ∧
    (∀ x y z, f.pen_.get? x y z = op.pen_.get? x y z) ∧
    (f.penGrad_.shape0 = op.penGrad_.shape0 ∧ f.penGrad_.shape1 = op.penGrad_.shape1 ∧
      f.penGrad_.shape2 = op.penGrad_.shape2) ∧
    (∀ x y z, f.penGrad_.get? x y z = op.penGrad_.get? x y z) := by
  rw [ObsPen.assign_eq] at h
  simp only [Option.some.injEq] at h
  subst h
  exact ⟨rfl, rfl, ⟨rfl, rfl, rfl⟩, MultiArray.get?_take _, ⟨rfl, rfl, rfl⟩,
    MultiArray.get?_take _⟩

theorem ObsPen.assign_queries {self op f : ObsPen} {uninit : Vector3d}
    (h : self.assign op uninit = some f) (pos : Vector3d) :
    f.penality pos = op.penality pos ∧ f.penalityGrad pos = op.penalityGrad pos := by
  obtain ⟨hs, hc, ⟨p0, p1, p2⟩, pr, ⟨g0, g1, g2⟩, gr⟩ := ObsPen.assign_some h
  exact ObsPen.queries_congr f op hs hc p0 p1 p2 pr g0 g1 g2 gr pos

theorem MultiArray.empty_WF {T : Type} : (MultiArray.empty : MultiArray T).WF := by
  refine ⟨rfl, ?_, ?_, ?_⟩ <;> (show ((0 : Nat) : Int) ≤ INT_MAX) <;> decide

/-! ## Lemmas: what a successful `setPen` has done -/

/-- Partial-correctness rule for a counted loop in the `Option` monad. -/
theorem foldlM_range_sound {σ : Type} (f : σ → Nat → Option σ) (Inv : Nat → σ → Prop)
    (n : Nat) (s0 : σ) (h0 : Inv 0 s0)
    (step : ∀ k s s', k < n → Inv k s → f s k = some s' → Inv (k + 1) s') :
    ∀ s', (List.range n).foldlM f s0 = some s' → Inv n s' := by
  induction n with
  | zero =>
    intro s' h
    simp only [List.range_zero, List.foldlM_nil, Option.pure_def, Option.some.injEq] at h
    exact h ▸ h0
  | succ m ih =>
    intro s' h
    rw [List.range_succ, List.foldlM_append] at h
    cases hm : (List.range m).foldlM f s0 with
    | none => simp [hm] at h
    | some s1 =>
      rw [hm] at h
      have i1 := ih (fun k s s' hk hi => step k s s' (Nat.lt_succ_of_lt hk) hi) s1 hm
      cases h2 : f s1 m with
      | none => simp [h2] at h
      | some s2 =>
        have : s2 = s' := by simpa [h2] using h
        exact this ▸ step m s1 s2 (Nat.lt_succ_self m) i1 h2

theorem setPenBody_sound (gX gY gZ : List ℚ) {sx sy sz x y z : Nat}
    (st st' : MultiArray Vector3d × Nat)
    (h : LoopInv gX gY gZ sx sy sz ((x * sy + y) * sz + z) st)
    (hb : setPenBody gX gY gZ x y z st = some st') :
    LoopInv gX gY gZ sx sy sz ((x * sy + y) * sz + (z + 1)) st' := by
  obtain ⟨hi, h0, h1, h2, hlen, hdata⟩ := h
  unfold setPenBody at hb
  simp only [Option.bind_eq_bind, Option.bind_eq_some, Option.pure_def, Option.some.injEq] at hb
  obtain ⟨gx, ex, gy, ey, gz, ez, g, hg, rfl⟩ := hb
  unfold MultiArray.set? at hg
  split at hg
  · rename_i hv
    simp only [Option.some.injEq] at hg
    subst hg
    have hv' := (st.1.validIndex_iff _ _ _).mp hv
    have hoff : st.1.offset (x : Int).toNat (y : Int).toNat (z : Int).toNat = st.2 := by
      simp [MultiArray.offset, h1, h2, hi]
    have hlt : st.2 < st.1.data.length := by
      rw [hlen, hi]
      exact offset_lt_of (by omega) (by omega) (by omega)
    refine ⟨by simp; omega, h0, h1, h2, by simpa using hlen, ?_⟩
    intro j hj
    simp only [hoff]
    by_cases hji : j = st.2
    · subst hji
      rw [List.getElem?_set_self hlt]
      simp [gradAt, ex, ey, ez]
    · rw [List.getElem?_set_ne (Ne.symm hji)]
      exact hdata j (by omega)
  · simp at hg

theorem setPenLoop_sound (gX gY gZ : List ℚ) (sx sy sz : Nat) (grid : MultiArray Vector3d)
    (h0 : grid.shape0 = sx) (h1 : grid.shape1 = sy) (h2 : grid.shape2 = sz)
    (hlen : grid.data.length = sx * sy * sz) (st : MultiArray Vector3d × Nat)
    (h : setPenLoop gX gY gZ sx sy sz grid = some st) :
    LoopInv gX gY gZ sx sy sz (sx * sy * sz) st := by
  unfold setPenLoop at h
  have hz : ∀ x y st st', LoopInv gX gY gZ sx sy sz ((x * sy + y) * sz) st →
      (List.range sz).foldlM (fun st z => setPenBody gX gY gZ x y z st) st = some st' →
      LoopInv gX gY gZ sx sy sz ((x * sy + (y + 1)) * sz) st' := by
    intro x y st st' hst hl
    have e : (x * sy + (y + 1)) * sz = (x * sy + y) * sz + sz := by ring
    rw [e]
    exact foldlM_range_sound _ (fun k => LoopInv gX gY gZ sx sy sz ((x * sy + y) * sz + k))
      sz st (by simpa using hst)
      (fun k s s' _ hs hb => setPenBody_sound gX gY gZ s s' hs hb) st' hl
  have hy : ∀ x st st', LoopInv gX gY gZ sx sy sz (x * sy * sz) st →
      (List.range sy).foldlM (fun st y =>
          (List.range sz).foldlM (fun st z => setPenBody gX gY gZ x y z st) st) st = some st' →
      LoopInv gX gY gZ sx sy sz ((x + 1) * sy * sz) st' := by
    intro x st st' hst hl
    have e : (x + 1) * sy * sz = (x * sy + sy) * sz := by ring
    rw [e]
    exact foldlM_range_sound _ (fun k => LoopInv gX gY gZ sx sy sz ((x * sy + k) * sz))
      sy st (by simpa using hst)
      (fun k s s' _ hs hb => hz x k s s' hs hb) st' hl
  exact foldlM_range_sound
    (fun st x => (List.range sy).foldlM (fun st y =>
          (List.range sz).foldlM (fun st z => setPenBody gX gY gZ x y z st) st) st)
    (fun k => LoopInv gX gY gZ sx sy sz (k * sy * sz)) sx (grid, 0)
    ⟨by simp, h0, h1, h2, hlen, by simp⟩
    (fun k s s' _ hs hb => hy k s s' hs hb) st h

theorem loopInv_grid {gX gY gZ : List ℚ} {nx ny nz : Nat} {st : MultiArray Vector3d × Nat}
    (h : LoopInv gX gY gZ nx ny nz (nx * ny * nz) st) :
    st.1 = ⟨nx, ny, nz, (List.range (nx * ny * nz)).map (gradAt gX gY gZ)⟩ := by
  obtain ⟨-, s0, s1, s2, slen, sdata⟩ := h
  have hd : st.1.data = (List.range (nx * ny * nz)).map (gradAt gX gY gZ) := by
    apply List.ext_getElem?
    intro j
    by_cases hj : j < nx * ny * nz
    · rw [sdata j hj, List.getElem?_map, List.getElem?_range hj]; rfl
    · rw [List.getElem?_eq_none (by omega), List.getElem?_eq_none (by simp; omega)]
  cases hs : st.1 with
  | mk a b c d =>
    rw [hs] at s0 s1 s2 hd
    simp only at s0 s1 s2 hd
    subst s0 s1 s2 hd
    rfl

theorem imul_eq_some {a b n : Int} (h : imul a b = some n) : n = a * b ∧ a * b ≤ INT_MAX := by
  unfold imul at h
  split at h
  · unfold toInt at h
    split at h
    · rename_i hi
      rw [isInt_iff] at hi
      simp only [Option.some.injEq] at h
      exact ⟨h.symm, hi.2⟩
    · simp at h
  · simp at h

/-- Every successful `setPen` has the closed form: the state before the call and
the value `uninit` leave no trace. -/
theorem setPen_eq_of_some {self : ObsPen} {start scale : Vector3d} {sizeX sizeY sizeZ : Int}
    {penality gX gY gZ : List ℚ} {uninit : Vector3d} {f : ObsPen}
    (h : self.setPen start scale sizeX sizeY sizeZ penality gX gY gZ uninit = some f) :
    (0 ≤ sizeX ∧ sizeX ≤ INT_MAX) ∧ (0 ≤ sizeY ∧ sizeY ≤ INT_MAX) ∧
    (0 ≤ sizeZ ∧ sizeZ ≤ INT_MAX) ∧
    sizeX * sizeY ≤ INT_MAX ∧ sizeX * sizeY * sizeZ ≤ INT_MAX ∧
    sizeX.toNat * sizeY.toNat * sizeZ.toNat ≤ penality.length ∧
    f = { pen_ := ⟨sizeX.toNat, sizeY.toNat, sizeZ.toNat,
            penality.take (sizeX.toNat * sizeY.toNat * sizeZ.toNat)⟩,
          penGrad_ := ⟨sizeX.toNat, sizeY.toNat, sizeZ.toNat,
            (List.range (sizeX.toNat * sizeY.toNat * sizeZ.toNat)).map (gradAt gX gY gZ)⟩,
          start_ := start, scale_ := scale } := by
  unfold ObsPen.setPen at h
  split at h
  · rename_i hg
    obtain ⟨ix, iy, iz, px, py, pz⟩ := hg
    rw [isInt_iff] at ix iy iz
    simp only [Option.bind_eq_bind, Option.bind_eq_some, Option.pure_def, Option.some.injEq] at h
    obtain ⟨m, hm, n, hn, d, hd, st, hst, rfl⟩ := h
    obtain ⟨em, bm⟩ := imul_eq_some hm
    obtain ⟨en, bn⟩ := imul_eq_some hn
    have hN : n.toNat = sizeX.toNat * sizeY.toNat * sizeZ.toNat := by
      have e : n = ((sizeX.toNat * sizeY.toNat * sizeZ.toNat : ℕ) : ℤ) := by
        push_cast
        rw [Int.toNat_of_nonneg px, Int.toNat_of_nonneg py, Int.toNat_of_nonneg pz, en, em]
      rw [e]
      exact Int.toNat_ofNat _
    have hgrid := loopInv_grid (setPenLoop_sound gX gY gZ _ _ _ _ rfl rfl rfl
      (MultiArray.resize_length _ _ _ _ _) st hst)
    unfold memcpyDoubles at hd
    split at hd
    · rename_i hle
      simp only [Option.some.injEq] at hd
      rw [hN] at hle hd
      rw [List.drop_of_length_le (by simp), List.append_nil] at hd
      refine ⟨⟨px, ix.2⟩, ⟨py, iy.2⟩, ⟨pz, iz.2⟩, bm, em ▸ bn, hle.1, ?_⟩
      rw [hgrid, ← hd]
      rfl
    · simp at hd
  · simp at h

/-! ## Lemmas: weights, convexity and linear images -/

theorem toInt_eq_some {z a : Int} (h : toInt z = some a) : a = z := by
  unfold toInt at h
  split at h
  · simp only [Option.some.injEq] at h; exact h.symm
  · simp at h

theorem axisIndex_low (v : ℚ) : axisIndex v false = ⌊v⌋ := rfl

theorem axisIndex_high (v : ℚ) : axisIndex v true = ⌊v⌋ + 1 := by
  simp [axisIndex, Int.floor_add_one]

theorem axisWeight_low (v : ℚ) : axisWeight v false = (⌊v⌋ : ℚ) + 1 - v := by
  simp only [axisWeight, Int.floor_add_one, Bool.false_eq_true, if_false]
  push_cast; ring

theorem axisWeight_high (v : ℚ) : axisWeight v true = v - (⌊v⌋ : ℚ) := by
  simp only [axisWeight, if_true]

theorem cornerWeight_nonneg (p : Vector3d) (i j k : Bool) : 0 ≤ cornerWeight p i j k :=
  mul_nonneg (mul_nonneg (axisWeight_mem p.x i).1 (axisWeight_mem p.y j).1)
    (axisWeight_mem p.z k).1

theorem cornerWeight_sum (p : Vector3d) :
    cornerWeight p false false false + cornerWeight p true false false
      + cornerWeight p false true false + cornerWeight p true true false
      + cornerWeight p false false true + cornerWeight p true false true
      + cornerWeight p false true true + cornerWeight p true true true = 1 := by
  have hx := axisWeight_low_add_high p.x
  have hy := axisWeight_low_add_high p.y
  have hz := axisWeight_low_add_high p.z
  unfold cornerWeight
  calc _ = (axisWeight p.x false + axisWeight p.x true)
        * (axisWeight p.y false + axisWeight p.y true)
        * (axisWeight p.z false + axisWeight p.z true) := by ring
    _ = 1 := by rw [hx, hy, hz]; norm_num

/-- A convex combination of eight numbers lies between any common bounds. -/
theorem convex_eight {w1 w2 w3 w4 w5 w6 w7 w8 s1 s2 s3 s4 s5 s6 s7 s8 lo hi : ℚ}
    (h1 : 0 ≤ w1) (h2 : 0 ≤ w2) (h3 : 0 ≤ w3) (h4 : 0 ≤ w4) (h5 : 0 ≤ w5) (h6 : 0 ≤ w6)
    (h7 : 0 ≤ w7) (h8 : 0 ≤ w8) (hsum : w1 + w2 + w3 + w4 + w5 + w6 + w7 + w8 = 1)
    (b1 : lo ≤ s1 ∧ s1 ≤ hi) (b2 : lo ≤ s2 ∧ s2 ≤ hi) (b3 : lo ≤ s3 ∧ s3 ≤ hi)
    (b4 : lo ≤ s4 ∧ s4 ≤ hi) (b5 : lo ≤ s5 ∧ s5 ≤ hi) (b6 : lo ≤ s6 ∧ s6 ≤ hi)
    (b7 : lo ≤ s7 ∧ s7 ≤ hi) (b8 : lo ≤ s8 ∧ s8 ≤ hi) :
    lo ≤ w1 * s1 + w2 * s2 + w3 * s3 + w4 * s4 + w5 * s5 + w6 * s6 + w7 * s7 + w8 * s8 ∧
    w1 * s1 + w2 * s2 + w3 * s3 + w4 * s4 + w5 * s5 + w6 * s6 + w7 * s7 + w8 * s8 ≤ hi := by
  have el : lo = (w1 + w2 + w3 + w4 + w5 + w6 + w7 + w8) * lo := by rw [hsum, one_mul]
  have eh : hi = (w1 + w2 + w3 + w4 + w5 + w6 + w7 + w8) * hi := by rw [hsum, one_mul]
  constructor
  · have := mul_nonneg h1 (sub_nonneg.2 b1.1)
    have := mul_nonneg h2 (sub_nonneg.2 b2.1)
    have := mul_nonneg h3 (sub_nonneg.2 b3.1)
    have := mul_nonneg h4 (sub_nonneg.2 b4.1)
    have := mul_nonneg h5 (sub_nonneg.2 b5.1)
    have := mul_nonneg h6 (sub_nonneg.2 b6.1)
    have := mul_nonneg h7 (sub_nonneg.2 b7.1)
    have := mul_nonneg h8 (sub_nonneg.2 b8.1)
    rw [el]; nlinarith
  · have := mul_nonneg h1 (sub_nonneg.2 b1.2)
    have := mul_nonneg h2 (sub_nonneg.2 b2.2)
    have := mul_nonneg h3 (sub_nonneg.2 b3.2)
    have := mul_nonneg h4 (sub_nonneg.2 b4.2)
    have := mul_nonneg h5 (sub_nonneg.2 b5.2)
    have := mul_nonneg h6 (sub_nonneg.2 b6.2)
    have := mul_nonneg h7 (sub_nonneg.2 b7.2)
    have := mul_nonneg h8 (sub_nonneg.2 b8.2)
    rw [eh]; nlinarith

theorem MultiArray.get?_mem {T : Type} {a : MultiArray T} {x y z : Int} {v : T}
    (h : a.get? x y z = some v) : v ∈ a.data := by
  unfold MultiArray.get? at h
  split at h
  · exact List.getElem?_mem h
  · simp at h

/-- In the strict interior of a well-formed scalar grid the value lies between
any bounds of the eight corner samples. -/
theorem interpolate3d_between (a : MultiArray ℚ) (p : Vector3d) (hwf : a.WF)
    (h : a.Interior p) :
    ∃ (s : Bool → Bool → Bool → ℚ) (r : ℚ),
      (∀ i j k, a.get? (axisIndex p.x i) (axisIndex p.y j) (axisIndex p.z k) = some (s i j k)) ∧
      interpolate3d a p = some r ∧
      ∀ lo hi, (∀ i j k, lo ≤ s i j k ∧ s i j k ≤ hi) → lo ≤ r ∧ r ≤ hi := by
  obtain ⟨s, hs, e⟩ := interpolate3d_interior a p hwf h
  refine ⟨s, _, hs, e, ?_⟩
  intro lo hi hb
  simp only [smul_eq_mul]
  exact convex_eight (cornerWeight_nonneg p _ _ _) (cornerWeight_nonneg p _ _ _)
    (cornerWeight_nonneg p _ _ _) (cornerWeight_nonneg p _ _ _) (cornerWeight_nonneg p _ _ _)
    (cornerWeight_nonneg p _ _ _) (cornerWeight_nonneg p _ _ _) (cornerWeight_nonneg p _ _ _)
    (cornerWeight_sum p) (hb _ _ _) (hb _ _ _) (hb _ _ _) (hb _ _ _) (hb _ _ _) (hb _ _ _)
    (hb _ _ _) (hb _ _ _)

theorem cornerMin_le (s : Bool → Bool → Bool → ℚ) (i j k : Bool) : cornerMin s ≤ s i j k := by
  unfold cornerMin
  cases i <;> cases j <;> cases k <;> simp

theorem le_cornerMax (s : Bool → Bool → Bool → ℚ) (i j k : Bool) : s i j k ≤ cornerMax s := by
  unfold cornerMax
  cases i <;> cases j <;> cases k <;> simp

theorem MultiArray.get?_map {T U : Type} (f : T → U) (a : MultiArray T) (x y z : Int) :
    (a.map f).get? x y z = (a.get? x y z).map f := by
  unfold MultiArray.get?
  by_cases hv : a.validIndex x y z = true
  · have hv' : (a.map f).validIndex x y z = true := hv
    rw [if_pos hv, if_pos hv']
    simp [MultiArray.map, MultiArray.offset]
  · have hv' : ¬ (a.map f).validIndex x y z = true := hv
    rw [if_neg hv, if_neg hv']
    rfl

theorem blendX_map {T U : Type} [AddCommGroup T] [Module ℚ T] [AddCommGroup U] [Module ℚ U]
    (L : T →ₗ[ℚ] U) (a : MultiArray T) (xdm xd : ℚ) (x0 x1 y z : Int) :
    blendX (a.map L) xdm xd x0 x1 y z = (blendX a xdm xd x0 x1 y z).map L := by
  unfold blendX
  rw [MultiArray.get?_map, MultiArray.get?_map]
  cases a.get? x0 y z <;> cases a.get? x1 y z <;> simp

/-- `interpolate3d` commutes with a linear map applied to every sample. -/
theorem interpolate3d_map {T U : Type} [AddCommGroup T] [Module ℚ T] [AddCommGroup U]
    [Module ℚ U] (L : T →ₗ[ℚ] U) (a : MultiArray T) (p : Vector3d) :
    interpolate3d (a.map L) p = (interpolate3d a p).map L := by
  unfold interpolate3d
  have e0 : (a.map L).shape0 = a.shape0 := rfl
  have e1 : (a.map L).shape1 = a.shape1 := rfl
  have e2 : (a.map L).shape2 = a.shape2 := rfl
  rw [e0, e1, e2]
  split
  · simp
  · simp only [blendX_map, Option.bind_eq_bind, Option.pure_def]
    cases floorInt p.x <;> try rfl
    cases floorInt (p.x + 1) <;> try rfl
    cases floorInt p.y <;> try rfl
    cases floorInt (p.y + 1) <;> try rfl
    cases floorInt p.z <;> try rfl
    cases floorInt (p.z + 1) <;> try rfl
    simp only [Option.some_bind]
    rename_i x0 x1 y0 y1 z0 z1
    cases blendX a (x1 - p.x) (p.x - x0) x0 x1 y0 z0 <;> try rfl
    cases blendX a (x1 - p.x) (p.x - x0) x0 x1 y1 z0 <;> try rfl
    cases blendX a (x1 - p.x) (p.x - x0) x0 x1 y0 z1 <;> try rfl
    cases blendX a (x1 - p.x) (p.x - x0) x0 x1 y1 z1 <;> try rfl
    simp

theorem map_gradAt_x {gX gY gZ : List ℚ} {n : Nat} (h : n ≤ gX.length) :
    ((List.range n).map (gradAt gX gY gZ)).map Vector3d.xLin = gX.take n := by
  apply List.ext_getElem?
  intro j
  by_cases hj : j < n
  · rw [List.getElem?_map, List.getElem?_map, List.getElem?_range hj, List.getElem?_take,
      if_pos hj, List.getElem?_eq_getElem (by omega)]
    simp [gradAt, Vector3d.xLin, List.getElem?_eq_getElem (show j < gX.length by omega)]
  · rw [List.getElem?_eq_none (by simp; omega), List.getElem?_eq_none (by simp; omega)]

theorem map_gradAt_y {gX gY gZ : List ℚ} {n : Nat} (h : n ≤ gY.length) :
    ((List.range n).map (gradAt gX gY gZ)).map Vector3d.yLin = gY.take n := by
  apply List.ext_getElem?
  intro j
  by_cases hj : j < n
  · rw [List.getElem?_map, List.getElem?_map, List.getElem?_range hj, List.getElem?_take,
      if_pos hj, List.getElem?_eq_getElem (by omega)]
    simp [gradAt, Vector3d.yLin, List.getElem?_eq_getElem (show j < gY.length by omega)]
  · rw [List.getElem?_eq_none (by simp; omega), List.getElem?_eq_none (by simp; omega)]

theorem map_gradAt_z {gX gY gZ : List ℚ} {n : Nat} (h : n ≤ gZ.length) :
    ((List.range n).map (gradAt gX gY gZ)).map Vector3d.zLin = gZ.take n := by
  apply List.ext_getElem?
  intro j
  by_cases hj : j < n
  · rw [List.getElem?_map, List.getElem?_map, List.getElem?_range hj, List.getElem?_take,
      if_pos hj, List.getElem?_eq_getElem (by omega)]
    simp [gradAt, Vector3d.zLin, List.getElem?_eq_getElem (show j < gZ.length by omega)]
  · rw [List.getElem?_eq_none (by simp; omega), List.getElem?_eq_none (by simp; omega)]

theorem pointToArray_affine (start scale u : Vector3d)
    (hc : scale.x ≠ 0 ∧ scale.y ≠ 0 ∧ scale.z ≠ 0) :
    pointToArray ⟨start.x + scale.x * u.x, start.y + scale.y * u.y, start.z + scale.z * u.z⟩
      start scale = u := by
  obtain ⟨hx, hy, hz⟩ := hc
  ext <;> simp only [pointToArray, Vector3d.sub_x, Vector3d.sub_y, Vector3d.sub_z] <;>
    field_simp

theorem convex_gt {t a b lo : ℚ} (h0 : 0 ≤ t) (h1 : t ≤ 1) (ha : lo < a) (hb : lo < b) :
    lo < t * a + (1 - t) * b := by
  rcases le_total a b with h | h
  · nlinarith [mul_nonneg (sub_nonneg.2 h1) (sub_nonneg.2 h)]
  · nlinarith [mul_nonneg h0 (sub_nonneg.2 h)]

theorem convex_lt {t a b hi : ℚ} (h0 : 0 ≤ t) (h1 : t ≤ 1) (ha : a < hi) (hb : b < hi) :
    t * a + (1 - t) * b < hi := by
  rcases le_total a b with h | h
  · nlinarith [mul_nonneg h0 (sub_nonneg.2 h)]
  · nlinarith [mul_nonneg (sub_nonneg.2 h1) (sub_nonneg.2 h)]

theorem convex_ge {t a b lo : ℚ} (h0 : 0 ≤ t) (h1 : t ≤ 1) (ha : lo ≤ a) (hb : lo ≤ b) :
    lo ≤ t * a + (1 - t) * b := by
  nlinarith [mul_nonneg h0 (sub_nonneg.2 ha), mul_nonneg (sub_nonneg.2 h1) (sub_nonneg.2 hb)]

/-- A convex combination of two coordinates with the same floor has that floor and
stays in the strict interior. -/
theorem convex_axis {t a b : ℚ} {n : Nat} (h0 : 0 ≤ t) (h1 : t ≤ 1)
    (ha : StrictInterior a n) (hb : StrictInterior b n) (hf : ⌊a⌋ = ⌊b⌋) :
    StrictInterior (t * a + (1 - t) * b) n ∧ ⌊t * a + (1 - t) * b⌋ = ⌊a⌋ := by
  refine ⟨⟨convex_gt h0 h1 ha.1 hb.1, convex_lt h0 h1 ha.2 hb.2⟩, ?_⟩
  rw [Int.floor_eq_iff]
  have a0 := Int.floor_le a
  have a1 := Int.lt_floor_add_one a
  have b0 := Int.floor_le b
  have b1 := Int.lt_floor_add_one b
  rw [← hf] at b0 b1
  exact ⟨convex_ge h0 h1 a0 b0, convex_lt h0 h1 a1 b1⟩

theorem convex_le {t a b hi : ℚ} (h0 : 0 ≤ t) (h1 : t ≤ 1) (ha : a ≤ hi) (hb : b ≤ hi) :
    t * a + (1 - t) * b ≤ hi := by
  nlinarith [mul_nonneg h0 (sub_nonneg.2 ha), mul_nonneg (sub_nonneg.2 h1) (sub_nonneg.2 hb)]

/-- One interpolation step with the weights of an axis stays within bounds. -/
theorem axis_blend_within {v lo hi a b : ℚ} {a0 a1 : Int} (e0 : floorInt v = some a0)
    (e1 : floorInt (v + 1) = some a1) (ha : lo ≤ a ∧ a ≤ hi) (hb : lo ≤ b ∧ b ≤ hi) :
    lo ≤ ((a1 : ℚ) - v) * a + (v - (a0 : ℚ)) * b ∧
    ((a1 : ℚ) - v) * a + (v - (a0 : ℚ)) * b ≤ hi := by
  have f0 := toInt_eq_some e0
  have f1 := toInt_eq_some e1
  rw [Int.floor_add_one] at f1
  subst f0 f1
  have h1 := Int.floor_le v
  have h2 := Int.lt_floor_add_one v
  have e : ((⌊v⌋ + 1 : Int) : ℚ) - v = 1 - (v - (⌊v⌋ : ℚ)) := by push_cast; ring
  rw [e]
  have d0 : 0 ≤ v - (⌊v⌋ : ℚ) := by linarith
  have d1 : v - (⌊v⌋ : ℚ) ≤ 1 := by linarith
  constructor
  · have := convex_ge d0 d1 hb.1 ha.1
    linarith
  · have := convex_le d0 d1 hb.2 ha.2
    linarith

theorem blendX_within {a : MultiArray ℚ} {v lo hi c : ℚ} {x0 x1 y z : Int}
    (e0 : floorInt v = some x0) (e1 : floorInt (v + 1) = some x1)
    (hdata : ∀ s ∈ a.data, lo ≤ s ∧ s ≤ hi)
    (h : blendX a ((x1 : ℚ) - v) (v - (x0 : ℚ)) x0 x1 y z = some c) : lo ≤ c ∧ c ≤ hi := by
  unfold blendX at h
  simp only [Option.bind_eq_bind, Option.bind_eq_some, Option.pure_def, Option.some.injEq] at h
  obtain ⟨sl, hl, sh, hh, rfl⟩ := h
  simp only [smul_eq_mul]
  exact axis_blend_within e0 e1 (hdata _ (MultiArray.get?_mem hl))
    (hdata _ (MultiArray.get?_mem hh))

/-- Whatever `interpolate3d` returns on a scalar grid lies within any bounds
`lo <= 0 <= hi` of the stored samples. -/
theorem interpolate3d_some_within {a : MultiArray ℚ} {p : Vector3d} {r lo hi : ℚ}
    (h : interpolate3d a p = some r) (hlo : lo ≤ 0) (hhi : 0 ≤ hi)
    (hdata : ∀ s ∈ a.data, lo ≤ s ∧ s ≤ hi) : lo ≤ r ∧ r ≤ hi := by
  unfold interpolate3d at h
  split at h
  · simp only [Option.some.injEq] at h
    subst h
    exact ⟨hlo, hhi⟩
  · simp only [Option.bind_eq_bind, Option.bind_eq_some, Option.pure_def,
      Option.some.injEq] at h
    obtain ⟨x0, hx0, x1, hx1, y0, hy0, y1, hy1, z0, hz0, z1, hz1, c00, h00, c10, h10,
      c01, h01, c11, h11, rfl⟩ := h
    have b00 := blendX_within hx0 hx1 hdata h00
    have b10 := blendX_within hx0 hx1 hdata h10
    have b01 := blendX_within hx0 hx1 hdata h01
    have b11 := blendX_within hx0 hx1 hdata h11
    simp only [smul_eq_mul]
    exact axis_blend_within hz0 hz1 (axis_blend_within hy0 hy1 b00 b10)
      (axis_blend_within hy0 hy1 b01 b11)

/-! ## Lemmas: the interpolant as one formula -/

theorem hat_continuous : Continuous hat := by
  unfold hat
  exact continuous_const.max (continuous_const.sub continuous_abs)

theorem hat_low {v : ℚ} {m : Nat} (h : ⌊v⌋ = m) : hat (v - m) = (m : ℚ) + 1 - v := by
  have h1 := Int.floor_le v
  have h2 := Int.lt_floor_add_one v
  rw [h] at h1 h2
  simp only [Int.cast_natCast] at h1 h2
  unfold hat
  rw [abs_of_nonneg (by linarith), max_eq_right (by linarith)]
  ring

theorem hat_high {v : ℚ} {m : Nat} (h : ⌊v⌋ = m) : hat (v - ((m + 1 : Nat) : ℚ)) = v - m := by
  have h1 := Int.floor_le v
  have h2 := Int.lt_floor_add_one v
  rw [h] at h1 h2
  simp only [Int.cast_natCast] at h1 h2
  unfold hat
  push_cast
  rw [abs_of_nonpos (by linarith), max_eq_right (by linarith)]
  ring

theorem hat_far {v : ℚ} {m i : Nat} (h : ⌊v⌋ = m) (h0 : i ≠ m) (h1 : i ≠ m + 1) :
    hat (v - i) = 0 := by
  have f1 := Int.floor_le v
  have f2 := Int.lt_floor_add_one v
  rw [h] at f1 f2
  simp only [Int.cast_natCast] at f1 f2
  unfold hat
  apply max_eq_left
  rcases Nat.lt_or_gt_of_ne h0 with hi | hi
  · have : (i : ℚ) + 1 ≤ m := by exact_mod_cast hi
    rw [abs_of_nonneg (by linarith)]
    linarith
  · have : (m : ℚ) + 2 ≤ i := by
      have : m + 2 ≤ i := by omega
      exact_mod_cast this
    rw [abs_of_nonpos (by linarith)]
    linarith

/-- On one axis only the two nodes around `v` weigh in, with `dm` and `d`. -/
theorem sum_hat (n : Nat) (v : ℚ) (g : Nat → ℚ) (m : Nat) (hm : ⌊v⌋ = m) (hlt : m + 1 < n) :
    ∑ i in Finset.range n, hat (v - i) * g i
      = ((m : ℚ) + 1 - v) * g m + (v - m) * g (m + 1) := by
  rw [Finset.sum_eq_add_of_mem m (m + 1) (Finset.mem_range.2 (by omega))
    (Finset.mem_range.2 hlt) (by omega)
    (fun c _ hc => by rw [hat_far hm hc.1 hc.2, zero_mul]), hat_low hm, hat_high hm]

theorem hatSum_continuous (a : MultiArray ℚ) :
    Continuous fun u : ℚ × ℚ × ℚ => hatSum a u.1 u.2.1 u.2.2 := by
  unfold hatSum
  refine continuous_finset_sum _ fun i _ => ?_
  refine (hat_continuous.comp (continuous_fst.sub continuous_const)).mul ?_
  refine continuous_finset_sum _ fun j _ => ?_
  refine (hat_continuous.comp ((continuous_fst.comp continuous_snd).sub continuous_const)).mul ?_
  refine continuous_finset_sum _ fun k _ => ?_
  exact (hat_continuous.comp
    ((continuous_snd.comp continuous_snd).sub continuous_const)).mul continuous_const

theorem sampleAt_spec {a : MultiArray ℚ} (hwf : a.WF) {i j k : Nat} (hi : i < a.shape0)
    (hj : j < a.shape1) (hk : k < a.shape2) :
    a.get? (i : Int) (j : Int) (k : Int) = some (sampleAt a i j k) := by
  obtain ⟨s, hs⟩ := MultiArray.get?_isSome hwf
    (show a.validIndex (i : Int) (j : Int) (k : Int) = true by
      rw [MultiArray.validIndex_iff]; omega)
  rw [sampleAt, hs]; rfl

/-- In the strict interior of a well-formed scalar grid the code computes the
value of the one-formula interpolant. -/
theorem interpolate3d_eq_hatSum (a : MultiArray ℚ) (p : Vector3d) (hwf : a.WF)
    (h : a.Interior p) : interpolate3d a p = some (hatSum a p.x p.y p.z) := by
  obtain ⟨hx, hy, hz⟩ := h
  obtain ⟨x0, x1⟩ := floor_bounds hx
  obtain ⟨y0, y1⟩ := floor_bounds hy
  obtain ⟨z0, z1⟩ := floor_bounds hz
  obtain ⟨nx, ex⟩ := Int.eq_ofNat_of_zero_le x0
  obtain ⟨ny, ey⟩ := Int.eq_ofNat_of_zero_le y0
  obtain ⟨nz, ez⟩ := Int.eq_ofNat_of_zero_le z0
  rw [ex] at x1
  rw [ey] at y1
  rw [ez] at z1
  have bx : nx + 1 < a.shape0 := by exact_mod_cast x1
  have bY : ny + 1 < a.shape1 := by exact_mod_cast y1
  have bz : nz + 1 < a.shape2 := by exact_mod_cast z1
  have mx : ((nx : Int) + 1) ≤ INT_MAX := by have := hwf.2.1; omega
  have my : ((ny : Int) + 1) ≤ INT_MAX := by have := hwf.2.2.1; omega
  have mz : ((nz : Int) + 1) ≤ INT_MAX := by have := hwf.2.2.2; omega
  have rd : ∀ i j k : Nat, i < a.shape0 → j < a.shape1 → k < a.shape2 →
      a.get? (i : Int) (j : Int) (k : Int) = some (sampleAt a i j k) :=
    fun i j k hi hj hk => sampleAt_spec hwf hi hj hk
  have e := interpolate3d_eval a p nx ny nz ex ey ez
    (inBound_of_strictInterior (int_max_lt_size_mod hwf.2.1) hx)
    (inBound_of_strictInterior (int_max_lt_size_mod hwf.2.2.1) hy)
    (inBound_of_strictInterior (int_max_lt_size_mod hwf.2.2.2) hz) mx my mz
    (sampleAt a nx ny nz) (sampleAt a (nx + 1) ny nz) (sampleAt a nx (ny + 1) nz)
    (sampleAt a (nx + 1) (ny + 1) nz) (sampleAt a nx ny (nz + 1))
    (sampleAt a (nx + 1) ny (nz + 1)) (sampleAt a nx (ny + 1) (nz + 1))
    (sampleAt a (nx + 1) (ny + 1) (nz + 1))
    (rd _ _ _ (by omega) (by omega) (by omega))
    (by exact_mod_cast rd (nx + 1) ny nz (by omega) (by omega) (by omega))
    (by exact_mod_cast rd nx (ny + 1) nz (by omega) (by omega) (by omega))
    (by exact_mod_cast rd (nx + 1) (ny + 1) nz (by omega) (by omega) (by omega))
    (by exact_mod_cast rd nx ny (nz + 1) (by omega) (by omega) (by omega))
    (by exact_mod_cast rd (nx + 1) ny (nz + 1) (by omega) (by omega) (by omega))
    (by exact_mod_cast rd nx (ny + 1) (nz + 1) (by omega) (by omega) (by omega))
    (by exact_mod_cast rd (nx + 1) (ny + 1) (nz + 1) (by omega) (by omega) (by omega))
  rw [e]
  congr 1
  unfold hatSum
  simp only [sum_hat a.shape2 p.z _ nz ez bz, sum_hat a.shape1 p.y _ ny ey bY,
    sum_hat a.shape0 p.x _ nx ex bx, smul_eq_mul]
  ring

/-! ## Lemmas: continuity and reachable fields -/

theorem MultiArray.isOpen_box {T : Type} (a : MultiArray T) : IsOpen a.box := by
  have e : a.box = ({u | (0 : ℚ) < u.1} ∩ {u | u.1 < (a.shape0 : ℚ) - 1}) ∩
      (({u | (0 : ℚ) < u.2.1} ∩ {u | u.2.1 < (a.shape1 : ℚ) - 1}) ∩
       ({u | (0 : ℚ) < u.2.2} ∩ {u | u.2.2 < (a.shape2 : ℚ) - 1})) := by
    ext u
    simp only [MultiArray.box, StrictInterior, Set.mem_setOf_eq, Set.mem_inter_iff]
  rw [e]
  have c1 : Continuous fun u : ℚ × ℚ × ℚ => u.1 := continuous_fst
  have c2 : Continuous fun u : ℚ × ℚ × ℚ => u.2.1 := continuous_fst.comp continuous_snd
  have c3 : Continuous fun u : ℚ × ℚ × ℚ => u.2.2 := continuous_snd.comp continuous_snd
  exact ((isOpen_lt continuous_const c1).inter (isOpen_lt c1 continuous_const)).inter
    (((isOpen_lt continuous_const c2).inter (isOpen_lt c2 continuous_const)).inter
      ((isOpen_lt continuous_const c3).inter (isOpen_lt c3 continuous_const)))

theorem interpolate3dValue_eq_hatSum (a : MultiArray ℚ) (hwf : a.WF) {u : ℚ × ℚ × ℚ}
    (hu : u ∈ a.box) : interpolate3dValue a u = hatSum a u.1 u.2.1 u.2.2 := by
  unfold interpolate3dValue
  rw [interpolate3d_eq_hatSum a ⟨u.1, u.2.1, u.2.2⟩ hwf hu]
  rfl

theorem interpolate3dValue_continuousOn (a : MultiArray ℚ) (hwf : a.WF) :
    ContinuousOn (interpolate3dValue a) a.box :=
  (hatSum_continuous a).continuousOn.congr fun _ hu => interpolate3dValue_eq_hatSum a hwf hu

/-- Along a continuous path the value tends, from the left, to the value at the
point of the box the path reaches. -/
theorem interpolate3dValue_tendsto_left (a : MultiArray ℚ) (hwf : a.WF)
    (path : ℚ → ℚ × ℚ × ℚ) (hpath : Continuous path) (k : ℚ) (hk : path k ∈ a.box) :
    Filter.Tendsto (fun t => interpolate3dValue a (path t)) (nhdsWithin k (Set.Iio k))
      (nhds (interpolate3dValue a (path k))) := by
  have hat : ContinuousAt (interpolate3dValue a) (path k) :=
    (interpolate3dValue_continuousOn a hwf).continuousAt (a.isOpen_box.mem_nhds hk)
  have hp : Filter.Tendsto path (nhdsWithin k (Set.Iio k)) (nhds (path k)) :=
    (hpath.tendsto k).mono_left nhdsWithin_le_nhds
  exact hat.tendsto.comp hp

/-- Invariant of the reachable fields: both grids are well formed and have the
same extents. -/
theorem reachable_inv {f : ObsPen} (h : Reachable f) :
    f.pen_.WF ∧ f.penGrad_.WF ∧ f.pen_.shape0 = f.penGrad_.shape0 ∧
    f.pen_.shape1 = f.penGrad_.shape1 ∧ f.pen_.shape2 = f.penGrad_.shape2 := by
  induction h with
  | created start scale =>
    exact ⟨MultiArray.empty_WF, MultiArray.empty_WF, rfl, rfl, rfl⟩
  | setPen start scale sizeX sizeY sizeZ penality gX gY gZ uninit _ hset _ =>
    obtain ⟨-, -, -, -, -, ⟨p0, p1, p2⟩, ⟨g0, g1, g2⟩, wp, wg⟩ := setPen_frame hset
    exact ⟨wp, wg, p0.trans g0.symm, p1.trans g1.symm, p2.trans g2.symm⟩
  | assign uninit _ _ hassign _ ihsrc =>
    obtain ⟨wp, wg, e0, e1, e2⟩ := ihsrc
    rw [ObsPen.assign_eq_of_WF _ _ _ wp wg] at hassign
    simp only [Option.some.injEq] at hassign
    subst hassign
    exact ⟨wp, wg, e0, e1, e2⟩

/-! ## Claims on assignment, the loaded state and the interpolant -/

/-- C11: for every source field and every destination field, the assignment
`dst = src` succeeds and its result has the grid extents of `src`, the penalty
and gradient sample of `src` at every index triple, and the `start_` and
`scale_` of `src`; hence `penality` and `penalityGrad` of the result and of
`src` agree at every world point. -/
theorem assign_copies (dst src : ObsPen) (uninit : Vector3d) :
    ∃ f, dst.assign src uninit = some f ∧
      (f.pen_.shape0 = src.pen_.shape0 ∧ f.pen_.shape1 = src.pen_.shape1 ∧
        f.pen_.shape2 = src.pen_.shape2) ∧
      (f.penGrad_.shape0 = src.penGrad_.shape0 ∧ f.penGrad_.shape1 = src.penGrad_.shape1 ∧
        f.penGrad_.shape2 = src.penGrad_.shape2) ∧
      (∀ x y z : Int, f.pen_.get? x y z = src.pen_.get? x y z ∧
        f.penGrad_.get? x y z = src.penGrad_.get? x y z) ∧
      f.start_ = src.start_ ∧ f.scale_ = src.scale_ ∧
      ∀ pos : Vector3d, f.penality pos = src.penality pos ∧
        f.penalityGrad pos = src.penalityGrad pos := by
  have h := ObsPen.assign_eq dst src uninit
  obtain ⟨hs, hc, hp, pr, hg, gr⟩ := ObsPen.assign_some h
  exact ⟨_, h, hp, hg, fun x y z => ⟨pr x y z, gr x y z⟩, hs, hc,
    fun pos => ObsPen.assign_queries h pos⟩

/-- On values, in a program state with two fields: after `b = a` a later
`setPen` on `a` leaves `penality` and `penalityGrad` of `b` at every world point
as they were right after the copy, which is as they were for `a` before its
`setPen`; symmetrically a `setPen` on `b` leaves the answers of `a` unchanged.
-/
theorem copy_independent (w w1 wa wb : TwoFields) (uninit ua ub : Vector3d)
    (start scale : Vector3d) (sizeX sizeY sizeZ : Int) (penality gX gY gZ : List ℚ)
    (hcopy : w.assignB uninit = some w1)
    (ha : w1.setPenA start scale sizeX sizeY sizeZ penality gX gY gZ ua = some wa)
    (hb : w1.setPenB start scale sizeX sizeY sizeZ penality gX gY gZ ub = some wb)
    (pos : Vector3d) :
    (wa.b.penality pos = w1.b.penality pos ∧ wa.b.penalityGrad pos = w1.b.penalityGrad pos) ∧
    (wa.b.penality pos = w.a.penality pos ∧ wa.b.penalityGrad pos = w.a.penalityGrad pos) ∧
    (wb.a.penality pos = w1.a.penality pos ∧ wb.a.penalityGrad pos = w1.a.penalityGrad pos) := by
  unfold TwoFields.assignB at hcopy
  unfold TwoFields.setPenA at ha
  unfold TwoFields.setPenB at hb
  simp only [Option.bind_eq_bind, Option.bind_eq_some, Option.pure_def, Option.some.injEq]
    at hcopy ha hb
  obtain ⟨b1, hb1, rfl⟩ := hcopy
  obtain ⟨a2, -, rfl⟩ := ha
  obtain ⟨b2, -, rfl⟩ := hb
  exact ⟨⟨rfl, rfl⟩, ObsPen.assign_queries hb1 pos, ⟨rfl, rfl⟩⟩

/-- Example for `copy_independent`: `a` holds the field of `ObsPenTest`, `b` is freshly created;
after `b = a`, loading `a` with a `1x1x1` grid leaves the copy answering as the
field of `ObsPenTest` at the test's first point. -/
theorem copy_independent_witness :
    ObsPen.penality
      ⟨⟨3, 3, 3, ObsPenTest.pen.take (3 * 3 * 3)⟩, ⟨3, 3, 3, ((List.range 27).map
        (gradAt ObsPenTest.penGradX ObsPenTest.penGradY ObsPenTest.penGradZ)).take (3 * 3 * 3)⟩,
        0, ⟨1, 1, 1⟩⟩ ObsPenTest.point1
    = ObsPen.penality
      ⟨⟨3, 3, 3, ObsPenTest.pen⟩, ⟨3, 3, 3, (List.range 27).map
        (gradAt ObsPenTest.penGradX ObsPenTest.penGradY ObsPenTest.penGradZ)⟩, 0, ⟨1, 1, 1⟩⟩ ObsPenTest.point1 ∧
    ObsPen.penalityGrad
      ⟨⟨3, 3, 3, ObsPenTest.pen.take (3 * 3 * 3)⟩, ⟨3, 3, 3, ((List.range 27).map
        (gradAt ObsPenTest.penGradX ObsPenTest.penGradY ObsPenTest.penGradZ)).take (3 * 3 * 3)⟩,
        0, ⟨1, 1, 1⟩⟩ ObsPenTest.point1
    = ObsPen.penalityGrad
      ⟨⟨3, 3, 3, ObsPenTest.pen⟩, ⟨3, 3, 3, (List.range 27).map
        (gradAt ObsPenTest.penGradX ObsPenTest.penGradY ObsPenTest.penGradZ)⟩, 0, ⟨1, 1, 1⟩⟩ ObsPenTest.point1 :=
  (copy_independent
    ⟨⟨⟨3, 3, 3, ObsPenTest.pen⟩, ⟨3, 3, 3, (List.range 27).map
        (gradAt ObsPenTest.penGradX ObsPenTest.penGradY ObsPenTest.penGradZ)⟩, 0, ⟨1, 1, 1⟩⟩,
      ⟨MultiArray.empty, MultiArray.empty, 0, 0⟩⟩
    ⟨⟨⟨3, 3, 3, ObsPenTest.pen⟩, ⟨3, 3, 3, (List.range 27).map
        (gradAt ObsPenTest.penGradX ObsPenTest.penGradY ObsPenTest.penGradZ)⟩, 0, ⟨1, 1, 1⟩⟩,
      ⟨⟨3, 3, 3, ObsPenTest.pen.take (3 * 3 * 3)⟩, ⟨3, 3, 3, ((List.range 27).map
        (gradAt ObsPenTest.penGradX ObsPenTest.penGradY ObsPenTest.penGradZ)).take (3 * 3 * 3)⟩,
        0, ⟨1, 1, 1⟩⟩⟩
    ⟨⟨⟨1, 1, 1, [1]⟩, ⟨1, 1, 1, [⟨0, 0, 0⟩]⟩, 0, ⟨1, 1, 1⟩⟩,
      ⟨⟨3, 3, 3, ObsPenTest.pen.take (3 * 3 * 3)⟩, ⟨3, 3, 3, ((List.range 27).map
        (gradAt ObsPenTest.penGradX ObsPenTest.penGradY ObsPenTest.penGradZ)).take (3 * 3 * 3)⟩,
        0, ⟨1, 1, 1⟩⟩⟩
    ⟨⟨⟨3, 3, 3, ObsPenTest.pen⟩, ⟨3, 3, 3, (List.range 27).map
        (gradAt ObsPenTest.penGradX ObsPenTest.penGradY ObsPenTest.penGradZ)⟩, 0, ⟨1, 1, 1⟩⟩,
      ⟨⟨1, 1, 1, [1]⟩, ⟨1, 1, 1, [⟨0, 0, 0⟩]⟩, 0, ⟨1, 1, 1⟩⟩⟩
    0 0 0 0 ⟨1, 1, 1⟩ 1 1 1 [1] [0] [0] [0]
    rfl rfl rfl ObsPenTest.point1).2.1

/-- The prior state does not matter: for every two prior field states and every
valid argument tuple (extents `>= 1`, four sequences of length
`sizeX*sizeY*sizeZ`), `setPen` has the same outcome on both, whatever value the
new elements are default-constructed with; when the product of the extents fits
an `int` that outcome is one and the same field, built from the arguments alone.
-/
theorem setPen_replaces_state (s1 s2 : ObsPen) (start scale : Vector3d)
    (sizeX sizeY sizeZ : Int) (penality gX gY gZ : List ℚ) (u1 u2 : Vector3d)
    (hx : 1 ≤ sizeX) (hy : 1 ≤ sizeY) (hz : 1 ≤ sizeZ)
    (hp : (penality.length : Int) = sizeX * sizeY * sizeZ)
    (hX : (gX.length : Int) = sizeX * sizeY * sizeZ)
    (hY : (gY.length : Int) = sizeX * sizeY * sizeZ)
    (hZ : (gZ.length : Int) = sizeX * sizeY * sizeZ) :
    s1.setPen start scale sizeX sizeY sizeZ penality gX gY gZ u1
      = s2.setPen start scale sizeX sizeY sizeZ penality gX gY gZ u2 ∧
    (sizeX * sizeY * sizeZ ≤ INT_MAX →
      s1.setPen start scale sizeX sizeY sizeZ penality gX gY gZ u1 = some
        { pen_ := ⟨sizeX.toNat, sizeY.toNat, sizeZ.toNat, penality⟩,
          penGrad_ := ⟨sizeX.toNat, sizeY.toNat, sizeZ.toNat,
            (List.range penality.length).map (gradAt gX gY gZ)⟩,
          start_ := start, scale_ := scale }) := by
  lift sizeX to ℕ using (by omega) with nx
  lift sizeY to ℕ using (by omega) with ny
  lift sizeZ to ℕ using (by omega) with nz
  have hx' : 1 ≤ nx := by omega
  have hy' : 1 ≤ ny := by omega
  have hz' : 1 ≤ nz := by omega
  have lp : penality.length = nx * ny * nz := by exact_mod_cast hp
  have lX : gX.length = nx * ny * nz := by exact_mod_cast hX
  have lY : gY.length = nx * ny * nz := by exact_mod_cast hY
  have lZ : gZ.length = nx * ny * nz := by exact_mod_cast hZ
  have key : ∀ (s : ObsPen) (u : Vector3d), ((nx : Int) * ny * nz ≤ INT_MAX) →
      s.setPen start scale nx ny nz penality gX gY gZ u = some
        { pen_ := ⟨nx, ny, nz, penality⟩,
          penGrad_ := ⟨nx, ny, nz, (List.range penality.length).map (gradAt gX gY gZ)⟩,
          start_ := start, scale_ := scale } := by
    intro s u hmax
    have hN : ((nx * ny * nz : Nat) : Int) ≤ INT_MAX := by push_cast; exact hmax
    have hxy_le : nx * ny ≤ nx * ny * nz := Nat.le_mul_of_pos_right _ hz'
    have hx_le : nx ≤ nx * ny := Nat.le_mul_of_pos_right _ hy'
    have hy_le : ny ≤ nx * ny := Nat.le_mul_of_pos_left _ hx'
    have hz_le : nz ≤ nx * ny * nz := Nat.le_mul_of_pos_left _ (Nat.mul_pos hx' hy')
    rw [setPen_eq_nat s start scale nx ny nz penality gX gY gZ u
      (by omega) (by omega) (by omega) (by omega) hN lp.ge lX.ge lY.ge lZ.ge,
      List.take_of_length_le lp.le, lp]
  constructor
  · by_cases hmax : (nx : Int) * ny * nz ≤ INT_MAX
    · rw [key s1 u1 hmax, key s2 u2 hmax]
    · cases h1 : s1.setPen start scale nx ny nz penality gX gY gZ u1 with
      | some f => exact absurd (setPen_eq_of_some h1).2.2.2.2.1 hmax
      | none =>
        cases h2 : s2.setPen start scale nx ny nz penality gX gY gZ u2 with
        | some f => exact absurd (setPen_eq_of_some h2).2.2.2.2.1 hmax
        | none => rfl
  · intro hmax
    simpa using key s1 u1 hmax

/-- Example for `setPen_replaces_state`: the arguments of `ObsPenTest` on two different prior fields. -/
theorem setPen_replaces_state_witness :
    ObsPen.setPen (⟨MultiArray.empty, MultiArray.empty, 0, 0⟩) 0 ⟨1, 1, 1⟩ 3 3 3 ObsPenTest.pen ObsPenTest.penGradX
        ObsPenTest.penGradY ObsPenTest.penGradZ 0
      = ObsPen.setPen ⟨⟨1, 1, 1, [5]⟩, ⟨1, 1, 1, [⟨1, 2, 3⟩]⟩, ⟨1, 1, 1⟩, ⟨2, 2, 2⟩⟩ 0 ⟨1, 1, 1⟩
        3 3 3 ObsPenTest.pen ObsPenTest.penGradX ObsPenTest.penGradY ObsPenTest.penGradZ
        ⟨7, 7, 7⟩ :=
  (setPen_replaces_state (⟨MultiArray.empty, MultiArray.empty, 0, 0⟩)
    ⟨⟨1, 1, 1, [5]⟩, ⟨1, 1, 1, [⟨1, 2, 3⟩]⟩, ⟨1, 1, 1⟩, ⟨2, 2, 2⟩⟩ 0 ⟨1, 1, 1⟩ 3 3 3
    ObsPenTest.pen ObsPenTest.penGradX ObsPenTest.penGradY ObsPenTest.penGradZ 0 ⟨7, 7, 7⟩
    (by decide) (by decide) (by decide) (by decide) (by decide) (by decide) (by decide)).1

/-- C14: every field reachable from a created (empty) field by `setPen` calls
and assignments from reachable fields has the same extents for its penalty grid
and its gradient grid on all three axes. -/
theorem reachable_extents_agree (f : ObsPen) (h : Reachable f) :
    f.pen_.shape0 = f.penGrad_.shape0 ∧ f.pen_.shape1 = f.penGrad_.shape1 ∧
    f.pen_.shape2 = f.penGrad_.shape2 :=
  (reachable_inv h).2.2

/-- C14, witness: a created field assigned from the field that `setPen` builds
from the data of `ObsPenTest` on a created field. -/
theorem reachable_extents_agree_witness :
    MultiArray.shape0 (ObsPen.pen_
      ⟨⟨3, 3, 3, ObsPenTest.pen.take (3 * 3 * 3)⟩, ⟨3, 3, 3, (List.range (3 * 3 * 3)).map
        (gradAt ObsPenTest.penGradX ObsPenTest.penGradY ObsPenTest.penGradZ)⟩,
        0, ⟨1, 1, 1⟩⟩)
      = MultiArray.shape0 (ObsPen.penGrad_
      ⟨⟨3, 3, 3, ObsPenTest.pen.take (3 * 3 * 3)⟩, ⟨3, 3, 3, (List.range (3 * 3 * 3)).map
        (gradAt ObsPenTest.penGradX ObsPenTest.penGradY ObsPenTest.penGradZ)⟩,
        0, ⟨1, 1, 1⟩⟩) ∧
    MultiArray.shape1 (ObsPen.pen_
      ⟨⟨3, 3, 3, ObsPenTest.pen.take (3 * 3 * 3)⟩, ⟨3, 3, 3, (List.range (3 * 3 * 3)).map
        (gradAt ObsPenTest.penGradX ObsPenTest.penGradY ObsPenTest.penGradZ)⟩,
        0, ⟨1, 1, 1⟩⟩)
      = MultiArray.shape1 (ObsPen.penGrad_
      ⟨⟨3, 3, 3, ObsPenTest.pen.take (3 * 3 * 3)⟩, ⟨3, 3, 3, (List.range (3 * 3 * 3)).map
        (gradAt ObsPenTest.penGradX ObsPenTest.penGradY ObsPenTest.penGradZ)⟩,
        0, ⟨1, 1, 1⟩⟩) ∧
    MultiArray.shape2 (ObsPen.pen_
      ⟨⟨3, 3, 3, ObsPenTest.pen.take (3 * 3 * 3)⟩, ⟨3, 3, 3, (List.range (3 * 3 * 3)).map
        (gradAt ObsPenTest.penGradX ObsPenTest.penGradY ObsPenTest.penGradZ)⟩,
        0, ⟨1, 1, 1⟩⟩)
      = MultiArray.shape2 (ObsPen.penGrad_
      ⟨⟨3, 3, 3, ObsPenTest.pen.take (3 * 3 * 3)⟩, ⟨3, 3, 3, (List.range (3 * 3 * 3)).map
        (gradAt ObsPenTest.penGradX ObsPenTest.penGradY ObsPenTest.penGradZ)⟩,
        0, ⟨1, 1, 1⟩⟩) :=
  reachable_extents_agree
    ⟨⟨3, 3, 3, ObsPenTest.pen.take (3 * 3 * 3)⟩, ⟨3, 3, 3, (List.range (3 * 3 * 3)).map
        (gradAt ObsPenTest.penGradX ObsPenTest.penGradY ObsPenTest.penGradZ)⟩,
        0, ⟨1, 1, 1⟩⟩
    (Reachable.assign 0 (Reachable.created 0 0)
      (Reachable.setPen 0 ⟨1, 1, 1⟩ 3 3 3 ObsPenTest.pen ObsPenTest.penGradX
        ObsPenTest.penGradY ObsPenTest.penGradZ 0 (Reachable.created 0 0)
        (setPen_eq_nat _ 0 ⟨1, 1, 1⟩ 3 3 3 _ _ _ _ 0 (by decide) (by decide) (by decide)
          (by decide) (by decide) (by decide) (by decide) (by decide) (by decide)))
      (ObsPen.assign_eq_of_WF _ _ 0 ⟨rfl, by decide, by decide, by decide⟩
        ⟨rfl, by decide, by decide, by decide⟩))

/-- In exact arithmetic, for every coordinate value `v`, with the mathematical
floor: the high index is the low index plus one (`floor (v+1) = floor v + 1`),
`d = v - a0` lies in `[0, 1)`, `dm = a1 - v` lies in `(0, 1]` and `d + dm = 1`;
whenever the conversions `int(std::floor(..))` of the code are defined (always
when `floor v` and `floor v + 1` are values of `int`), the indices and weights
the code computes are these. -/
theorem axis_indices_weights (v : ℚ) :
    axisIndex v true = axisIndex v false + 1 ∧
    (0 ≤ axisWeight v true ∧ axisWeight v true < 1) ∧
    (0 < axisWeight v false ∧ axisWeight v false ≤ 1) ∧
    axisWeight v true + axisWeight v false = 1 ∧
    (∀ a0 a1 : Int, floorInt v = some a0 → floorInt (v + 1) = some a1 →
      a0 = axisIndex v false ∧ a1 = axisIndex v true ∧
      v - (a0 : ℚ) = axisWeight v true ∧ (a1 : ℚ) - v = axisWeight v false) ∧
    (INT_MIN ≤ ⌊v⌋ → ⌊v⌋ + 1 ≤ INT_MAX →
      floorInt v = some (axisIndex v false) ∧ floorInt (v + 1) = some (axisIndex v true)) := by
  have h1 := Int.floor_le v
  have h2 := Int.lt_floor_add_one v
  refine ⟨?_, ⟨?_, ?_⟩, ⟨?_, ?_⟩, ?_, ?_, ?_⟩
  · rw [axisIndex_high, axisIndex_low]
  · rw [axisWeight_high]; linarith
  · rw [axisWeight_high]; linarith
  · rw [axisWeight_low]; linarith
  · rw [axisWeight_low]; linarith
  · rw [axisWeight_high, axisWeight_low]; ring
  · intro a0 a1 e0 e1
    have f0 := toInt_eq_some e0
    have f1 := toInt_eq_some e1
    rw [Int.floor_add_one] at f1
    subst f0 f1
    refine ⟨(axisIndex_low v).symm, (axisIndex_high v).symm, (axisWeight_high v).symm, ?_⟩
    rw [axisWeight_low]; push_cast; ring
  · intro lo hi
    have i0 : isInt ⌊v⌋ = true := by
      rw [isInt_iff]; exact ⟨lo, by omega⟩
    have i1 : isInt (⌊v⌋ + 1) = true := by
      rw [isInt_iff]; exact ⟨by omega, hi⟩
    rw [axisIndex_low, axisIndex_high]
    unfold floorInt
    rw [Int.floor_add_one]
    simp [toInt, i0, i1]

/-- In exact arithmetic: for every well-formed grid (any sample type), any two
coordinates of the strict interior with the same floor on every axis that differ
on one axis only, and every `t` in `[0, 1]`, the value at `t*u + (1-t)*u'` is
`t` times the value at `u` plus `1-t` times the value at `u'`. -/
theorem interpolate3d_affine_on_axis {T : Type} [AddCommGroup T] [Module ℚ T]
    (array : MultiArray T) (u u' : Vector3d) (t : ℚ) (hwf : array.WF)
    (hu : array.Interior u) (hu' : array.Interior u')
    (hfloor : ⌊u.x⌋ = ⌊u'.x⌋ ∧ ⌊u.y⌋ = ⌊u'.y⌋ ∧ ⌊u.z⌋ = ⌊u'.z⌋)
    (haxis : (u.y = u'.y ∧ u.z = u'.z) ∨ (u.x = u'.x ∧ u.z = u'.z) ∨ (u.x = u'.x ∧ u.y = u'.y))
    (ht : 0 ≤ t ∧ t ≤ 1) :
    ∃ r r', interpolate3d array u = some r ∧ interpolate3d array u' = some r' ∧
      interpolate3d array (t • u + (1 - t) • u') = some (t • r + (1 - t) • r') := by
  obtain ⟨fx, fy, fz⟩ := hfloor
  obtain ⟨cx, gx⟩ := convex_axis ht.1 ht.2 hu.1 hu'.1 fx
  obtain ⟨cy, gy⟩ := convex_axis ht.1 ht.2 hu.2.1 hu'.2.1 fy
  obtain ⟨cz, gz⟩ := convex_axis ht.1 ht.2 hu.2.2 hu'.2.2 fz
  have hm : array.Interior (t • u + (1 - t) • u') := ⟨cx, cy, cz⟩
  have mx : (t • u + (1 - t) • u').x = t * u.x + (1 - t) * u'.x := rfl
  have my : (t • u + (1 - t) • u').y = t * u.y + (1 - t) * u'.y := rfl
  have mz : (t • u + (1 - t) • u').z = t * u.z + (1 - t) * u'.z := rfl
  obtain ⟨s, hs, e⟩ := interpolate3d_interior array u hwf hu
  obtain ⟨s', hs', e'⟩ := interpolate3d_interior array u' hwf hu'
  obtain ⟨sm, hsm, em⟩ := interpolate3d_interior array _ hwf hm
  have ix : ∀ i, axisIndex u'.x i = axisIndex u.x i := by
    intro i; cases i <;> simp [axisIndex, Int.floor_add_one, fx]
  have iy : ∀ i, axisIndex u'.y i = axisIndex u.y i := by
    intro i; cases i <;> simp [axisIndex, Int.floor_add_one, fy]
  have iz : ∀ i, axisIndex u'.z i = axisIndex u.z i := by
    intro i; cases i <;> simp [axisIndex, Int.floor_add_one, fz]
  have jx : ∀ i, axisIndex (t • u + (1 - t) • u').x i = axisIndex u.x i := by
    intro i; cases i <;> simp [axisIndex, Int.floor_add_one, mx, gx]
  have jy : ∀ i, axisIndex (t • u + (1 - t) • u').y i = axisIndex u.y i := by
    intro i; cases i <;> simp [axisIndex, Int.floor_add_one, my, gy]
  have jz : ∀ i, axisIndex (t • u + (1 - t) • u').z i = axisIndex u.z i := by
    intro i; cases i <;> simp [axisIndex, Int.floor_add_one, mz, gz]
  have es' : ∀ i j k, s' i j k = s i j k := by
    intro i j k
    have h := hs' i j k
    rw [ix, iy, iz, hs i j k] at h
    exact (Option.some.inj h).symm
  have esm : ∀ i j k, sm i j k = s i j k := by
    intro i j k
    have h := hsm i j k
    rw [jx, jy, jz, hs i j k] at h
    exact (Option.some.inj h).symm
  refine ⟨_, _, e, e', ?_⟩
  rw [em]
  simp only [es', esm, cornerWeight, axisWeight_low, axisWeight_high, mx, my, mz, gx, gy, gz,
    ← fx, ← fy, ← fz, Option.some.injEq]
  rcases haxis with ⟨hy, hz⟩ | ⟨hx, hz⟩ | ⟨hx, hy⟩
  · rw [← hy, ← hz]; module
  · rw [← hx, ← hz]; module
  · rw [← hx, ← hy]; module

/-- Example for `interpolate3d_affine_on_axis`: two coordinates of one cell of a `3x3x3` grid that differ in
`x` only, mixed half and half. -/
theorem interpolate3d_affine_on_axis_witness :
    ∃ r r', interpolate3d (⟨3, 3, 3, ObsPenTest.pen⟩ : MultiArray ℚ) ⟨1 / 4, 1 / 2, 1 / 2⟩
        = some r ∧
      interpolate3d (⟨3, 3, 3, ObsPenTest.pen⟩ : MultiArray ℚ) ⟨3 / 4, 1 / 2, 1 / 2⟩ = some r' ∧
      interpolate3d (⟨3, 3, 3, ObsPenTest.pen⟩ : MultiArray ℚ)
        ((1 / 2 : ℚ) • (⟨1 / 4, 1 / 2, 1 / 2⟩ : Vector3d)
          + (1 - 1 / 2 : ℚ) • (⟨3 / 4, 1 / 2, 1 / 2⟩ : Vector3d))
        = some ((1 / 2 : ℚ) • r + (1 - 1 / 2 : ℚ) • r') :=
  interpolate3d_affine_on_axis ⟨3, 3, 3, ObsPenTest.pen⟩ ⟨1 / 4, 1 / 2, 1 / 2⟩
    ⟨3 / 4, 1 / 2, 1 / 2⟩ (1 / 2) ⟨rfl, by decide, by decide, by decide⟩
    ⟨by norm_num [StrictInterior], by norm_num [StrictInterior], by norm_num [StrictInterior]⟩
    ⟨by norm_num [StrictInterior], by norm_num [StrictInterior], by norm_num [StrictInterior]⟩
    ⟨by rw [Int.floor_eq_iff.mpr (show ((0 : Int) : ℚ) ≤ 1 / 4 ∧ (1 / 4 : ℚ) < (0 : Int) + 1 by
          norm_num), Int.floor_eq_iff.mpr (show ((0 : Int) : ℚ) ≤ 3 / 4 ∧
          (3 / 4 : ℚ) < (0 : Int) + 1 by norm_num)], rfl, rfl⟩
    (Or.inl ⟨rfl, rfl⟩) ⟨by norm_num, by norm_num⟩

/-- In exact arithmetic: for every well-formed scalar grid and every coordinate
of its strict interior, the value returned by `interpolate3d` lies between the
smallest and the largest of the 8 corner samples it reads; consequently whatever
`penality` returns lies within any bounds `lo <= 0 <= hi` that hold for all
stored penalty samples, and for a field whose penalty grid has extents `>= 1` it
does return such a value at every world point. -/
theorem interpolate3d_within_samples (array : MultiArray ℚ) (hwf : array.WF) :
    (∀ arrPoint : Vector3d, array.Interior arrPoint →
      ∃ (s : Bool → Bool → Bool → ℚ) (r : ℚ),
        (∀ i j k, array.get? (axisIndex arrPoint.x i) (axisIndex arrPoint.y j)
          (axisIndex arrPoint.z k) = some (s i j k)) ∧
        interpolate3d array arrPoint = some r ∧ cornerMin s ≤ r ∧ r ≤ cornerMax s) ∧
    (∀ (f : ObsPen) (lo hi : ℚ), f.pen_ = array →
      lo ≤ 0 → 0 ≤ hi → (∀ v ∈ array.data, lo ≤ v ∧ v ≤ hi) →
      ∀ (pos : Vector3d) (r : ℚ), f.penality pos = some r → lo ≤ r ∧ r ≤ hi) ∧
    (∀ (f : ObsPen) (lo hi : ℚ), f.pen_ = array →
      1 ≤ array.shape0 → 1 ≤ array.shape1 → 1 ≤ array.shape2 →
      lo ≤ 0 → 0 ≤ hi → (∀ v ∈ array.data, lo ≤ v ∧ v ≤ hi) →
      ∀ pos : Vector3d, ∃ r, f.penality pos = some r ∧ lo ≤ r ∧ r ≤ hi) := by
  refine ⟨?_, ?_, ?_⟩
  · intro p hp
    obtain ⟨s, r, hs, e, hb⟩ := interpolate3d_between array p hwf hp
    exact ⟨s, r, hs, e, hb _ _ fun i j k => ⟨cornerMin_le s i j k, le_cornerMax s i j k⟩⟩
  · intro f lo hi hf hlo hhi hdata pos r hr
    unfold ObsPen.penality at hr
    rw [hf] at hr
    exact interpolate3d_some_within hr hlo hhi hdata
  · intro f lo hi hf h0 h1 h2 hlo hhi hdata pos
    unfold ObsPen.penality
    rw [hf]
    by_cases hb : inBound (pointToArray pos f.start_ f.scale_).x array.shape0 = true ∧
        inBound (pointToArray pos f.start_ f.scale_).y array.shape1 = true ∧
        inBound (pointToArray pos f.start_ f.scale_).z array.shape2 = true
    · obtain ⟨bx, bY, bz⟩ := hb
      obtain ⟨s, r, hs, e, hbd⟩ := interpolate3d_between array _ hwf
        ⟨strictInterior_of_inBound h0 (int_max_lt_size_mod hwf.2.1) bx,
          strictInterior_of_inBound h1 (int_max_lt_size_mod hwf.2.2.1) bY,
          strictInterior_of_inBound h2 (int_max_lt_size_mod hwf.2.2.2) bz⟩
      exact ⟨r, e, hbd lo hi fun i j k => hdata _ (MultiArray.get?_mem (hs i j k))⟩
    · refine ⟨0, interpolate3d_outside array _ ?_, hlo, hhi⟩
      by_contra hc
      push_neg at hc
      simp only [Bool.not_eq_false] at hc
      exact hb hc

/-- Example for `interpolate3d_within_samples`: the penalty grid of `ObsPenTest` at the test's first point. -/
theorem interpolate3d_within_samples_witness :
    ∃ (s : Bool → Bool → Bool → ℚ) (r : ℚ),
      (∀ i j k, (⟨3, 3, 3, ObsPenTest.pen⟩ : MultiArray ℚ).get?
        (axisIndex ObsPenTest.point1.x i) (axisIndex ObsPenTest.point1.y j)
        (axisIndex ObsPenTest.point1.z k) = some (s i j k)) ∧
      interpolate3d (⟨3, 3, 3, ObsPenTest.pen⟩ : MultiArray ℚ) ObsPenTest.point1 = some r ∧
      cornerMin s ≤ r ∧ r ≤ cornerMax s :=
  (interpolate3d_within_samples ⟨3, 3, 3, ObsPenTest.pen⟩
    ⟨rfl, by decide, by decide, by decide⟩).1 ObsPenTest.point1
    ⟨by norm_num [StrictInterior, ObsPenTest.point1],
     by norm_num [StrictInterior, ObsPenTest.point1],
     by norm_num [StrictInterior, ObsPenTest.point1]⟩

/-- C19 (amended): in exact arithmetic, for every start `s`, every scale `c`
with non-zero components and every coordinate `u`, a field loaded by `setPen`
with `(s, c)` answers at the world point `s + c*u` (elementwise) what a field
loaded with the same extents and sequences but start `(0,0,0)` and scale
`(1,1,1)` answers at `u`, for `penality` and for `penalityGrad` alike (the
gradient is not rescaled). -/
theorem query_start_scale (self1 self2 : ObsPen) (start scale : Vector3d)
    (sizeX sizeY sizeZ : Int) (penality gX gY gZ : List ℚ) (u1 u2 : Vector3d)
    (f1 f2 : ObsPen)
    (h1 : self1.setPen start scale sizeX sizeY sizeZ penality gX gY gZ u1 = some f1)
    (h2 : self2.setPen 0 ⟨1, 1, 1⟩ sizeX sizeY sizeZ penality gX gY gZ u2 = some f2)
    (hc : scale.x ≠ 0 ∧ scale.y ≠ 0 ∧ scale.z ≠ 0) (u : Vector3d) :
    f1.penality ⟨start.x + scale.x * u.x, start.y + scale.y * u.y, start.z + scale.z * u.z⟩
      = f2.penality u ∧
    f1.penalityGrad ⟨start.x + scale.x * u.x, start.y + scale.y * u.y,
        start.z + scale.z * u.z⟩
      = f2.penalityGrad u := by
  obtain ⟨-, -, -, -, -, -, e1⟩ := setPen_eq_of_some h1
  obtain ⟨-, -, -, -, -, -, e2⟩ := setPen_eq_of_some h2
  subst e1 e2
  unfold ObsPen.penality ObsPen.penalityGrad
  rw [pointToArray_affine start scale u hc, pointToArray_unit]
  exact ⟨rfl, rfl⟩

/-- C19 (amended), witness: the data of `ObsPenTest` loaded with start `(1, 2,
3)` and scale `(2, 1/2, -1)`, queried at the image of the test's first point. -/
theorem query_start_scale_witness :
    ObsPen.penality
        { pen_ := ⟨3, 3, 3, ObsPenTest.pen.take (3 * 3 * 3)⟩,
          penGrad_ := ⟨3, 3, 3, (List.range (3 * 3 * 3)).map
            (gradAt ObsPenTest.penGradX ObsPenTest.penGradY ObsPenTest.penGradZ)⟩,
          start_ := ⟨1, 2, 3⟩, scale_ := ⟨2, 1 / 2, -1⟩ }
        ⟨(⟨1, 2, 3⟩ : Vector3d).x + (⟨2, 1 / 2, -1⟩ : Vector3d).x * ObsPenTest.point1.x,
         (⟨1, 2, 3⟩ : Vector3d).y + (⟨2, 1 / 2, -1⟩ : Vector3d).y * ObsPenTest.point1.y,
         (⟨1, 2, 3⟩ : Vector3d).z + (⟨2, 1 / 2, -1⟩ : Vector3d).z * ObsPenTest.point1.z⟩
      = ObsPen.penality
        { pen_ := ⟨3, 3, 3, ObsPenTest.pen.take (3 * 3 * 3)⟩,
          penGrad_ := ⟨3, 3, 3, (List.range (3 * 3 * 3)).map
            (gradAt ObsPenTest.penGradX ObsPenTest.penGradY ObsPenTest.penGradZ)⟩,
          start_ := 0, scale_ := ⟨1, 1, 1⟩ } ObsPenTest.point1 ∧
    ObsPen.penalityGrad
        { pen_ := ⟨3, 3, 3, ObsPenTest.pen.take (3 * 3 * 3)⟩,
          penGrad_ := ⟨3, 3, 3, (List.range (3 * 3 * 3)).map
            (gradAt ObsPenTest.penGradX ObsPenTest.penGradY ObsPenTest.penGradZ)⟩,
          start_ := ⟨1, 2, 3⟩, scale_ := ⟨2, 1 / 2, -1⟩ }
        ⟨(⟨1, 2, 3⟩ : Vector3d).x + (⟨2, 1 / 2, -1⟩ : Vector3d).x * ObsPenTest.point1.x,
         (⟨1, 2, 3⟩ : Vector3d).y + (⟨2, 1 / 2, -1⟩ : Vector3d).y * ObsPenTest.point1.y,
         (⟨1, 2, 3⟩ : Vector3d).z + (⟨2, 1 / 2, -1⟩ : Vector3d).z * ObsPenTest.point1.z⟩
      = ObsPen.penalityGrad
        { pen_ := ⟨3, 3, 3, ObsPenTest.pen.take (3 * 3 * 3)⟩,
          penGrad_ := ⟨3, 3, 3, (List.range (3 * 3 * 3)).map
            (gradAt ObsPenTest.penGradX ObsPenTest.penGradY ObsPenTest.penGradZ)⟩,
          start_ := 0, scale_ := ⟨1, 1, 1⟩ } ObsPenTest.point1 :=
  query_start_scale (⟨MultiArray.empty, MultiArray.empty, 0, 0⟩) (⟨MultiArray.empty, MultiArray.empty, 0, 0⟩) ⟨1, 2, 3⟩ ⟨2, 1 / 2, -1⟩ 3 3 3
    ObsPenTest.pen ObsPenTest.penGradX ObsPenTest.penGradY ObsPenTest.penGradZ 0 0 _ _
    (setPen_eq_nat _ ⟨1, 2, 3⟩ ⟨2, 1 / 2, -1⟩ 3 3 3 _ _ _ _ 0 (by decide) (by decide)
      (by decide) (by decide) (by decide) (by decide) (by decide) (by decide) (by decide))
    (setPen_eq_nat _ 0 ⟨1, 1, 1⟩ 3 3 3 _ _ _ _ 0 (by decide) (by decide) (by decide)
      (by decide) (by decide) (by decide) (by decide) (by decide) (by decide))
    ⟨by norm_num, by norm_num, by norm_num⟩ ObsPenTest.point1

/-- C20: for every field loaded by `setPen` and every world point, each
component of `penalityGrad` is `penality` of the field loaded with the same
start, scale and extents but with the corresponding gradient sequence as its
penalty sequence (whatever gradient sequences that field is given), the zero
fallback included. -/
theorem penalityGrad_componentwise (self selfx selfy selfz : ObsPen) (start scale : Vector3d)
    (sizeX sizeY sizeZ : Int) (penality gX gY gZ : List ℚ)
    (ax bx cx ay bY cy az bz cz : List ℚ) (u ux uy uz : Vector3d) (f fx fy fz : ObsPen)
    (h : self.setPen start scale sizeX sizeY sizeZ penality gX gY gZ u = some f)
    (hx : selfx.setPen start scale sizeX sizeY sizeZ gX ax bx cx ux = some fx)
    (hy : selfy.setPen start scale sizeX sizeY sizeZ gY ay bY cy uy = some fy)
    (hz : selfz.setPen start scale sizeX sizeY sizeZ gZ az bz cz uz = some fz)
    (pos : Vector3d) :
    (f.penalityGrad pos).map Vector3d.x = fx.penality pos ∧
    (f.penalityGrad pos).map Vector3d.y = fy.penality pos ∧
    (f.penalityGrad pos).map Vector3d.z = fz.penality pos := by
  obtain ⟨-, -, -, -, -, -, e⟩ := setPen_eq_of_some h
  obtain ⟨-, -, -, -, -, lx, ex⟩ := setPen_eq_of_some hx
  obtain ⟨-, -, -, -, -, ly, ey⟩ := setPen_eq_of_some hy
  obtain ⟨-, -, -, -, -, lz, ez⟩ := setPen_eq_of_some hz
  subst e ex ey ez
  unfold ObsPen.penality ObsPen.penalityGrad
  have kx := interpolate3d_map Vector3d.xLin
    (⟨sizeX.toNat, sizeY.toNat, sizeZ.toNat,
      (List.range (sizeX.toNat * sizeY.toNat * sizeZ.toNat)).map (gradAt gX gY gZ)⟩ :
      MultiArray Vector3d) (pointToArray pos start scale)
  have ky := interpolate3d_map Vector3d.yLin
    (⟨sizeX.toNat, sizeY.toNat, sizeZ.toNat,
      (List.range (sizeX.toNat * sizeY.toNat * sizeZ.toNat)).map (gradAt gX gY gZ)⟩ :
      MultiArray Vector3d) (pointToArray pos start scale)
  have kz := interpolate3d_map Vector3d.zLin
    (⟨sizeX.toNat, sizeY.toNat, sizeZ.toNat,
      (List.range (sizeX.toNat * sizeY.toNat * sizeZ.toNat)).map (gradAt gX gY gZ)⟩ :
      MultiArray Vector3d) (pointToArray pos start scale)
  simp only [MultiArray.map, map_gradAt_x lx, map_gradAt_y ly, map_gradAt_z lz] at kx ky kz
  exact ⟨kx.symm, ky.symm, kz.symm⟩

/-- C20, witness: the field of `ObsPenTest` and the three scalar fields loaded
with its gradient sequences, at the test's first point. -/
theorem penalityGrad_componentwise_witness :
    (ObsPen.penalityGrad
        { pen_ := ⟨3, 3, 3, ObsPenTest.pen.take (3 * 3 * 3)⟩,
          penGrad_ := ⟨3, 3, 3, (List.range (3 * 3 * 3)).map
            (gradAt ObsPenTest.penGradX ObsPenTest.penGradY ObsPenTest.penGradZ)⟩,
          start_ := 0, scale_ := ⟨1, 1, 1⟩ } ObsPenTest.point1).map Vector3d.x
      = ObsPen.penality
        { pen_ := ⟨3, 3, 3, ObsPenTest.penGradX.take (3 * 3 * 3)⟩,
          penGrad_ := ⟨3, 3, 3, (List.range (3 * 3 * 3)).map
            (gradAt ObsPenTest.pen ObsPenTest.pen ObsPenTest.pen)⟩,
          start_ := 0, scale_ := ⟨1, 1, 1⟩ } ObsPenTest.point1 :=
  (penalityGrad_componentwise (⟨MultiArray.empty, MultiArray.empty, 0, 0⟩) (⟨MultiArray.empty, MultiArray.empty, 0, 0⟩) (⟨MultiArray.empty, MultiArray.empty, 0, 0⟩)
    (⟨MultiArray.empty, MultiArray.empty, 0, 0⟩) 0 ⟨1, 1, 1⟩ 3 3 3
    ObsPenTest.pen ObsPenTest.penGradX ObsPenTest.penGradY ObsPenTest.penGradZ
    ObsPenTest.pen ObsPenTest.pen ObsPenTest.pen ObsPenTest.pen ObsPenTest.pen ObsPenTest.pen
    ObsPenTest.pen ObsPenTest.pen ObsPenTest.pen 0 0 0 0 _ _ _ _
    (setPen_eq_nat _ 0 ⟨1, 1, 1⟩ 3 3 3 _ _ _ _ 0 (by decide) (by decide) (by decide)
      (by decide) (by decide) (by decide) (by decide) (by decide) (by decide))
    (setPen_eq_nat _ 0 ⟨1, 1, 1⟩ 3 3 3 _ _ _ _ 0 (by decide) (by decide) (by decide)
      (by decide) (by decide) (by decide) (by decide) (by decide) (by decide))
    (setPen_eq_nat _ 0 ⟨1, 1, 1⟩ 3 3 3 _ _ _ _ 0 (by decide) (by decide) (by decide)
      (by decide) (by decide) (by decide) (by decide) (by decide) (by decide))
    (setPen_eq_nat _ 0 ⟨1, 1, 1⟩ 3 3 3 _ _ _ _ 0 (by decide) (by decide) (by decide)
      (by decide) (by decide) (by decide) (by decide) (by decide) (by decide))
    ObsPenTest.point1).1

/-- In exact arithmetic: for every well-formed scalar grid, the map from a
fractional coordinate to the value of `interpolate3d` is continuous on the open
box `(0, sizeX-1) x (0, sizeY-1) x (0, sizeZ-1)`: on the box the code returns
the value of one formula over all grid nodes; in particular across cell faces,
at a coordinate whose component on an axis is an integer `k`, the value
(computed from the cell `[k, k+1]` with `d = 0`) is the limit of the values
computed as that component tends to `k` from below (from the cell `[k-1, k]`,
`d` tending to 1). -/
theorem interpolate3d_continuous (array : MultiArray ℚ) (hwf : array.WF) :
    (∀ u ∈ array.box, interpolate3d array ⟨u.1, u.2.1, u.2.2⟩
      = some (hatSum array u.1 u.2.1 u.2.2)) ∧
    ContinuousOn (interpolate3dValue array) array.box ∧
    (∀ (k : Nat) (y z : ℚ), ((k : ℚ), y, z) ∈ array.box →
      Filter.Tendsto (fun t : ℚ => interpolate3dValue array (t, y, z))
        (nhdsWithin (k : ℚ) (Set.Iio (k : ℚ)))
        (nhds (interpolate3dValue array ((k : ℚ), y, z)))) ∧
    (∀ (k : Nat) (x z : ℚ), (x, (k : ℚ), z) ∈ array.box →
      Filter.Tendsto (fun t : ℚ => interpolate3dValue array (x, t, z))
        (nhdsWithin (k : ℚ) (Set.Iio (k : ℚ)))
        (nhds (interpolate3dValue array (x, (k : ℚ), z)))) ∧
    (∀ (k : Nat) (x y : ℚ), (x, y, (k : ℚ)) ∈ array.box →
      Filter.Tendsto (fun t : ℚ => interpolate3dValue array (x, y, t))
        (nhdsWithin (k : ℚ) (Set.Iio (k : ℚ)))
        (nhds (interpolate3dValue array (x, y, (k : ℚ))))) := by
  refine ⟨fun u hu => interpolate3d_eq_hatSum array ⟨u.1, u.2.1, u.2.2⟩ hwf hu,
    interpolate3dValue_continuousOn array hwf, ?_, ?_, ?_⟩
  · intro k y z hk
    exact interpolate3dValue_tendsto_left array hwf (fun t => (t, y, z))
      (continuous_id.prod_mk continuous_const) k hk
  · intro k x z hk
    exact interpolate3dValue_tendsto_left array hwf (fun t => (x, t, z))
      (continuous_const.prod_mk (continuous_id.prod_mk continuous_const)) k hk
  · intro k x y hk
    exact interpolate3dValue_tendsto_left array hwf (fun t => (x, y, t))
      (continuous_const.prod_mk (continuous_const.prod_mk continuous_id)) k hk

/-- Example for `interpolate3d_continuous`: the penalty grid of `ObsPenTest` is continuous on its box, and
across the face `x = 1` at `(1, 1/2, 1/2)`. -/
theorem interpolate3d_continuous_witness :
    ContinuousOn (interpolate3dValue ⟨3, 3, 3, ObsPenTest.pen⟩)
      (MultiArray.box (⟨3, 3, 3, ObsPenTest.pen⟩ : MultiArray ℚ)) ∧
    Filter.Tendsto
      (fun t : ℚ => interpolate3dValue ⟨3, 3, 3, ObsPenTest.pen⟩ (t, 1 / 2, 1 / 2))
      (nhdsWithin (((1 : Nat) : ℚ)) (Set.Iio ((1 : Nat) : ℚ)))
      (nhds (interpolate3dValue ⟨3, 3, 3, ObsPenTest.pen⟩ (((1 : Nat) : ℚ), 1 / 2, 1 / 2))) :=
  ⟨(interpolate3d_continuous ⟨3, 3, 3, ObsPenTest.pen⟩
      ⟨rfl, by decide, by decide, by decide⟩).2.1,
   (interpolate3d_continuous ⟨3, 3, 3, ObsPenTest.pen⟩
      ⟨rfl, by decide, by decide, by decide⟩).2.2.1 1 (1 / 2) (1 / 2)
      ⟨by norm_num [StrictInterior], by norm_num [StrictInterior],
        by norm_num [StrictInterior]⟩⟩

/-- C13 (failing input): the argument tuple with extents `65536 x 32768 x 1` and
four sequences of exactly `65536*32768*1 = 2^31` elements is valid, but from
every prior state and with every start and scale the `int` product
`sizeX*sizeY` of the `memcpy` size overflows: the call is undefined and
produces no field, so two calls do not produce the same field. -/
theorem setPen_overflow_from_every_state :
    ((1 : Int) ≤ 65536 ∧ (1 : Int) ≤ 32768 ∧ (1 : Int) ≤ 1) ∧
    ((List.replicate 2147483648 (0 : ℚ)).length : Int) = 65536 * 32768 * 1 ∧
    ∀ (s : ObsPen) (start scale uninit : Vector3d),
      s.setPen start scale 65536 32768 1
        (List.replicate 2147483648 0) (List.replicate 2147483648 0)
        (List.replicate 2147483648 0) (List.replicate 2147483648 0) uninit = none := by
  refine ⟨by decide, by rw [List.length_replicate]; rfl, ?_⟩
  intro s start scale uninit
  have h : imul 65536 32768 = none := by decide
  unfold ObsPen.setPen
  simp only [Option.bind_eq_bind, h, Option.none_bind, ite_self]

/-! ## Lemmas: what one statement does to the memory -/

namespace Memory

theorem objs_set_self {l : List ObsPenObj} {i : Nat} {o o' : ObsPenObj}
    (h : l[i]? = some o) : (l.set i o')[i]? = some o' := by
  have hlt : i < l.length := by
    rcases Nat.lt_or_ge i l.length with h1 | h1
    · exact h1
    · rw [List.getElem?_eq_none h1] at h; cases h
  rw [List.getElem?_set_self hlt]

theorem objs_set_other (l : List ObsPenObj) {i j : Nat} (o' : ObsPenObj) (h : j ≠ i) :
    (l.set i o')[j]? = l[j]? :=
  List.getElem?_set_ne (Ne.symm h)

theorem heap_set_append_other (h : List (Option Block)) (b : Nat) (v : Option Block)
    (w : Option Block) {p : Nat} (hp : p < h.length) (hb : p ≠ b) :
    (h.set b v ++ [w])[p]? = h[p]? := by
  rw [List.getElem?_append_left (by simpa using hp), List.getElem?_set_ne (Ne.symm hb)]

theorem heap_set_other (h : List (Option Block)) (b : Nat) (v : Option Block) {p : Nat}
    (hb : p ≠ b) : (h.set b v)[p]? = h[p]? :=
  List.getElem?_set_ne (Ne.symm hb)

theorem setStartScale_step {m m' : Memory} {self : Nat} {start scale : Vector3d}
    (h : m.setStartScale self start scale = some m') : Step m m' self := by
  unfold setStartScale at h
  simp only [Option.bind_eq_bind, Option.bind_eq_some, Option.pure_def, Option.some.injEq] at h
  obtain ⟨o, ho, rfl⟩ := h
  exact ⟨o, _, ho, objs_set_self ho, le_refl _, fun i hi => objs_set_other _ _ hi,
    Or.inl rfl, Or.inl rfl, fun p _ _ _ => rfl⟩

theorem resizePen_step {m m' : Memory} {self n0 n1 n2 : Nat}
    (h : m.resizePen self n0 n1 n2 = some m') :
    Step m m' self ∧ PenFresh m.heap.length m' self := by
  unfold resizePen at h
  simp only [Option.bind_eq_bind, Option.bind_eq_some, Option.pure_def, Option.some.injEq] at h
  obtain ⟨o, ho, a, -, rfl⟩ := h
  refine ⟨⟨o, _, ho, objs_set_self ho, by simp, fun i hi => objs_set_other _ _ hi,
    Or.inr ⟨le_refl _, by simp⟩, Or.inl rfl,
    fun p hp h1 _ => heap_set_append_other _ _ _ _ hp h1⟩,
    ⟨_, objs_set_self ho, le_refl _, by simp⟩⟩

theorem resizeGrad_step {m m' : Memory} {self : Nat} {uninit : Vector3d} {n0 n1 n2 : Nat}
    (h : m.resizeGrad self uninit n0 n1 n2 = some m') :
    Step m m' self ∧ GradFresh m.heap.length m' self := by
  unfold resizeGrad at h
  simp only [Option.bind_eq_bind, Option.bind_eq_some, Option.pure_def, Option.some.injEq] at h
  obtain ⟨o, ho, a, -, rfl⟩ := h
  refine ⟨⟨o, _, ho, objs_set_self ho, by simp, fun i hi => objs_set_other _ _ hi,
    Or.inl rfl, Or.inr ⟨le_refl _, by simp⟩,
    fun p hp _ h2 => heap_set_append_other _ _ _ _ hp h2⟩,
    ⟨_, objs_set_self ho, le_refl _, by simp⟩⟩

theorem memcpyPen_step {m m' : Memory} {self : Nat} {penality : List ℚ} {n : Nat}
    (h : m.memcpyPen self penality n = some m') : Step m m' self := by
  unfold memcpyPen at h
  simp only [Option.bind_eq_bind, Option.bind_eq_some, Option.pure_def, Option.some.injEq] at h
  obtain ⟨o, ho, a, -, d, -, rfl⟩ := h
  exact ⟨o, o, ho, ho, by simp, fun i _ => rfl, Or.inl rfl, Or.inl rfl,
    fun p _ h1 _ => heap_set_other _ _ _ h1⟩

theorem loopGrad_step {m m' : Memory} {self : Nat} {gX gY gZ : List ℚ} {sx sy sz : Nat}
    (h : m.loopGrad self gX gY gZ sx sy sz = some m') : Step m m' self := by
  unfold loopGrad at h
  simp only [Option.bind_eq_bind, Option.bind_eq_some, Option.pure_def, Option.some.injEq] at h
  obtain ⟨o, ho, a, -, st, -, rfl⟩ := h
  exact ⟨o, o, ho, ho, by simp, fun i _ => rfl, Or.inl rfl, Or.inl rfl,
    fun p _ _ h2 => heap_set_other _ _ _ h2⟩

theorem assignPen_step {m m' : Memory} {self op : Nat}
    (h : m.assignPen self op = some m') : Step m m' self := by
  unfold assignPen at h
  simp only [Option.bind_eq_bind, Option.bind_eq_some, Option.pure_def, Option.some.injEq] at h
  obtain ⟨o, ho, src, -, dst, -, s, -, r, -, rfl⟩ := h
  exact ⟨o, o, ho, ho, by simp, fun i _ => rfl, Or.inl rfl, Or.inl rfl,
    fun p _ h1 _ => heap_set_other _ _ _ h1⟩

theorem assignGrad_step {m m' : Memory} {self op : Nat}
    (h : m.assignGrad self op = some m') : Step m m' self := by
  unfold assignGrad at h
  simp only [Option.bind_eq_bind, Option.bind_eq_some, Option.pure_def, Option.some.injEq] at h
  obtain ⟨o, ho, src, -, dst, -, s, -, r, -, rfl⟩ := h
  exact ⟨o, o, ho, ho, by simp, fun i _ => rfl, Or.inl rfl, Or.inl rfl,
    fun p _ _ h2 => heap_set_other _ _ _ h2⟩

/-! ## Lemmas: what the statements leave alone -/

/-- A statement executed in `self` leaves alone every allocated block that
`self` does not own, and `self` does not come to own it. -/
theorem Step.apart {m m' : Memory} {self p : Nat} (h : Step m m' self) (ha : Apart m self p) :
    Apart m' self p ∧ m'.heap[p]? = m.heap[p]? := by
  obtain ⟨o, o', ho, ho', hlen, -, hpen, hgrad, hframe⟩ := h
  obtain ⟨o1, ho1, a1, a2, a3⟩ := ha
  rw [ho] at ho1
  cases ho1
  refine ⟨⟨o', ho', ?_, ?_, by omega⟩, hframe p a3 (Ne.symm a1) (Ne.symm a2)⟩
  · rcases hpen with e | ⟨e, -⟩
    · rw [e]; exact a1
    · omega
  · rcases hgrad with e | ⟨e, -⟩
    · rw [e]; exact a2
    · omega

theorem Step.others {m m' : Memory} {self i : Nat} (h : Step m m' self) (hi : i ≠ self) :
    m'.objs[i]? = m.objs[i]? := by
  obtain ⟨_, _, _, _, _, ho, _⟩ := h
  exact ho i hi

theorem Step.length_le {m m' : Memory} {self : Nat} (h : Step m m' self) :
    m.heap.length ≤ m'.heap.length := by
  obtain ⟨_, _, _, _, hl, _⟩ := h
  exact hl

theorem Step.penFresh {m m' : Memory} {self L : Nat} (h : Step m m' self)
    (hL : L ≤ m.heap.length) (hf : PenFresh L m self) : PenFresh L m' self := by
  obtain ⟨o, o', ho, ho', hlen, -, hpen, -, -⟩ := h
  obtain ⟨o1, ho1, b1, b2⟩ := hf
  rw [ho] at ho1
  cases ho1
  refine ⟨o', ho', ?_, ?_⟩
  · rcases hpen with e | ⟨e, -⟩
    · rw [e]; exact b1
    · omega
  · rcases hpen with e | ⟨-, e⟩
    · rw [e]; omega
    · exact e

theorem Step.gradFresh {m m' : Memory} {self L : Nat} (h : Step m m' self)
    (hL : L ≤ m.heap.length) (hf : GradFresh L m self) : GradFresh L m' self := by
  obtain ⟨o, o', ho, ho', hlen, -, -, hgrad, -⟩ := h
  obtain ⟨o1, ho1, b1, b2⟩ := hf
  rw [ho] at ho1
  cases ho1
  refine ⟨o', ho', ?_, ?_⟩
  · rcases hgrad with e | ⟨e, -⟩
    · rw [e]; exact b1
    · omega
  · rcases hgrad with e | ⟨-, e⟩
    · rw [e]; omega
    · exact e

/-- A call of `setPen` on object `self` leaves alone every other object and
every allocated block that `self` does not own. -/
theorem setPen_apart {m m' : Memory} {self : Nat} {start scale : Vector3d}
    {sizeX sizeY sizeZ : Int} {penality gX gY gZ : List ℚ} {uninit : Vector3d}
    (h : m.setPen self start scale sizeX sizeY sizeZ penality gX gY gZ uninit = some m') :
    (∀ i, i ≠ self → m'.objs[i]? = m.objs[i]?) ∧
    ∀ p, Apart m self p → m'.heap[p]? = m.heap[p]? := by
  unfold setPen at h
  split at h
  · simp only [Option.bind_eq_bind, Option.bind_eq_some] at h
    obtain ⟨m1, h1, m2, h2, m3, h3, k, -, n, -, m4, h4, h5⟩ := h
    have s1 := setStartScale_step h1
    have s2 := (resizePen_step h2).1
    have s3 := (resizeGrad_step h3).1
    have s4 := memcpyPen_step h4
    have s5 := loopGrad_step h5
    constructor
    · intro i hi
      rw [s5.others hi, s4.others hi, s3.others hi, s2.others hi, s1.others hi]
    · intro p hp
      obtain ⟨a1, e1⟩ := s1.apart hp
      obtain ⟨a2, e2⟩ := s2.apart a1
      obtain ⟨a3, e3⟩ := s3.apart a2
      obtain ⟨a4, e4⟩ := s4.apart a3
      obtain ⟨-, e5⟩ := s5.apart a4
      rw [e5, e4, e3, e2, e1]
  · simp at h

/-- After `self = op` with `op` another object: `op` is untouched, no block was
removed from the store, and both arrays of `self` own blocks that the
assignment allocated. -/
theorem assign_fresh {m m' : Memory} {self op : Nat} {uninit : Vector3d}
    (h : m.assign self op uninit = some m') (hne : op ≠ self) :
    m'.objs[op]? = m.objs[op]? ∧ m.heap.length ≤ m'.heap.length ∧
    PenFresh m.heap.length m' self ∧ GradFresh m.heap.length m' self := by
  unfold assign at h
  simp only [Option.bind_eq_bind, Option.bind_eq_some] at h
  obtain ⟨src, -, m1, h1, m2, h2, src2, -, m3, h3, m4, h4, src3, -, h5⟩ := h
  obtain ⟨s1, f1⟩ := resizePen_step h1
  have s2 := assignPen_step h2
  obtain ⟨s3, f3⟩ := resizeGrad_step h3
  have s4 := assignGrad_step h4
  have s5 := setStartScale_step h5
  have l1 := s1.length_le
  have l2 := s2.length_le
  have l3 := s3.length_le
  have l4 := s4.length_le
  have l5 := s5.length_le
  refine ⟨?_, by omega, ?_, ?_⟩
  · rw [s5.others hne, s4.others hne, s3.others hne, s2.others hne, s1.others hne]
  · exact s5.penFresh (by omega) (s4.penFresh (by omega) (s3.penFresh (by omega)
      (s2.penFresh l1 f1)))
  · have g3 : GradFresh m.heap.length m3 self := by
      obtain ⟨o, ho, b1, b2⟩ := f3
      exact ⟨o, ho, by omega, b2⟩
    exact s5.gradFresh (by omega) (s4.gradFresh (by omega) g3)

/-- The queries on an object depend on the object and on the two blocks it
owns only. -/
theorem queries_congr_mem {m m' : Memory} {b : Nat}
    (ho : m'.objs[b]? = m.objs[b]?)
    (hh : ∀ o, m.objs[b]? = some o → m'.heap[o.pen_.base]? = m.heap[o.pen_.base]? ∧
      m'.heap[o.penGrad_.base]? = m.heap[o.penGrad_.base]?) (pos : Vector3d) :
    m'.penality b pos = m.penality b pos ∧ m'.penalityGrad b pos = m.penalityGrad b pos ∧
    m'.load b = m.load b := by
  unfold penality penalityGrad load
  rw [ho]
  cases hb : m.objs[b]? with
  | none => exact ⟨rfl, rfl, rfl⟩
  | some o =>
    obtain ⟨e1, e2⟩ := hh o hb
    simp only [Option.bind_eq_bind, Option.some_bind, readDoubles, readVectors, e1, e2,
      and_self]

/-! ## Lemmas: what an object holds after one statement -/

theorem load_of_holds {m : Memory} {self : Nat} {o : ObsPenObj} {dp : List ℚ}
    {dg : List Vector3d} (h : Holds m self o dp dg) : m.load self = some (o.value dp dg) := by
  obtain ⟨ho, hp, hg⟩ := h
  unfold Memory.load readDoubles readVectors
  simp only [Option.bind_eq_bind, ho, Option.some_bind, hp, hg]
  rfl

theorem holds_of_load {m : Memory} {self : Nat} {v : ObsPen} (h : m.load self = some v) :
    ∃ o dp dg, Holds m self o dp dg ∧ v = o.value dp dg := by
  unfold Memory.load at h
  simp only [Option.bind_eq_bind, Option.bind_eq_some, Option.pure_def, Option.some.injEq] at h
  obtain ⟨o, ho, pen, hpen, grad, hgrad, rfl⟩ := h
  unfold readDoubles at hpen
  unfold readVectors at hgrad
  split at hpen
  · rename_i dp hp
    split at hgrad
    · rename_i dg hg
      cases hpen
      cases hgrad
      exact ⟨o, dp, dg, ⟨ho, hp, hg⟩, rfl⟩
    · cases hgrad
  · cases hpen

theorem lt_of_getElem?_some {α : Type} {l : List α} {i : Nat} {x : α} (h : l[i]? = some x) :
    i < l.length := by
  rcases Nat.lt_or_ge i l.length with h1 | h1
  · exact h1
  · rw [List.getElem?_eq_none h1] at h; cases h

theorem holds_bounds {m : Memory} {self : Nat} {o : ObsPenObj} {dp : List ℚ}
    {dg : List Vector3d} (h : Holds m self o dp dg) :
    o.pen_.base < m.heap.length ∧ o.penGrad_.base < m.heap.length ∧
      o.pen_.base ≠ o.penGrad_.base := by
  obtain ⟨-, hp, hg⟩ := h
  refine ⟨lt_of_getElem?_some hp, lt_of_getElem?_some hg, ?_⟩
  intro e
  rw [e, hg] at hp
  cases hp

theorem heap_set_append_last (h : List (Option Block)) (b : Nat) (v w : Option Block) :
    (h.set b v ++ [w])[h.length]? = some w := by
  rw [List.getElem?_append_right (by simp)]
  simp

theorem heap_set_self (h : List (Option Block)) {b : Nat} (v : Option Block)
    (hb : b < h.length) : (h.set b v)[b]? = some v :=
  List.getElem?_set_self hb

theorem setStartScale_holds {m : Memory} {self : Nat} {o : ObsPenObj} {dp : List ℚ}
    {dg : List Vector3d} (h : Holds m self o dp dg) (start scale : Vector3d) :
    ∃ m', m.setStartScale self start scale = some m' ∧ m'.heap = m.heap ∧
      Holds m' self { o with start_ := start, scale_ := scale } dp dg := by
  obtain ⟨ho, hp, hg⟩ := h
  refine ⟨{ m with objs := m.objs.set self { o with start_ := start, scale_ := scale } },
    ?_, rfl, objs_set_self ho, hp, hg⟩
  unfold Memory.setStartScale
  simp only [Option.bind_eq_bind, ho, Option.some_bind, Option.pure_def]

theorem resizePen_holds {m : Memory} {self : Nat} {o : ObsPenObj} {dp : List ℚ}
    {dg : List Vector3d} (h : Holds m self o dp dg) (n0 n1 n2 : Nat) :
    ∃ m', m.resizePen self n0 n1 n2 = some m' ∧ m'.heap.length = m.heap.length + 1 ∧
      Holds m' self { o with pen_ := ⟨n0, n1, n2, m.heap.length⟩ }
        ((⟨o.pen_.shape0, o.pen_.shape1, o.pen_.shape2, dp⟩ : MultiArray ℚ).resize 0
          n0 n1 n2).data dg := by
  obtain ⟨b1, b2, b3⟩ := holds_bounds h
  obtain ⟨ho, hp, hg⟩ := h
  refine ⟨Memory.mk (m.heap.set o.pen_.base none ++ [some (Block.doubles
        ((⟨o.pen_.shape0, o.pen_.shape1, o.pen_.shape2, dp⟩ : MultiArray ℚ).resize 0
          n0 n1 n2).data)])
      (m.objs.set self { o with pen_ := ⟨n0, n1, n2, m.heap.length⟩ }),
    ?_, by simp, objs_set_self ho, heap_set_append_last _ _ _ _, ?_⟩
  · unfold Memory.resizePen readDoubles
    simp only [Option.bind_eq_bind, ho, Option.some_bind, hp, Option.pure_def]
  · show (m.heap.set o.pen_.base none ++ _)[o.penGrad_.base]? = _
    rw [heap_set_append_other _ _ _ _ b2 (Ne.symm b3)]
    exact hg

theorem resizeGrad_holds {m : Memory} {self : Nat} {o : ObsPenObj} {dp : List ℚ}
    {dg : List Vector3d} (h : Holds m self o dp dg) (uninit : Vector3d) (n0 n1 n2 : Nat) :
    ∃ m', m.resizeGrad self uninit n0 n1 n2 = some m' ∧
      m'.heap.length = m.heap.length + 1 ∧
      Holds m' self { o with penGrad_ := ⟨n0, n1, n2, m.heap.length⟩ } dp
        ((⟨o.penGrad_.shape0, o.penGrad_.shape1, o.penGrad_.shape2, dg⟩ :
          MultiArray Vector3d).resize uninit n0 n1 n2).data := by
  obtain ⟨b1, b2, b3⟩ := holds_bounds h
  obtain ⟨ho, hp, hg⟩ := h
  refine ⟨Memory.mk (m.heap.set o.penGrad_.base none ++ [some (Block.vectors
        ((⟨o.penGrad_.shape0, o.penGrad_.shape1, o.penGrad_.shape2, dg⟩ :
          MultiArray Vector3d).resize uninit n0 n1 n2).data)])
      (m.objs.set self { o with penGrad_ := ⟨n0, n1, n2, m.heap.length⟩ }),
    ?_, by simp, objs_set_self ho, ?_, heap_set_append_last _ _ _ _⟩
  · unfold Memory.resizeGrad readVectors
    simp only [Option.bind_eq_bind, ho, Option.some_bind, hg, Option.pure_def]
  · show (m.heap.set o.penGrad_.base none ++ _)[o.pen_.base]? = _
    rw [heap_set_append_other _ _ _ _ b1 b3]
    exact hp

theorem memcpyPen_holds {m : Memory} {self : Nat} {o : ObsPenObj} {dp : List ℚ}
    {dg : List Vector3d} (h : Holds m self o dp dg) {penality : List ℚ} {n : Nat}
    {d : List ℚ} (hd : memcpyDoubles dp penality n = some d) :
    ∃ m', m.memcpyPen self penality n = some m' ∧ m'.heap.length = m.heap.length ∧
      Holds m' self o d dg := by
  obtain ⟨b1, b2, b3⟩ := holds_bounds h
  obtain ⟨ho, hp, hg⟩ := h
  refine ⟨{ m with heap := m.heap.set o.pen_.base (some (Block.doubles d)) },
    ?_, by simp, ho, heap_set_self _ _ b1, ?_⟩
  · unfold Memory.memcpyPen readDoubles
    simp only [Option.bind_eq_bind, ho, Option.some_bind, hp, hd, Option.pure_def]
  · show (m.heap.set o.pen_.base _)[o.penGrad_.base]? = _
    rw [heap_set_other _ _ _ (Ne.symm b3)]
    exact hg

theorem loopGrad_holds {m : Memory} {self : Nat} {o : ObsPenObj} {dp : List ℚ}
    {dg : List Vector3d} (h : Holds m self o dp dg) {gX gY gZ : List ℚ} {sx sy sz : Nat}
    {st : MultiArray Vector3d × Nat}
    (hst : setPenLoop gX gY gZ sx sy sz
      ⟨o.penGrad_.shape0, o.penGrad_.shape1, o.penGrad_.shape2, dg⟩ = some st) :
    ∃ m', m.loopGrad self gX gY gZ sx sy sz = some m' ∧ m'.heap.length = m.heap.length ∧
      Holds m' self o dp st.1.data := by
  obtain ⟨b1, b2, b3⟩ := holds_bounds h
  obtain ⟨ho, hp, hg⟩ := h
  refine ⟨{ m with heap := m.heap.set o.penGrad_.base (some (Block.vectors st.1.data)) },
    ?_, by simp, ho, ?_, heap_set_self _ _ b2⟩
  · unfold Memory.loopGrad readVectors
    simp only [Option.bind_eq_bind, ho, Option.some_bind, hg, hst, Option.pure_def]
  · show (m.heap.set o.penGrad_.base _)[o.pen_.base]? = _
    rw [heap_set_other _ _ _ b3]
    exact hp

theorem assignPen_holds {m : Memory} {self op : Nat} {o src : ObsPenObj} {dp sp : List ℚ}
    {dg : List Vector3d} (h : Holds m self o dp dg) (hsrc : m.objs[op]? = some src)
    (hsp : m.heap[src.pen_.base]? = some (some (Block.doubles sp))) {r : MultiArray ℚ}
    (hr : (⟨o.pen_.shape0, o.pen_.shape1, o.pen_.shape2, dp⟩ : MultiArray ℚ).assign
      ⟨src.pen_.shape0, src.pen_.shape1, src.pen_.shape2, sp⟩ = some r) :
    ∃ m', m.assignPen self op = some m' ∧ m'.heap.length = m.heap.length ∧
      Holds m' self o r.data dg := by
  obtain ⟨b1, b2, b3⟩ := holds_bounds h
  obtain ⟨ho, hp, hg⟩ := h
  refine ⟨{ m with heap := m.heap.set o.pen_.base (some (Block.doubles r.data)) },
    ?_, by simp, ho, heap_set_self _ _ b1, ?_⟩
  · unfold Memory.assignPen readDoubles
    simp only [Option.bind_eq_bind, ho, Option.some_bind, hsrc, hp, hsp, hr, Option.pure_def]
  · show (m.heap.set o.pen_.base _)[o.penGrad_.base]? = _
    rw [heap_set_other _ _ _ (Ne.symm b3)]
    exact hg

theorem assignGrad_holds {m : Memory} {self op : Nat} {o src : ObsPenObj} {dp : List ℚ}
    {dg sg : List Vector3d} (h : Holds m self o dp dg) (hsrc : m.objs[op]? = some src)
    (hsg : m.heap[src.penGrad_.base]? = some (some (Block.vectors sg)))
    {r : MultiArray Vector3d}
    (hr : (⟨o.penGrad_.shape0, o.penGrad_.shape1, o.penGrad_.shape2, dg⟩ :
      MultiArray Vector3d).assign
      ⟨src.penGrad_.shape0, src.penGrad_.shape1, src.penGrad_.shape2, sg⟩ = some r) :
    ∃ m', m.assignGrad self op = some m' ∧ m'.heap.length = m.heap.length ∧
      Holds m' self o dp r.data := by
  obtain ⟨b1, b2, b3⟩ := holds_bounds h
  obtain ⟨ho, hp, hg⟩ := h
  refine ⟨{ m with heap := m.heap.set o.penGrad_.base (some (Block.vectors r.data)) },
    ?_, by simp, ho, ?_, heap_set_self _ _ b2⟩
  · unfold Memory.assignGrad readVectors
    simp only [Option.bind_eq_bind, ho, Option.some_bind, hsrc, hg, hsg, hr, Option.pure_def]
  · show (m.heap.set o.penGrad_.base _)[o.pen_.base]? = _
    rw [heap_set_other _ _ _ b3]
    exact hp

/-! ## Lemmas: the programs on memory compute what the programs on values do -/

/-- The method `setPen` on an object in memory does to the field the object
holds what `ObsPen.setPen` does to that field. -/
theorem setPen_load {m : Memory} {self : Nat} {v v' : ObsPen} {start scale : Vector3d}
    {sizeX sizeY sizeZ : Int} {penality gX gY gZ : List ℚ} {uninit : Vector3d}
    (h : m.load self = some v)
    (hv : v.setPen start scale sizeX sizeY sizeZ penality gX gY gZ uninit = some v') :
    ∃ m', m.setPen self start scale sizeX sizeY sizeZ penality gX gY gZ uninit = some m' ∧
      m'.load self = some v' := by
  obtain ⟨o, dp, dg, H, rfl⟩ := holds_of_load h
  unfold ObsPen.setPen at hv
  split at hv
  · rename_i hguard
    simp only [Option.bind_eq_bind, Option.bind_eq_some, Option.pure_def,
      Option.some.injEq] at hv
    obtain ⟨k, hk, n, hn, penData, hpd, st, hst, rfl⟩ := hv
    obtain ⟨m1, e1, -, H1⟩ := setStartScale_holds H start scale
    obtain ⟨m2, e2, -, H2⟩ := resizePen_holds H1 sizeX.toNat sizeY.toNat sizeZ.toNat
    obtain ⟨m3, e3, -, H3⟩ := resizeGrad_holds H2 uninit sizeX.toNat sizeY.toNat sizeZ.toNat
    obtain ⟨m4, e4, -, H4⟩ := memcpyPen_holds H3 hpd
    obtain ⟨m5, e5, -, H5⟩ := loopGrad_holds H4 hst
    refine ⟨m5, ?_, ?_⟩
    · unfold Memory.setPen
      rw [if_pos hguard]
      simp only [Option.bind_eq_bind, e1, e2, e3, hk, hn, e4, e5, Option.some_bind]
    · rw [load_of_holds H5]
      obtain ⟨s0, s1, s2, -⟩ := setPenLoop_shape _ _ _ _ _ _ _ _ hst
      obtain ⟨⟨g0, g1, g2, gd⟩, i⟩ := st
      simp only [MultiArray.resize_shape0, MultiArray.resize_shape1,
        MultiArray.resize_shape2] at s0 s1 s2
      subst s0 s1 s2
      rfl
  · cases hv

/-- A statement executed in `self` leaves alone what another object holds whose
blocks `self` does not own. -/
theorem Step.holds_of_apart {m m' : Memory} {self a : Nat} {o : ObsPenObj} {dp : List ℚ}
    {dg : List Vector3d} (h : Step m m' self) (ha : a ≠ self)
    (H : Holds m a o dp dg ∧ Apart m self o.pen_.base ∧ Apart m self o.penGrad_.base) :
    Holds m' a o dp dg ∧ Apart m' self o.pen_.base ∧ Apart m' self o.penGrad_.base := by
  obtain ⟨⟨ho, hp, hg⟩, a1, a2⟩ := H
  obtain ⟨a1', e1⟩ := h.apart a1
  obtain ⟨a2', e2⟩ := h.apart a2
  exact ⟨⟨by rw [h.others ha]; exact ho, by rw [e1]; exact hp, by rw [e2]; exact hg⟩, a1', a2'⟩

/-- The operator `operator=` on two objects in memory whose arrays own
different blocks does to the fields the objects hold what `ObsPen.assign`
does: it succeeds, the target holds the result of `ObsPen.assign` and the
source holds what it held. -/
theorem assign_load {m : Memory} {a b : Nat} {va vb : ObsPen} (uninit : Vector3d)
    (hab : a ≠ b) (ha : m.load a = some va) (hb : m.load b = some vb)
    (hsep : ∀ oa ob, m.objs[a]? = some oa → m.objs[b]? = some ob →
      oa.pen_.base ≠ ob.pen_.base ∧ oa.penGrad_.base ≠ ob.penGrad_.base) :
    ∃ m1, m.assign b a uninit = some m1 ∧ m1.load b = vb.assign va uninit ∧
      m1.load a = some va := by
  obtain ⟨oa, pa, ga, HA, rfl⟩ := holds_of_load ha
  obtain ⟨ob, pb, gb, HB, rfl⟩ := holds_of_load hb
  obtain ⟨la1, la2, -⟩ := holds_bounds HA
  obtain ⟨n1, n2⟩ := hsep oa ob HA.1 HB.1
  have n3 : oa.pen_.base ≠ ob.penGrad_.base := by
    intro e
    have := HA.2.1
    rw [e, HB.2.2] at this
    cases this
  have n4 : oa.penGrad_.base ≠ ob.pen_.base := by
    intro e
    have := HA.2.2
    rw [e, HB.2.1] at this
    cases this
  have A0 : Holds m a oa pa ga ∧ Apart m b oa.pen_.base ∧ Apart m b oa.penGrad_.base :=
    ⟨HA, ⟨ob, HB.1, Ne.symm n1, Ne.symm n3, la1⟩, ⟨ob, HB.1, Ne.symm n4, Ne.symm n2, la2⟩⟩
  obtain ⟨m1, e1, -, H1⟩ := resizePen_holds HB oa.pen_.shape0 oa.pen_.shape1 oa.pen_.shape2
  have A1 := (resizePen_step e1).1.holds_of_apart hab A0
  obtain ⟨m2, e2, -, H2⟩ := assignPen_holds H1 A1.1.1 A1.1.2.1
    (MultiArray.assign_resize ⟨ob.pen_.shape0, ob.pen_.shape1, ob.pen_.shape2, pb⟩
      ⟨oa.pen_.shape0, oa.pen_.shape1, oa.pen_.shape2, pa⟩ 0)
  have A2 := (assignPen_step e2).holds_of_apart hab A1
  obtain ⟨m3, e3, -, H3⟩ := resizeGrad_holds H2 uninit oa.penGrad_.shape0 oa.penGrad_.shape1
    oa.penGrad_.shape2
  have A3 := (resizeGrad_step e3).1.holds_of_apart hab A2
  obtain ⟨m4, e4, -, H4⟩ := assignGrad_holds H3 A3.1.1 A3.1.2.2
    (MultiArray.assign_resize
      ⟨ob.penGrad_.shape0, ob.penGrad_.shape1, ob.penGrad_.shape2, gb⟩
      ⟨oa.penGrad_.shape0, oa.penGrad_.shape1, oa.penGrad_.shape2, ga⟩ uninit)
  have A4 := (assignGrad_step e4).holds_of_apart hab A3
  obtain ⟨m5, e5, -, H5⟩ := setStartScale_holds H4 oa.start_ oa.scale_
  have A5 := (setStartScale_step e5).holds_of_apart hab A4
  refine ⟨m5, ?_, ?_, load_of_holds A5.1⟩
  · unfold Memory.assign
    simp only [Option.bind_eq_bind, HA.1, Option.some_bind, e1, e2, A2.1.1, e3, e4, A4.1.1, e5]
  · rw [load_of_holds H5, ObsPen.assign_eq]
    rfl

end Memory

/-! ## Copy independence in memory -/

/-- Shared storage is visible in this memory: when two objects hold the same
blocks, `setPen` on the one deallocates the blocks the other reads, and the
other no longer holds a field nor answers a query. -/
theorem Memory.shared_storage_visible :
    ∃ m2, ObsPenTest.sharedObjects.setPen 0 0 ⟨1, 1, 1⟩ 1 1 1 [1] [0] [0] [0] 0 = some m2 ∧
      ObsPenTest.sharedObjects.load 1 = some ⟨⟨3, 3, 3, ObsPenTest.pen⟩, ⟨3, 3, 3,
        (List.range 27).map
          (gradAt ObsPenTest.penGradX ObsPenTest.penGradY ObsPenTest.penGradZ)⟩, 0, ⟨1, 1, 1⟩⟩ ∧
      m2.load 1 = none ∧
      ∀ pos, m2.penality 1 pos = none ∧ m2.penalityGrad 1 pos = none :=
  ⟨_, rfl, rfl, rfl, fun _ => ⟨rfl, rfl⟩⟩

/-- C12: in a memory where arrays are objects that own storage blocks (two
arrays with the same block address would share their storage), let `a` and `b`
be two `ObsPen` objects, the arrays of `a` owning allocated blocks, and let
`b = a` have been executed. Then `b` owns blocks of its own: whatever a later
`a.setPen(..)` does, `penality` and `penalityGrad` of `b` at every world point,
and the whole field held by `b`, are as they were right after the copy; and
symmetrically a later `b.setPen(..)` leaves the answers and the field of `a`
as they were. -/
theorem copy_independent_storage (m m1 : Memory) (a b : Nat) (uninit : Vector3d)
    (hab : a ≠ b) (hown : m.Owns a) (hcopy : m.assign b a uninit = some m1) :
    (∀ (start scale : Vector3d) (sizeX sizeY sizeZ : Int) (penality gX gY gZ : List ℚ)
        (u : Vector3d) (m2 : Memory),
      m1.setPen a start scale sizeX sizeY sizeZ penality gX gY gZ u = some m2 →
      ∀ pos, m2.penality b pos = m1.penality b pos ∧
        m2.penalityGrad b pos = m1.penalityGrad b pos ∧ m2.load b = m1.load b) ∧
    (∀ (start scale : Vector3d) (sizeX sizeY sizeZ : Int) (penality gX gY gZ : List ℚ)
        (u : Vector3d) (m2 : Memory),
      m1.setPen b start scale sizeX sizeY sizeZ penality gX gY gZ u = some m2 →
      ∀ pos, m2.penality a pos = m1.penality a pos ∧
        m2.penalityGrad a pos = m1.penalityGrad a pos ∧ m2.load a = m1.load a) := by
  obtain ⟨ea, hlen, ⟨ob, hob, p1, p2⟩, ⟨ob', hob', g1, g2⟩⟩ := Memory.assign_fresh hcopy hab
  rw [hob] at hob'
  cases hob'
  constructor
  · intro start scale sizeX sizeY sizeZ penality gX gY gZ u m2 h2 pos
    obtain ⟨hothers, hheap⟩ := Memory.setPen_apart h2
    cases hoa : m1.objs[a]? with
    | none =>
      exfalso
      unfold Memory.setPen at h2
      split at h2
      · simp only [Option.bind_eq_bind, Option.bind_eq_some] at h2
        obtain ⟨m', h', -⟩ := h2
        unfold Memory.setStartScale at h'
        simp [hoa] at h'
      · simp at h2
    | some oa =>
      have hoa' : m.objs[a]? = some oa := by rw [← ea]; exact hoa
      obtain ⟨q1, q2⟩ := hown oa hoa'
      refine Memory.queries_congr_mem (hothers b (Ne.symm hab)) ?_ pos
      intro o ho
      rw [hob] at ho
      cases ho
      exact ⟨hheap _ ⟨oa, hoa, by omega, by omega, p2⟩, hheap _ ⟨oa, hoa, by omega, by omega, g2⟩⟩
  · intro start scale sizeX sizeY sizeZ penality gX gY gZ u m2 h2 pos
    obtain ⟨hothers, hheap⟩ := Memory.setPen_apart h2
    refine Memory.queries_congr_mem (hothers a hab) ?_ pos
    intro oa hoa
    have hoa' : m.objs[a]? = some oa := by rw [← ea]; exact hoa
    obtain ⟨q1, q2⟩ := hown oa hoa'
    exact ⟨hheap _ ⟨ob, hob, by omega, by omega, by omega⟩,
      hheap _ ⟨ob, hob, by omega, by omega, by omega⟩⟩

/-- C12, witness: object `0` holds the field of `ObsPenTest`, object `1` is
empty. After `b = a` object `1` holds that field in blocks of its own; loading
object `0` with a `1 x 1 x 1` grid leaves object `1` holding it and answering
as before. -/
theorem copy_independent_storage_witness :
    ∃ m1 m2, ObsPenTest.twoObjects.assign 1 0 0 = some m1 ∧
      m1.setPen 0 0 ⟨1, 1, 1⟩ 1 1 1 [1] [0] [0] [0] 0 = some m2 ∧
      m1.load 1 = some ⟨⟨3, 3, 3, ObsPenTest.pen⟩, ⟨3, 3, 3, (List.range 27).map
        (gradAt ObsPenTest.penGradX ObsPenTest.penGradY ObsPenTest.penGradZ)⟩, 0, ⟨1, 1, 1⟩⟩ ∧
      m2.load 0 = some ⟨⟨1, 1, 1, [1]⟩, ⟨1, 1, 1, [0]⟩, 0, ⟨1, 1, 1⟩⟩ ∧
      ∀ pos, m2.penality 1 pos = m1.penality 1 pos ∧
        m2.penalityGrad 1 pos = m1.penalityGrad 1 pos ∧ m2.load 1 = m1.load 1 := by
  obtain ⟨m1, h1⟩ : ∃ m1, ObsPenTest.twoObjects.assign 1 0 0 = some m1 := ⟨_, rfl⟩
  obtain ⟨m2, h2⟩ : ∃ m2, m1.setPen 0 0 ⟨1, 1, 1⟩ 1 1 1 [1] [0] [0] [0] 0 = some m2 := by
    cases h1; exact ⟨_, rfl⟩
  refine ⟨m1, m2, h1, h2, by cases h1; rfl, by cases h1; cases h2; rfl, ?_⟩
  exact (copy_independent_storage ObsPenTest.twoObjects m1 0 1 0 (by decide)
    (by
      intro o ho
      have : o = ⟨⟨3, 3, 3, 0⟩, ⟨3, 3, 3, 1⟩, 0, ⟨1, 1, 1⟩⟩ := by
        have h : ObsPenTest.twoObjects.objs[0]? =
          some ⟨⟨3, 3, 3, 0⟩, ⟨3, 3, 3, 1⟩, 0, ⟨1, 1, 1⟩⟩ := rfl
        rw [h] at ho; cases ho; rfl
      subst this
      exact ⟨by decide, by decide⟩) h1).1 _ _ _ _ _ _ _ _ _ _ _ h2

/-! ## Binary64 arithmetic -/

open Double

/-! ## Lemmas: rounding to binary64 -/

theorem roundEven_intCast (n : Int) : roundEven (n : ℚ) = n := by
  unfold roundEven
  rw [Int.floor_intCast, sub_self, if_pos (by norm_num)]

theorem roundEven_of_lt {x : ℚ} {n : Int} (h1 : (n : ℚ) - 1 / 2 < x) (h2 : x < n + 1 / 2) :
    roundEven x = n := by
  unfold roundEven
  by_cases hx : (n : ℚ) ≤ x
  · have hf : ⌊x⌋ = n := by rw [Int.floor_eq_iff]; constructor <;> linarith
    rw [hf, if_pos (by linarith)]
  · have hf : ⌊x⌋ = n - 1 := by
      rw [Int.floor_eq_iff]; push_cast; constructor <;> linarith
    rw [hf]; push_cast
    rw [if_neg (by linarith), if_pos (by linarith)]
    ring

theorem roundEven_tie {x : ℚ} {n : Int} (h : x = n + 1 / 2) :
    roundEven x = if n % 2 = 0 then n else n + 1 := by
  unfold roundEven
  have hf : ⌊x⌋ = n := by rw [Int.floor_eq_iff]; constructor <;> linarith
  rw [hf, if_neg (by linarith), if_neg (by linarith)]

theorem binade_eq {q : ℚ} {e : Int} (he : -1022 ≤ e) (h1 : (2 : ℚ) ^ e ≤ |q|)
    (h2 : |q| < (2 : ℚ) ^ (e + 1)) : binade q = e := by
  have hpos : 0 < |q| := lt_of_lt_of_le (by positivity) h1
  have a : e ≤ Int.log 2 |q| := (Int.zpow_le_iff_le_log (by norm_num) hpos).1 (by exact_mod_cast h1)
  have b : Int.log 2 |q| < e + 1 :=
    (Int.lt_zpow_iff_log_lt (by norm_num) hpos).1 (by exact_mod_cast h2)
  unfold binade
  omega

theorem binade_eq_subnormal {q : ℚ} (h0 : q ≠ 0) (h2 : |q| < (2 : ℚ) ^ (-1022 : Int)) :
    binade q = -1022 := by
  have hpos : 0 < |q| := abs_pos.2 h0
  have b : Int.log 2 |q| < -1022 :=
    (Int.lt_zpow_iff_log_lt (by norm_num) hpos).1 (by exact_mod_cast h2)
  unfold binade
  omega

/-- Rounding of a number in the binade of exponent `e`. -/
theorem roundQ_eq {q : ℚ} (e n : Int) (he : -1022 ≤ e) (h1 : (2 : ℚ) ^ e ≤ |q|)
    (h2 : |q| < (2 : ℚ) ^ (e + 1)) (hn : roundEven (q / 2 ^ (e - 52)) = n) :
    roundQ q = n * 2 ^ (e - 52) := by
  unfold roundQ ulp
  rw [binade_eq he h1 h2, hn]

theorem roundQ_zero : roundQ 0 = 0 := by
  unfold roundQ
  rw [zero_div]
  have : roundEven 0 = 0 := by simpa using roundEven_intCast 0
  rw [this]; simp

/-- A number `n * 2^k` with `|n| < 2^53` and `k ≥ -1074` is not changed by
rounding. -/
theorem roundQ_of_dyadic {q : ℚ} {n k : Int} (hq : q = n * 2 ^ k) (hn : |n| < 2 ^ 53)
    (hk : -1074 ≤ k) : roundQ q = q := by
  by_cases h0 : q = 0
  · rw [h0, roundQ_zero]
  have hpos : 0 < |q| := abs_pos.2 h0
  have hn' : |(n : ℚ)| < 2 ^ 53 := by exact_mod_cast hn
  have hlt : |q| < (2 : ℚ) ^ (53 + k) := by
    rw [hq, abs_mul, abs_of_pos (a := (2 : ℚ) ^ k) (by positivity), zpow_add₀ (by norm_num)]
    exact mul_lt_mul_of_pos_right (by exact_mod_cast hn') (by positivity)
  have hlog : Int.log 2 |q| < 53 + k :=
    (Int.lt_zpow_iff_log_lt (by norm_num) hpos).1 (by exact_mod_cast hlt)
  obtain ⟨b, hbq⟩ : ∃ b, binade q = b := ⟨_, rfl⟩
  have hb : b - 52 ≤ k := by rw [← hbq]; unfold binade; omega
  obtain ⟨j, hj⟩ : ∃ j : Nat, (j : Int) = k - (b - 52) := ⟨(k - (b - 52)).toNat, by omega⟩
  have hk' : k = (b - 52) + j := by omega
  have h2 : (2 : ℚ) ^ (b - 52) ≠ 0 := by positivity
  have hdiv : q / 2 ^ (b - 52) = ((n * 2 ^ j : Int) : ℚ) := by
    rw [hq, hk', zpow_add₀ (by norm_num)]
    push_cast
    field_simp
    ring
  unfold roundQ ulp
  rw [hbq, hdiv, roundEven_intCast, ← hdiv]
  field_simp

namespace Double

theorem round_zero (neg : Bool) : round neg 0 = if neg then negZero else fin 0 := by
  unfold round
  rw [roundQ_zero]
  norm_num

/-- A non-zero binary64 number is the rounding of itself. -/
theorem round_of_isBinary64 {q : ℚ} (neg : Bool) (h : IsBinary64 (fin q)) (h0 : q ≠ 0) :
    round neg q = fin q := by
  obtain ⟨n, k, hq, hn, hk, hlt⟩ := h
  have hr := roundQ_of_dyadic hq hn hk
  unfold round
  rw [hr, if_neg (not_le.2 hlt), if_neg h0]

/-- Rounding of a number in the binade of exponent `e`, below the overflow
threshold. -/
theorem round_eq {q : ℚ} (neg : Bool) (e n : Int) (he : -1022 ≤ e) (h1 : (2 : ℚ) ^ e ≤ |q|)
    (h2 : |q| < (2 : ℚ) ^ (e + 1)) (hn : roundEven (q / 2 ^ (e - 52)) = n)
    (hlt : |(n : ℚ) * 2 ^ (e - 52)| < 2 ^ 1024) (hne : n ≠ 0) :
    round neg q = fin (n * 2 ^ (e - 52)) := by
  unfold round
  rw [roundQ_eq e n he h1 h2 hn, if_neg (not_le.2 hlt), if_neg]
  have : (2 : ℚ) ^ (e - 52) ≠ 0 := by positivity
  simp [hne, this]

theorem isBinary64_intCast (z : Int) (hz : |z| < 2 ^ 53) : IsBinary64 (fin (z : ℚ)) := by
  refine ⟨z, 0, by simp, hz, by norm_num, ?_⟩
  have h : |(z : ℚ)| < 2 ^ 53 := by exact_mod_cast hz
  exact h.trans (by norm_num)

theorem ofInt_eq {z : Int} (hz : |z| < 2 ^ 53) (h0 : z ≠ 0) : ofInt z = fin (z : ℚ) :=
  round_of_isBinary64 false (isBinary64_intCast z hz) (by exact_mod_cast h0)

theorem ofInt_zero : ofInt 0 = fin 0 := by
  unfold ofInt; simpa using round_zero false

theorem ofNat_eq {n : Nat} (hn : n < 2 ^ 53) (h0 : n ≠ 0) : ofNat n = fin (n : ℚ) := by
  have := round_of_isBinary64 false (isBinary64_intCast (n : Int) (by
    rw [abs_of_nonneg (by positivity)]; exact_mod_cast hn)) (by exact_mod_cast h0)
  simpa [ofNat] using this

end Double

namespace Double

/-! ## Lemmas: the operations on finite values -/

theorem add_def (a b : Double) : a + b = add a b := rfl
theorem sub_def (a b : Double) : a - b = add a (neg b) := rfl
theorem mul_def (a b : Double) : a * b = mul a b := rfl
theorem div_def (a b : Double) : a / b = div a b := rfl

theorem add_fin (a b : ℚ) : add (fin a) (fin b) = round false (a + b) := rfl

theorem sub_fin (a b : ℚ) (hb : b ≠ 0) : fin a - fin b = round false (a - b) := by
  rw [sub_def, neg, if_neg hb, add_fin, sub_eq_add_neg]

theorem sub_fin_zero (a : ℚ) : fin a - fin 0 = fin a := by
  rw [sub_def, neg, if_pos rfl]; rfl

theorem mul_fin (a b : ℚ) :
    mul (fin a) (fin b) = round (xor (decide (a < 0)) (decide (b < 0))) (a * b) := rfl

theorem div_fin (a b : ℚ) (hb : b ≠ 0) :
    fin a / fin b = round (xor (decide (a < 0)) (decide (b < 0))) (a / b) := by
  have h : fin a / fin b = if decide (b = 0) then (if decide (a = 0) then nan
      else inf (xor (decide (a < 0)) (decide (b < 0))))
      else round (xor (decide (a < 0)) (decide (b < 0))) (a / b) := rfl
  rw [h, decide_eq_false hb]; rfl

theorem lt_fin (a b : ℚ) : lt (fin a) (fin b) = decide (a < b) := rfl

theorem toInt_fin_intCast (z : Int) : toInt (fin (z : ℚ)) = tpg.toInt z := by
  show tpg.toInt (if (0 : ℚ) ≤ z then ⌊(z : ℚ)⌋ else ⌈(z : ℚ)⌉) = _
  rw [Int.floor_intCast, Int.ceil_intCast, ite_self]

theorem floor_fin (q : ℚ) : floor (fin q) = fin ((⌊q⌋ : Int) : ℚ) := rfl

end Double

namespace fp

/-! ## Lemmas: the indices and weights of one axis -/

theorem axisCell_eq (q s : ℚ) (a0 a1 : Int) (h0 : ⌊q⌋ = a0) (hi0 : isInt a0 = true)
    (hs : fin q + fin 1 = fin s) (h1 : ⌊s⌋ = a1) (hi1 : isInt a1 = true) :
    axisCell (fin q) = some ⟨a0, a1, fin q - ofInt a0, ofInt a1 - fin q⟩ := by
  unfold axisCell
  rw [hs, floor_fin, floor_fin, toInt_fin_intCast, toInt_fin_intCast, h0, h1]
  simp [tpg.toInt, hi0, hi1]

/-- At an integer coordinate inside the `int` range the weights are `0` and `1`. -/
theorem axisCell_intCast {i : Int} (h0 : 0 < i) (h1 : i < INT_MAX) :
    axisCell (fin (i : ℚ)) = some ⟨i, i + 1, fin 0, fin 1⟩ := by
  have hI : INT_MAX = 2147483647 := rfl
  have hs : fin (i : ℚ) + fin 1 = fin ((i + 1 : Int) : ℚ) := by
    rw [add_def, add_fin]
    have := round_of_isBinary64 false (isBinary64_intCast (i + 1) (by
      rw [abs_of_pos (by omega)]; omega)) (by
      have : (0 : ℚ) < ((i + 1 : Int) : ℚ) := by exact_mod_cast (by omega : 0 < i + 1)
      exact this.ne')
    rw [← this]; push_cast; rfl
  have e := axisCell_eq (i : ℚ) ((i + 1 : Int) : ℚ) i (i + 1) (Int.floor_intCast i)
    (by rw [isInt_iff]; unfold INT_MIN; omega) hs (Int.floor_intCast _)
    (by rw [isInt_iff]; unfold INT_MIN; omega)
  rw [e]
  have hq : (i : ℚ) ≠ 0 := by exact_mod_cast h0.ne'
  have o0 : ofInt i = fin (i : ℚ) := ofInt_eq (by rw [abs_of_pos h0]; omega) h0.ne'
  have o1 : ofInt (i + 1) = fin ((i + 1 : Int) : ℚ) :=
    ofInt_eq (by rw [abs_of_pos (by omega)]; omega) (by omega)
  have d0 : fin (i : ℚ) - fin (i : ℚ) = fin 0 := by
    rw [sub_fin _ _ hq, sub_self]; simpa using round_zero false
  have d1 : fin ((i + 1 : Int) : ℚ) - fin (i : ℚ) = fin 1 := by
    rw [sub_fin _ _ hq]
    have : ((i + 1 : Int) : ℚ) - i = 1 := by push_cast; ring
    rw [this]
    exact round_of_isBinary64 false (by simpa using isBinary64_intCast 1 (by norm_num))
      (by norm_num)
  rw [o0, o1, d0, d1]

end fp

namespace fp

theorem ofInt_two : ofInt 2 = fin 2 := by
  simpa using ofInt_eq (z := 2) (by norm_num) (by norm_num)

theorem ofInt_one : ofInt 1 = fin 1 := by
  simpa using ofInt_eq (z := 1) (by norm_num) (by norm_num)

theorem ofInt_three : ofInt 3 = fin 3 := by
  simpa using ofInt_eq (z := 3) (by norm_num) (by norm_num)

theorem ofNat_two : ofNat 2 = fin 2 := by
  simpa using ofNat_eq (n := 2) (by norm_num) (by norm_num)

/-- The sum `(1 - 2^-53) + 1.` is a tie between `2 - 2^-52` and `2` and rounds
to `2`. -/
theorem belowOne_add_one : fin (1 - 1 / 2 ^ 53) + fin 1 = fin 2 := by
  rw [add_def, add_fin,
    round_eq false 0 (2 ^ 53) (by norm_num) (by norm_num [abs_of_pos])
      (by norm_num [abs_of_pos])
      (by rw [roundEven_tie (n := 2 ^ 53 - 1) (by norm_num)]; norm_num)
      (by norm_num [abs_of_pos]) (by norm_num)]
  norm_num

/-- The difference `2 - (1 - 2^-53)` is a tie between `1` and `1 + 2^-52` and
rounds to `1`. -/
theorem two_sub_belowOne : fin 2 - fin (1 - 1 / 2 ^ 53) = fin 1 := by
  rw [sub_fin _ _ (by norm_num),
    round_eq false 0 (2 ^ 52) (by norm_num) (by norm_num [abs_of_pos])
      (by norm_num [abs_of_pos])
      (by rw [roundEven_tie (n := 2 ^ 52) (by norm_num)]; norm_num)
      (by norm_num [abs_of_pos]) (by norm_num)]
  norm_num

theorem axisCell_one : axisCell (fin 1) = some ⟨1, 2, fin 0, fin 1⟩ := by
  simpa using axisCell_intCast (i := 1) (by norm_num) (by decide)

/-- Just below `1` the high index is `2`: `x + 1.` has rounded up to `2`. -/
theorem axisCell_belowOne :
    axisCell (fin (1 - 1 / 2 ^ 53)) = some ⟨0, 2, fin (1 - 1 / 2 ^ 53), fin 1⟩ := by
  rw [axisCell_eq (1 - 1 / 2 ^ 53) 2 0 2 (by rw [Int.floor_eq_iff]; norm_num) (by decide)
    belowOne_add_one (by norm_num) (by decide),
    ofInt_zero, sub_fin_zero, ofInt_two, two_sub_belowOne]

end fp

namespace Double

/-! ## Lemmas: products and sums that are exact -/

theorem isBinary64_zero : IsBinary64 (fin 0) := ⟨0, 0, by norm_num, by norm_num, by norm_num, by norm_num⟩

theorem isBinary64_one : IsBinary64 (fin 1) := ⟨1, 0, by norm_num, by norm_num, by norm_num, by norm_num⟩

theorem one_mul_of_isBinary64 {s : Double} (h : IsBinary64 s) : mul (fin 1) s = s := by
  cases s with
  | fin q =>
    rw [mul_fin, one_mul]
    by_cases h0 : q = 0
    · subst h0; simpa using round_zero false
    · exact round_of_isBinary64 _ h h0
  | negZero =>
    show round (xor (decide ((1 : ℚ) < 0)) true) ((1 : ℚ) * 0) = negZero
    rw [mul_zero, round_zero]; norm_num
  | inf s =>
    show (if decide ((1 : ℚ) = 0) then nan else inf (xor (decide ((1 : ℚ) < 0)) s)) = inf s
    norm_num
  | nan => rfl

theorem mul_one_of_isBinary64 {q : ℚ} (h : IsBinary64 (fin q)) : mul (fin q) (fin 1) = fin q := by
  rw [mul_fin, mul_one]
  by_cases h0 : q = 0
  · subst h0; simpa using round_zero false
  · exact round_of_isBinary64 _ h h0

/-- The product of `+0` and a finite value is a zero. -/
theorem zero_mul_of_isFinite {s : Double} (h : s.isFinite = true) : (mul (fin 0) s).isZero = true := by
  cases s with
  | fin q =>
    rw [mul_fin, zero_mul, round_zero]
    split <;> simp [isZero]
  | negZero =>
    show (round (xor (decide ((0 : ℚ) < 0)) true) ((0 : ℚ) * 0)).isZero = true
    rw [mul_zero, round_zero]; norm_num [isZero]
  | inf s => simp [isFinite] at h
  | nan => simp [isFinite] at h

/-- Adding a zero to a finite binary64 value gives a finite binary64 value that
is the same number. -/
theorem add_zero_of_isBinary64 {s z : Double} (hs : IsBinary64 s) (hf : s.isFinite = true)
    (hz : z.isZero = true) :
    IsBinary64 (add s z) ∧ (add s z).isFinite = true ∧ (add s z).toRat = s.toRat := by
  cases s with
  | fin q =>
    cases z with
    | fin r =>
      have hr : r = 0 := by simpa [isZero] using hz
      subst hr
      rw [add_fin, add_zero]
      by_cases h0 : q = 0
      · subst h0; rw [round_zero]; exact ⟨isBinary64_zero, rfl, rfl⟩
      · rw [round_of_isBinary64 _ hs h0]; exact ⟨hs, rfl, rfl⟩
    | negZero => exact ⟨hs, rfl, rfl⟩
    | inf s => simp [isZero] at hz
    | nan => simp [isZero] at hz
  | negZero =>
    cases z with
    | fin r =>
      have hr : r = 0 := by simpa [isZero] using hz
      subst hr
      exact ⟨isBinary64_zero, rfl, rfl⟩
    | negZero => exact ⟨trivial, rfl, rfl⟩
    | inf s => simp [isZero] at hz
    | nan => simp [isZero] at hz
  | inf s => simp [isFinite] at hf
  | nan => simp [isFinite] at hf

/-- The blend `1*s + 0*b` with weights `dm = 1` and `d = 0`: for finite
binary64 `s` and finite `b` it is a finite binary64 value and the same number
as `s`. -/
theorem blend_one_zero {s b : Double} (hs : IsBinary64 s) (hf : s.isFinite = true)
    (hb : b.isFinite = true) :
    IsBinary64 (add (mul (fin 1) s) (mul (fin 0) b)) ∧
    (add (mul (fin 1) s) (mul (fin 0) b)).isFinite = true ∧
    (add (mul (fin 1) s) (mul (fin 0) b)).toRat = s.toRat := by
  rw [one_mul_of_isBinary64 hs]
  exact add_zero_of_isBinary64 hs hf (zero_mul_of_isFinite hb)

theorem eq_of_toRat {a b : Double} (ha : a.isFinite = true) (hb : b.isFinite = true)
    (h : a.toRat = b.toRat) : Double.eq a b = true := by
  cases a <;> cases b <;> simp_all [Double.eq, isFinite, toRat]

end Double

namespace Double

theorem add_fin_zero {q : ℚ} (h : IsBinary64 (fin q)) : add (fin q) (fin 0) = fin q := by
  rw [add_fin, add_zero]
  by_cases h0 : q = 0
  · subst h0; simpa using round_zero false
  · exact round_of_isBinary64 _ h h0

theorem zero_add_fin {q : ℚ} (h : IsBinary64 (fin q)) : add (fin 0) (fin q) = fin q := by
  rw [add_fin, zero_add]
  by_cases h0 : q = 0
  · subst h0; simpa using round_zero false
  · exact round_of_isBinary64 _ h h0

theorem zero_mul_fin {q : ℚ} (h : 0 ≤ q) : mul (fin 0) (fin q) = fin 0 := by
  rw [mul_fin, zero_mul, round_zero]
  simp [not_lt.2 h]

theorem mul_zero_fin {q : ℚ} (h : 0 ≤ q) : mul (fin q) (fin 0) = fin 0 := by
  rw [mul_fin, mul_zero, round_zero]
  simp [not_lt.2 h]

end Double

namespace fp

/-! ## Lemmas: `interpolate3d` in binary64 arithmetic -/

theorem sample_add (a b : Double) : (Sample.add a b : Double) = Double.add a b := rfl

theorem sample_scale (w a : Double) : (Sample.scale w a : Double) = Double.mul w a := rfl

theorem sample_zero : (Sample.zero : Double) = fin 0 := rfl

/-- Outside the bounds the result is `zero_value<T>::zero()`. -/
theorem interpolate3d_outside_fp {T : Type} [Sample T] (a : MultiArray T) (p : Vector3d)
    (h : inBound p.x a.shape0 = false ∨ inBound p.y a.shape1 = false ∨
      inBound p.z a.shape2 = false) : interpolate3d a p = some Sample.zero := by
  unfold interpolate3d
  rw [if_pos]
  rcases h with h | h | h <;> simp [h]

/-- Inside the bounds the result is the nested blend of the eight samples read
at the indices of the three axis cells. -/
theorem interpolate3d_eval_fp {T : Type} [Sample T] (a : MultiArray T) (p : Vector3d)
    (cx cy cz : AxisCell) (s000 s100 s010 s110 s001 s101 s011 s111 : T)
    (bx : inBound p.x a.shape0 = true) (bY : inBound p.y a.shape1 = true)
    (bz : inBound p.z a.shape2 = true)
    (hx : axisCell p.x = some cx) (hy : axisCell p.y = some cy) (hz : axisCell p.z = some cz)
    (r000 : a.get? cx.a0 cy.a0 cz.a0 = some s000) (r100 : a.get? cx.a1 cy.a0 cz.a0 = some s100)
    (r010 : a.get? cx.a0 cy.a1 cz.a0 = some s010) (r110 : a.get? cx.a1 cy.a1 cz.a0 = some s110)
    (r001 : a.get? cx.a0 cy.a0 cz.a1 = some s001) (r101 : a.get? cx.a1 cy.a0 cz.a1 = some s101)
    (r011 : a.get? cx.a0 cy.a1 cz.a1 = some s011) (r111 : a.get? cx.a1 cy.a1 cz.a1 = some s111) :
    interpolate3d a p = some
      (Sample.add
        (Sample.scale cz.dm (Sample.add
          (Sample.scale cy.dm (Sample.add (Sample.scale cx.dm s000) (Sample.scale cx.d s100)))
          (Sample.scale cy.d (Sample.add (Sample.scale cx.dm s010) (Sample.scale cx.d s110)))))
        (Sample.scale cz.d (Sample.add
          (Sample.scale cy.dm (Sample.add (Sample.scale cx.dm s001) (Sample.scale cx.d s101)))
          (Sample.scale cy.d (Sample.add (Sample.scale cx.dm s011) (Sample.scale cx.d s111)))))) := by
  unfold interpolate3d
  simp only [bx, bY, bz, hx, hy, hz, blendX, r000, r100, r010, r110, r001, r101, r011, r111,
    Bool.not_true, Bool.or_self, Bool.false_eq_true, if_false, Option.bind_eq_bind,
    Option.some_bind, Option.pure_def]

/-- A read outside the extents makes the call undefined. -/
theorem interpolate3d_none {T : Type} [Sample T] (a : MultiArray T) (p : Vector3d)
    (cx cy cz : AxisCell)
    (bx : inBound p.x a.shape0 = true) (bY : inBound p.y a.shape1 = true)
    (bz : inBound p.z a.shape2 = true)
    (hx : axisCell p.x = some cx) (hy : axisCell p.y = some cy) (hz : axisCell p.z = some cz)
    (h : (cx.a1 : Int) ≥ a.shape0) : interpolate3d a p = none := by
  have hr : ∀ y z, a.get? cx.a1 y z = none := by
    intro y z
    have hv : a.validIndex cx.a1 y z = false := by
      rw [← Bool.not_eq_true, MultiArray.validIndex_iff]
      rintro ⟨-, b, -⟩
      omega
    simp [MultiArray.get?, hv]
  unfold interpolate3d
  simp only [bx, bY, bz, hx, hy, hz, blendX, hr,
    Bool.not_true, Bool.or_self, Bool.false_eq_true, if_false, Option.bind_eq_bind,
    Option.some_bind, Option.pure_def, Option.none_bind, Option.bind_none]

theorem inBound_fin (q : ℚ) {n : Nat} (h1 : 2 ≤ n) (h2 : n ≤ 2 ^ 53) :
    inBound (fin q) n = (decide (0 < q) && decide (q < (n : ℚ) - 1)) := by
  unfold inBound
  rw [sizePred_of_pos (by omega) (by unfold SIZE_MOD; omega),
    ofNat_eq (by omega) (by omega), lt_fin, lt_fin, Nat.cast_sub (by omega)]
  simp

end fp

namespace fp

/-! ## Lemmas: the coordinate just below a cell face -/

theorem isBinary64_belowOne : IsBinary64 (fin (1 - 1 / 2 ^ 53)) :=
  ⟨2 ^ 53 - 1, -53, by norm_num, by norm_num, by norm_num, by norm_num [abs_lt]⟩

theorem inBound_belowOne : inBound (fin (1 - 1 / 2 ^ 53)) 3 = true := by
  rw [inBound_fin _ (by norm_num) (by norm_num)]; norm_num

theorem inBound_one : inBound (fin 1) 3 = true := by
  rw [inBound_fin _ (by norm_num) (by norm_num)]; norm_num

/-- The sum `1 + (1 - 2^-53)` is a tie and rounds to `2`. -/
theorem one_add_belowOne : add (fin 1) (fin (1 - 1 / 2 ^ 53)) = fin 2 := by
  rw [add_fin,
    round_eq false 0 (2 ^ 53) (by norm_num) (by norm_num [abs_of_pos])
      (by norm_num [abs_of_pos])
      (by rw [roundEven_tie (n := 2 ^ 53 - 1) (by norm_num)]; norm_num)
      (by norm_num [abs_of_pos]) (by norm_num)]
  norm_num

theorem constGrid_get {T : Type} (c : T) {x y z : Nat} (hx : x < 3) (hy : y < 3) (hz : z < 3) :
    (constGrid c).get? (x : Int) (y : Int) (z : Int) = some c := by
  rw [MultiArray.get?_natCast _ hx hy hz]
  have hlt : (x * 3 + y) * 3 + z < 27 := by omega
  show (List.replicate 27 c)[(x * 3 + y) * 3 + z]? = some c
  rw [List.getElem?_replicate, if_pos hlt]

theorem spikeGrid_get {T : Type} (base spike : T) (i j k : Nat) {x y z : Nat} (hj : j < 3)
    (hk : k < 3) (hx : x < 3) (hy : y < 3) (hz : z < 3) :
    (spikeGrid base spike i j k).get? (x : Int) (y : Int) (z : Int) =
      some (if (i, j, k) = (x, y, z) then spike else base) := by
  rw [MultiArray.get?_natCast _ hx hy hz]
  have hlt : (x * 3 + y) * 3 + z < 27 := by omega
  show ((List.replicate 27 base).set ((i * 3 + j) * 3 + k) spike)[(x * 3 + y) * 3 + z]? = _
  rw [List.getElem?_set]
  by_cases h : (i, j, k) = (x, y, z)
  · obtain ⟨rfl, rfl, rfl⟩ := Prod.mk.injEq .. ▸ h
    simp [hlt]
  · have hne : (i * 3 + j) * 3 + k ≠ (x * 3 + y) * 3 + z := by
      intro e
      apply h
      have : i = x ∧ j = y ∧ k = z := by omega
      obtain ⟨rfl, rfl, rfl⟩ := this
      rfl
    rw [if_neg hne, if_neg h, List.getElem?_replicate, if_pos hlt]

theorem spikeGrid_get_same {T : Type} (base spike : T) (i j k : Nat) (hi : i < 3) (hj : j < 3)
    (hk : k < 3) :
    (spikeGrid base spike i j k).get? (i : Int) (j : Int) (k : Int) = some spike := by
  rw [spikeGrid_get base spike i j k hj hk hi hj hk, if_pos rfl]

theorem spikeGrid_get_other {T : Type} (base spike : T) (i j k : Nat) {x y z : Nat}
    (hj : j < 3) (hk : k < 3) (hx : x < 3) (hy : y < 3) (hz : z < 3)
    (h : (i, j, k) ≠ (x, y, z)) :
    (spikeGrid base spike i j k).get? (x : Int) (y : Int) (z : Int) = some base := by
  rw [spikeGrid_get base spike i j k hj hk hx hy hz, if_neg h]

theorem unitGrid_get_same (i j k : Nat) (hi : i < 3) (hj : j < 3) (hk : k < 3) :
    (unitGrid i j k).get? (i : Int) (j : Int) (k : Int) = some (fin 1) :=
  spikeGrid_get_same _ _ i j k hi hj hk

theorem unitGrid_get_other (i j k : Nat) {x y z : Nat} (hj : j < 3) (hk : k < 3)
    (hx : x < 3) (hy : y < 3) (hz : z < 3) (h : (i, j, k) ≠ (x, y, z)) :
    (unitGrid i j k).get? (x : Int) (y : Int) (z : Int) = some (fin 0) :=
  spikeGrid_get_other _ _ i j k hj hk hx hy hz h

/-- On the grid of ones the blend just below the face `x = 1` is
`1*1 + (1 - 2^-53)*1`, which rounds to `2`. -/
theorem interpolate3d_ones_belowOne_x :
    interpolate3d (constGrid (fin 1)) ⟨fin (1 - 1 / 2 ^ 53), fin 1, fin 1⟩ = some (fin 2) := by
  rw [interpolate3d_eval_fp (constGrid (fin 1)) ⟨fin (1 - 1 / 2 ^ 53), fin 1, fin 1⟩
    ⟨0, 2, fin (1 - 1 / 2 ^ 53), fin 1⟩ ⟨1, 2, fin 0, fin 1⟩ ⟨1, 2, fin 0, fin 1⟩
    (fin 1) (fin 1) (fin 1) (fin 1) (fin 1) (fin 1) (fin 1) (fin 1)
    inBound_belowOne inBound_one inBound_one axisCell_belowOne axisCell_one axisCell_one
    (constGrid_get _ (x := 0) (y := 1) (z := 1) (by norm_num) (by norm_num) (by norm_num))
    (constGrid_get _ (x := 2) (y := 1) (z := 1) (by norm_num) (by norm_num) (by norm_num))
    (constGrid_get _ (x := 0) (y := 2) (z := 1) (by norm_num) (by norm_num) (by norm_num))
    (constGrid_get _ (x := 2) (y := 2) (z := 1) (by norm_num) (by norm_num) (by norm_num))
    (constGrid_get _ (x := 0) (y := 1) (z := 2) (by norm_num) (by norm_num) (by norm_num))
    (constGrid_get _ (x := 2) (y := 1) (z := 2) (by norm_num) (by norm_num) (by norm_num))
    (constGrid_get _ (x := 0) (y := 2) (z := 2) (by norm_num) (by norm_num) (by norm_num))
    (constGrid_get _ (x := 2) (y := 2) (z := 2) (by norm_num) (by norm_num) (by norm_num))]
  have h2 : IsBinary64 (fin 2) := by simpa using isBinary64_intCast 2 (by norm_num)
  simp only [sample_add, sample_scale, one_mul_of_isBinary64 isBinary64_one,
    mul_one_of_isBinary64 isBinary64_belowOne, one_add_belowOne,
    one_mul_of_isBinary64 h2, zero_mul_fin (q := 2) (by norm_num), add_fin_zero h2]

end fp

namespace fp

/-- The weight of the corner `[0][1][1]` just below the face `x = 1`. -/
theorem interpolate3d_unit_low :
    interpolate3d (unitGrid 0 1 1) ⟨fin (1 - 1 / 2 ^ 53), fin 1, fin 1⟩ = some (fin 1) := by
  rw [interpolate3d_eval_fp (unitGrid 0 1 1) ⟨fin (1 - 1 / 2 ^ 53), fin 1, fin 1⟩
    ⟨0, 2, fin (1 - 1 / 2 ^ 53), fin 1⟩ ⟨1, 2, fin 0, fin 1⟩ ⟨1, 2, fin 0, fin 1⟩
    (fin 1) (fin 0) (fin 0) (fin 0) (fin 0) (fin 0) (fin 0) (fin 0)
    inBound_belowOne inBound_one inBound_one axisCell_belowOne axisCell_one axisCell_one
    (unitGrid_get_same 0 1 1 (by norm_num) (by norm_num) (by norm_num))
    (unitGrid_get_other 0 1 1 (x := 2) (y := 1) (z := 1) (by norm_num) (by norm_num)
      (by norm_num) (by norm_num) (by norm_num) (by decide))
    (unitGrid_get_other 0 1 1 (x := 0) (y := 2) (z := 1) (by norm_num) (by norm_num)
      (by norm_num) (by norm_num) (by norm_num) (by decide))
    (unitGrid_get_other 0 1 1 (x := 2) (y := 2) (z := 1) (by norm_num) (by norm_num)
      (by norm_num) (by norm_num) (by norm_num) (by decide))
    (unitGrid_get_other 0 1 1 (x := 0) (y := 1) (z := 2) (by norm_num) (by norm_num)
      (by norm_num) (by norm_num) (by norm_num) (by decide))
    (unitGrid_get_other 0 1 1 (x := 2) (y := 1) (z := 2) (by norm_num) (by norm_num)
      (by norm_num) (by norm_num) (by norm_num) (by decide))
    (unitGrid_get_other 0 1 1 (x := 0) (y := 2) (z := 2) (by norm_num) (by norm_num)
      (by norm_num) (by norm_num) (by norm_num) (by decide))
    (unitGrid_get_other 0 1 1 (x := 2) (y := 2) (z := 2) (by norm_num) (by norm_num)
      (by norm_num) (by norm_num) (by norm_num) (by decide))]
  simp only [sample_add, sample_scale, one_mul_of_isBinary64 isBinary64_one,
    one_mul_of_isBinary64 isBinary64_zero,
    mul_zero_fin (q := 1 - 1 / 2 ^ 53) (by norm_num), add_fin_zero isBinary64_one,
    add_fin_zero isBinary64_zero, zero_mul_fin (q := 0) (by norm_num)]

/-- The weight of the corner `[2][1][1]` just below the face `x = 1`. -/
theorem interpolate3d_unit_high :
    interpolate3d (unitGrid 2 1 1) ⟨fin (1 - 1 / 2 ^ 53), fin 1, fin 1⟩ =
      some (fin (1 - 1 / 2 ^ 53)) := by
  rw [interpolate3d_eval_fp (unitGrid 2 1 1) ⟨fin (1 - 1 / 2 ^ 53), fin 1, fin 1⟩
    ⟨0, 2, fin (1 - 1 / 2 ^ 53), fin 1⟩ ⟨1, 2, fin 0, fin 1⟩ ⟨1, 2, fin 0, fin 1⟩
    (fin 0) (fin 1) (fin 0) (fin 0) (fin 0) (fin 0) (fin 0) (fin 0)
    inBound_belowOne inBound_one inBound_one axisCell_belowOne axisCell_one axisCell_one
    (unitGrid_get_other 2 1 1 (x := 0) (y := 1) (z := 1) (by norm_num) (by norm_num)
      (by norm_num) (by norm_num) (by norm_num) (by decide))
    (unitGrid_get_same 2 1 1 (by norm_num) (by norm_num) (by norm_num))
    (unitGrid_get_other 2 1 1 (x := 0) (y := 2) (z := 1) (by norm_num) (by norm_num)
      (by norm_num) (by norm_num) (by norm_num) (by decide))
    (unitGrid_get_other 2 1 1 (x := 2) (y := 2) (z := 1) (by norm_num) (by norm_num)
      (by norm_num) (by norm_num) (by norm_num) (by decide))
    (unitGrid_get_other 2 1 1 (x := 0) (y := 1) (z := 2) (by norm_num) (by norm_num)
      (by norm_num) (by norm_num) (by norm_num) (by decide))
    (unitGrid_get_other 2 1 1 (x := 2) (y := 1) (z := 2) (by norm_num) (by norm_num)
      (by norm_num) (by norm_num) (by norm_num) (by decide))
    (unitGrid_get_other 2 1 1 (x := 0) (y := 2) (z := 2) (by norm_num) (by norm_num)
      (by norm_num) (by norm_num) (by norm_num) (by decide))
    (unitGrid_get_other 2 1 1 (x := 2) (y := 2) (z := 2) (by norm_num) (by norm_num)
      (by norm_num) (by norm_num) (by norm_num) (by decide))]
  simp only [sample_add, sample_scale, one_mul_of_isBinary64 isBinary64_zero,
    one_mul_of_isBinary64 isBinary64_belowOne,
    mul_one_of_isBinary64 isBinary64_belowOne, zero_add_fin isBinary64_belowOne,
    mul_zero_fin (q := 1 - 1 / 2 ^ 53) (by norm_num), add_fin_zero isBinary64_belowOne,
    add_fin_zero isBinary64_zero, zero_mul_fin (q := 0) (by norm_num)]

end fp

namespace fp

/-! ## Lemmas: the coordinate just below `2` -/

theorem isBinary64_belowTwo : IsBinary64 (fin (2 - 1 / 2 ^ 52)) :=
  ⟨2 ^ 53 - 1, -52, by norm_num, by norm_num, by norm_num, by norm_num [abs_lt]⟩

theorem inBound_belowTwo : inBound (fin (2 - 1 / 2 ^ 52)) 3 = true := by
  rw [inBound_fin _ (by norm_num) (by norm_num)]; norm_num

/-- The sum `(2 - 2^-52) + 1.` is a tie between `3 - 2^-51` and `3` and rounds
to `3`. -/
theorem belowTwo_add_one : fin (2 - 1 / 2 ^ 52) + fin 1 = fin 3 := by
  rw [add_def, add_fin,
    round_eq false 1 (3 * 2 ^ 51) (by norm_num) (by norm_num [abs_of_pos])
      (by norm_num [abs_of_pos])
      (by rw [roundEven_tie (n := 3 * 2 ^ 51 - 1) (by norm_num)]; norm_num)
      (by norm_num [abs_of_pos]) (by norm_num)]
  norm_num

theorem belowTwo_sub_one : fin (2 - 1 / 2 ^ 52) - fin 1 = fin (1 - 1 / 2 ^ 52) := by
  rw [sub_fin _ _ (by norm_num), round_of_isBinary64 false
    ⟨2 ^ 53 - 2, -53, by norm_num, by norm_num, by norm_num, by norm_num [abs_lt]⟩ (by norm_num)]
  norm_num

theorem three_sub_belowTwo : fin 3 - fin (2 - 1 / 2 ^ 52) = fin (1 + 1 / 2 ^ 52) := by
  rw [sub_fin _ _ (by norm_num), round_of_isBinary64 false
    ⟨2 ^ 52 + 1, -52, by norm_num, by norm_num, by norm_num, by norm_num [abs_lt]⟩ (by norm_num)]
  norm_num

/-- Just below `2` the high index is `3`. -/
theorem axisCell_belowTwo :
    axisCell (fin (2 - 1 / 2 ^ 52)) =
      some ⟨1, 3, fin (1 - 1 / 2 ^ 52), fin (1 + 1 / 2 ^ 52)⟩ := by
  rw [axisCell_eq (2 - 1 / 2 ^ 52) 3 1 3 (by rw [Int.floor_eq_iff]; norm_num) (by decide)
    belowTwo_add_one (by norm_num) (by decide),
    ofInt_one, ofInt_three, belowTwo_sub_one, three_sub_belowTwo]

/-! ## Lemmas: the literals `0.1`, `0.2`, `0.3` -/

theorem ofRat_tenth : ofRat (1 / 10) = fin (3602879701896397 / 2 ^ 55) := by
  unfold ofRat
  rw [round_eq false (-4) 7205759403792794 (by norm_num) (by norm_num [abs_of_pos])
      (by norm_num [abs_of_pos])
      (roundEven_of_lt (by norm_num) (by norm_num))
      (by norm_num [abs_of_pos]) (by norm_num)]
  norm_num

theorem ofRat_two_tenths : ofRat (2 / 10) = fin (3602879701896397 / 2 ^ 54) := by
  unfold ofRat
  rw [round_eq false (-3) 7205759403792794 (by norm_num) (by norm_num [abs_of_pos])
      (by norm_num [abs_of_pos])
      (roundEven_of_lt (by norm_num) (by norm_num))
      (by norm_num [abs_of_pos]) (by norm_num)]
  norm_num

theorem ofRat_three_tenths : ofRat (3 / 10) = fin (5404319552844595 / 2 ^ 54) := by
  unfold ofRat
  rw [round_eq false (-2) 5404319552844595 (by norm_num) (by norm_num [abs_of_pos])
      (by norm_num [abs_of_pos])
      (roundEven_of_lt (by norm_num) (by norm_num))
      (by norm_num [abs_of_pos]) (by norm_num)]
  norm_num

/-- In binary64 arithmetic `(0.3 - 0.1)/0.1` is `2 - 2^-52`. -/
theorem three_tenths_quotient :
    (ofRat (3 / 10) - ofRat (1 / 10)) / ofRat (1 / 10) = fin (2 - 1 / 2 ^ 52) := by
  rw [ofRat_three_tenths, ofRat_tenth, sub_fin _ _ (by norm_num),
    round_of_isBinary64 false (q := 5404319552844595 / 2 ^ 54 - 3602879701896397 / 2 ^ 55)
      ⟨7205759403792793, -55, by norm_num, by norm_num, by norm_num, by norm_num [abs_lt]⟩
      (by norm_num),
    div_fin _ _ (by norm_num),
    round_eq _ 0 (2 ^ 53 - 1) (by norm_num) (by norm_num [abs_of_pos])
      (by norm_num [abs_of_pos])
      (roundEven_of_lt (by norm_num) (by norm_num))
      (by norm_num [abs_of_pos]) (by norm_num)]
  norm_num

/-- In binary64 arithmetic `(0.2 - 0.1)/0.1` is `1`. -/
theorem two_tenths_quotient :
    (ofRat (2 / 10) - ofRat (1 / 10)) / ofRat (1 / 10) = fin 1 := by
  rw [ofRat_two_tenths, ofRat_tenth, sub_fin _ _ (by norm_num),
    round_of_isBinary64 false (q := 3602879701896397 / 2 ^ 54 - 3602879701896397 / 2 ^ 55)
      ⟨3602879701896397, -55, by norm_num, by norm_num, by norm_num, by norm_num [abs_lt]⟩
      (by norm_num),
    div_fin _ _ (by norm_num),
    round_of_isBinary64 _
      (q := (3602879701896397 / 2 ^ 54 - 3602879701896397 / 2 ^ 55) / (3602879701896397 / 2 ^ 55))
      ⟨1, 0, by norm_num, by norm_num, by norm_num, by norm_num [abs_lt]⟩ (by norm_num)]
  norm_num

end fp

namespace fp

/-! ## Lemmas: `setPen` on binary64 values -/

theorem setPenBody_step_fp (gX gY gZ : List Double) {sx sy sz x y z : Nat}
    (hx : x < sx) (hy : y < sy) (hz : z < sz)
    (hX : sx * sy * sz ≤ gX.length) (hY : sx * sy * sz ≤ gY.length)
    (hZ : sx * sy * sz ≤ gZ.length) (st : MultiArray Vector3d × Nat)
    (h : LoopInv gX gY gZ sx sy sz ((x * sy + y) * sz + z) st) :
    ∃ st', setPenBody gX gY gZ x y z st = some st' ∧
      LoopInv gX gY gZ sx sy sz ((x * sy + y) * sz + (z + 1)) st' := by
  obtain ⟨hi, h0, h1, h2, hlen, hdata⟩ := h
  have hlt := offset_lt_of hx hy hz
  have eX : gX[st.2]? = some (gX[st.2]?.getD (fin 0)) := by
    rw [List.getElem?_eq_getElem (by omega)]; rfl
  have eY : gY[st.2]? = some (gY[st.2]?.getD (fin 0)) := by
    rw [List.getElem?_eq_getElem (by omega)]; rfl
  have eZ : gZ[st.2]? = some (gZ[st.2]?.getD (fin 0)) := by
    rw [List.getElem?_eq_getElem (by omega)]; rfl
  have hv : st.1.validIndex x y z = true := by
    rw [MultiArray.validIndex_iff]; omega
  have hoff : st.1.offset x y z = st.2 := by
    simp [MultiArray.offset, h1, h2, hi]
  refine ⟨(⟨st.1.shape0, st.1.shape1, st.1.shape2,
      st.1.data.set st.2 (gradAt gX gY gZ st.2)⟩, st.2 + 1), ?_, ?_⟩
  · unfold setPenBody
    rw [eX, eY, eZ]
    simp [MultiArray.set?, hv, hoff, gradAt]
  · refine ⟨by simp; omega, h0, h1, h2, by simpa using hlen, ?_⟩
    intro j hj
    simp only
    by_cases hji : j = st.2
    · subst hji
      rw [List.getElem?_set_self (by omega)]
    · rw [List.getElem?_set_ne (Ne.symm hji)]
      exact hdata j (by omega)

theorem setPenLoop_total_fp (gX gY gZ : List Double) (sx sy sz : Nat)
    (hX : sx * sy * sz ≤ gX.length) (hY : sx * sy * sz ≤ gY.length)
    (hZ : sx * sy * sz ≤ gZ.length) (grid : MultiArray Vector3d)
    (h0 : grid.shape0 = sx) (h1 : grid.shape1 = sy) (h2 : grid.shape2 = sz)
    (hlen : grid.data.length = sx * sy * sz) :
    ∃ st, setPenLoop gX gY gZ sx sy sz grid = some st ∧
      LoopInv gX gY gZ sx sy sz (sx * sy * sz) st := by
  unfold setPenLoop
  have hz : ∀ x y, x < sx → y < sy → ∀ st, LoopInv gX gY gZ sx sy sz ((x * sy + y) * sz) st →
      ∃ st', (List.range sz).foldlM (fun st z => setPenBody gX gY gZ x y z st) st = some st' ∧
        LoopInv gX gY gZ sx sy sz ((x * sy + (y + 1)) * sz) st' := by
    intro x y hx hy st hst
    have e : (x * sy + (y + 1)) * sz = (x * sy + y) * sz + sz := by ring
    rw [e]
    exact foldlM_range_total _ (fun k => LoopInv gX gY gZ sx sy sz ((x * sy + y) * sz + k)) sz st
      (by simpa using hst)
      (fun k s hk hs => setPenBody_step_fp gX gY gZ hx hy hk hX hY hZ s hs)
  have hy : ∀ x, x < sx → ∀ st, LoopInv gX gY gZ sx sy sz (x * sy * sz) st →
      ∃ st', (List.range sy).foldlM (fun st y =>
          (List.range sz).foldlM (fun st z => setPenBody gX gY gZ x y z st) st) st = some st' ∧
        LoopInv gX gY gZ sx sy sz ((x + 1) * sy * sz) st' := by
    intro x hx st hst
    have e : (x + 1) * sy * sz = (x * sy + sy) * sz := by ring
    rw [e]
    exact foldlM_range_total _ (fun k => LoopInv gX gY gZ sx sy sz ((x * sy + k) * sz)) sy st
      (by simpa using hst)
      (fun k s hk hs => hz x k hx hk s hs)
  exact foldlM_range_total
    (fun st x => (List.range sy).foldlM (fun st y =>
          (List.range sz).foldlM (fun st z => setPenBody gX gY gZ x y z st) st) st)
    (fun k => LoopInv gX gY gZ sx sy sz (k * sy * sz)) sx (grid, 0)
    ⟨by simp, h0, h1, h2, hlen, by simp⟩
    (fun k s hk hs => hy k hk s hs)

/-- Closed form of a successful `setPen` on binary64 values. -/
theorem setPen_eq_nat_fp (self : ObsPen) (start scale : Vector3d) (nx ny nz : Nat)
    (penality gX gY gZ : List Double) (uninit : Vector3d)
    (hx : (nx : Int) ≤ INT_MAX) (hy : (ny : Int) ≤ INT_MAX) (hz : (nz : Int) ≤ INT_MAX)
    (hxy : ((nx * ny : Nat) : Int) ≤ INT_MAX) (hxyz : ((nx * ny * nz : Nat) : Int) ≤ INT_MAX)
    (hp : nx * ny * nz ≤ penality.length) (hX : nx * ny * nz ≤ gX.length)
    (hY : nx * ny * nz ≤ gY.length) (hZ : nx * ny * nz ≤ gZ.length) :
    self.setPen start scale nx ny nz penality gX gY gZ uninit = some
      { pen_ := ⟨nx, ny, nz, penality.take (nx * ny * nz)⟩,
        penGrad_ := ⟨nx, ny, nz, (List.range (nx * ny * nz)).map (gradAt gX gY gZ)⟩,
        start_ := start, scale_ := scale } := by
  obtain ⟨st, hst, -, s0, s1, s2, slen, sdata⟩ := setPenLoop_total_fp gX gY gZ nx ny nz hX hY hZ
    (self.penGrad_.resize uninit nx ny nz) rfl rfl rfl (by simp)
  have hgrid : st.1 = ⟨nx, ny, nz, (List.range (nx * ny * nz)).map (gradAt gX gY gZ)⟩ := by
    have hd : st.1.data = (List.range (nx * ny * nz)).map (gradAt gX gY gZ) := by
      apply List.ext_getElem?
      intro j
      by_cases hj : j < nx * ny * nz
      · rw [sdata j hj, List.getElem?_map, List.getElem?_range hj]; rfl
      · rw [List.getElem?_eq_none (by omega), List.getElem?_eq_none (by simp; omega)]
    cases hs : st.1 with
    | mk a b c d =>
      rw [hs] at s0 s1 s2 hd
      simp only at s0 s1 s2 hd
      subst s0 s1 s2 hd
      rfl
  have hmem : memcpyDoubles (self.pen_.resize (fin 0) nx ny nz).data penality (nx * ny * nz)
      = some (penality.take (nx * ny * nz)) := by
    unfold memcpyDoubles
    rw [if_pos ⟨hp, by simp⟩, List.drop_of_length_le (by simp)]
    simp
  unfold ObsPen.setPen
  rw [if_pos ⟨isInt_natCast hx, isInt_natCast hy, isInt_natCast hz, by omega, by omega, by omega⟩]
  simp only [Option.bind_eq_bind, imul_natCast hx hy hxy, Option.some_bind,
    imul_natCast (by exact_mod_cast hxy) hz hxyz, Int.toNat_ofNat, hmem, hst,
    Option.pure_def, hgrid]
  rfl

/-- The field that `setPen` loads from 27 copies of one penalty value and 27
copies of one gradient component. -/
theorem setPen_const (self : ObsPen) (start scale : Vector3d) (v g : Double)
    (uninit : Vector3d) :
    self.setPen start scale 3 3 3 (List.replicate 27 v) (List.replicate 27 g)
      (List.replicate 27 g) (List.replicate 27 g) uninit =
      some ⟨constGrid v, constGrid ⟨g, g, g⟩, start, scale⟩ := by
  have h := setPen_eq_nat_fp self start scale 3 3 3 (List.replicate 27 v)
    (List.replicate 27 g) (List.replicate 27 g) (List.replicate 27 g) uninit
    (by decide) (by decide) (by decide) (by decide) (by decide)
    (by simp) (by simp) (by simp) (by simp)
  rw [show ((3 : Nat) : Int) = 3 from rfl] at h
  rw [h]
  rfl

end fp

namespace fp

/-! ## Lemmas: further coordinates inside the first cell -/

theorem isBinary64_two : IsBinary64 (fin 2) := by
  simpa using isBinary64_intCast 2 (by norm_num)

theorem isBinary64_w : IsBinary64 (fin (1 - 1 / 2 ^ 52)) :=
  ⟨2 ^ 53 - 2, -53, by norm_num, by norm_num, by norm_num, by norm_num [abs_lt]⟩

theorem isBinary64_u3 : IsBinary64 (fin (1 - 3 / 2 ^ 53)) :=
  ⟨2 ^ 53 - 3, -53, by norm_num, by norm_num, by norm_num, by norm_num [abs_lt]⟩

theorem isBinary64_tiny : IsBinary64 (fin (1 / 2 ^ 70)) :=
  ⟨1, -70, by norm_num, by norm_num, by norm_num, by norm_num [abs_lt]⟩

theorem inBound_w : inBound (fin (1 - 1 / 2 ^ 52)) 3 = true := by
  rw [inBound_fin _ (by norm_num) (by norm_num)]; norm_num

theorem inBound_u3 : inBound (fin (1 - 3 / 2 ^ 53)) 3 = true := by
  rw [inBound_fin _ (by norm_num) (by norm_num)]; norm_num

theorem inBound_tiny : inBound (fin (1 / 2 ^ 70)) 3 = true := by
  rw [inBound_fin _ (by norm_num) (by norm_num)]; norm_num

theorem inBound_zero : inBound (fin 0) 3 = false := by
  rw [inBound_fin _ (by norm_num) (by norm_num)]; norm_num

/-- Two units in the last place below `1` the sum `x + 1.` is exact. -/
theorem axisCell_w :
    axisCell (fin (1 - 1 / 2 ^ 52)) = some ⟨0, 1, fin (1 - 1 / 2 ^ 52), fin (1 / 2 ^ 52)⟩ := by
  have hs : fin (1 - 1 / 2 ^ 52) + fin 1 = fin (2 - 1 / 2 ^ 52) := by
    rw [add_def, add_fin, round_of_isBinary64 false (q := 1 - 1 / 2 ^ 52 + 1)
      ⟨2 ^ 53 - 1, -52, by norm_num, by norm_num, by norm_num, by norm_num [abs_lt]⟩
      (by norm_num)]
    norm_num
  have hd : fin 1 - fin (1 - 1 / 2 ^ 52) = fin (1 / 2 ^ 52) := by
    rw [sub_fin _ _ (by norm_num), round_of_isBinary64 false (q := 1 - (1 - 1 / 2 ^ 52))
      ⟨1, -52, by norm_num, by norm_num, by norm_num, by norm_num [abs_lt]⟩ (by norm_num)]
    norm_num
  rw [axisCell_eq (1 - 1 / 2 ^ 52) (2 - 1 / 2 ^ 52) 0 1 (by rw [Int.floor_eq_iff]; norm_num)
    (by decide) hs (by rw [Int.floor_eq_iff]; norm_num) (by decide),
    ofInt_zero, sub_fin_zero, ofInt_one, hd]

/-- Three units in the last place below `1` the sum `x + 1.` is a tie and rounds
down, to `2 - 2^-51`. -/
theorem axisCell_u3 :
    axisCell (fin (1 - 3 / 2 ^ 53)) = some ⟨0, 1, fin (1 - 3 / 2 ^ 53), fin (3 / 2 ^ 53)⟩ := by
  have hs : fin (1 - 3 / 2 ^ 53) + fin 1 = fin (2 - 1 / 2 ^ 51) := by
    rw [add_def, add_fin,
      round_eq false 0 (2 ^ 53 - 2) (by norm_num) (by norm_num [abs_of_pos])
        (by norm_num [abs_of_pos])
        (by rw [roundEven_tie (n := 2 ^ 53 - 2) (by norm_num)]; norm_num)
        (by norm_num [abs_of_pos]) (by norm_num)]
    norm_num
  have hd : fin 1 - fin (1 - 3 / 2 ^ 53) = fin (3 / 2 ^ 53) := by
    rw [sub_fin _ _ (by norm_num), round_of_isBinary64 false (q := 1 - (1 - 3 / 2 ^ 53))
      ⟨3, -53, by norm_num, by norm_num, by norm_num, by norm_num [abs_lt]⟩ (by norm_num)]
    norm_num
  rw [axisCell_eq (1 - 3 / 2 ^ 53) (2 - 1 / 2 ^ 51) 0 1 (by rw [Int.floor_eq_iff]; norm_num)
    (by decide) hs (by rw [Int.floor_eq_iff]; norm_num) (by decide),
    ofInt_zero, sub_fin_zero, ofInt_one, hd]

/-- The sum `1 + 2^-70` rounds to `1`. -/
theorem one_add_tiny : add (fin 1) (fin (1 / 2 ^ 70)) = fin 1 := by
  rw [add_fin,
    round_eq false 0 (2 ^ 52) (by norm_num) (by norm_num [abs_of_pos])
      (by norm_num [abs_of_pos]) (roundEven_of_lt (by norm_num) (by norm_num))
      (by norm_num [abs_of_pos]) (by norm_num)]
  norm_num

theorem tiny_add_one : fin (1 / 2 ^ 70) + fin 1 = fin 1 := by
  rw [add_def, add_fin,
    round_eq false 0 (2 ^ 52) (by norm_num) (by norm_num [abs_of_pos])
      (by norm_num [abs_of_pos]) (roundEven_of_lt (by norm_num) (by norm_num))
      (by norm_num [abs_of_pos]) (by norm_num)]
  norm_num

/-- The difference `1 - 2^-70` rounds to `1`. -/
theorem one_sub_tiny : fin 1 - fin (1 / 2 ^ 70) = fin 1 := by
  rw [sub_fin _ _ (by norm_num),
    round_eq false (-1) (2 ^ 53) (by norm_num) (by norm_num [abs_of_pos])
      (by norm_num [abs_of_pos]) (roundEven_of_lt (by norm_num) (by norm_num))
      (by norm_num [abs_of_pos]) (by norm_num)]
  norm_num

theorem axisCell_tiny :
    axisCell (fin (1 / 2 ^ 70)) = some ⟨0, 1, fin (1 / 2 ^ 70), fin 1⟩ := by
  rw [axisCell_eq (1 / 2 ^ 70) 1 0 1 (by rw [Int.floor_eq_iff]; norm_num)
    (by decide) tiny_add_one (by norm_num) (by decide),
    ofInt_zero, sub_fin_zero, ofInt_one, one_sub_tiny]

end fp

namespace fp

theorem constGrid_get_int {T : Type} (c : T) {x y z : Int} (hx : 0 ≤ x ∧ x < 3)
    (hy : 0 ≤ y ∧ y < 3) (hz : 0 ≤ z ∧ z < 3) : (constGrid c).get? x y z = some c := by
  lift x to ℕ using hx.1 with i
  lift y to ℕ using hy.1 with j
  lift z to ℕ using hz.1 with k
  exact constGrid_get c (by omega) (by omega) (by omega)

/-- On a grid of equal samples the result is the nested blend of that sample. -/
theorem interpolate3d_constGrid {T : Type} [Sample T] (c : T) (p : Vector3d)
    (cx cy cz : AxisCell)
    (bx : inBound p.x 3 = true) (bY : inBound p.y 3 = true) (bz : inBound p.z 3 = true)
    (hx : axisCell p.x = some cx) (hy : axisCell p.y = some cy) (hz : axisCell p.z = some cz)
    (ix : (0 ≤ cx.a0 ∧ cx.a0 < 3) ∧ (0 ≤ cx.a1 ∧ cx.a1 < 3))
    (iy : (0 ≤ cy.a0 ∧ cy.a0 < 3) ∧ (0 ≤ cy.a1 ∧ cy.a1 < 3))
    (iz : (0 ≤ cz.a0 ∧ cz.a0 < 3) ∧ (0 ≤ cz.a1 ∧ cz.a1 < 3)) :
    interpolate3d (constGrid c) p = some
      (Sample.add
        (Sample.scale cz.dm (Sample.add
          (Sample.scale cy.dm (Sample.add (Sample.scale cx.dm c) (Sample.scale cx.d c)))
          (Sample.scale cy.d (Sample.add (Sample.scale cx.dm c) (Sample.scale cx.d c)))))
        (Sample.scale cz.d (Sample.add
          (Sample.scale cy.dm (Sample.add (Sample.scale cx.dm c) (Sample.scale cx.d c)))
          (Sample.scale cy.d (Sample.add (Sample.scale cx.dm c) (Sample.scale cx.d c)))))) :=
  interpolate3d_eval_fp (constGrid c) p cx cy cz c c c c c c c c bx bY bz hx hy hz
    (constGrid_get_int c ix.1 iy.1 iz.1) (constGrid_get_int c ix.2 iy.1 iz.1)
    (constGrid_get_int c ix.1 iy.2 iz.1) (constGrid_get_int c ix.2 iy.2 iz.1)
    (constGrid_get_int c ix.1 iy.1 iz.2) (constGrid_get_int c ix.2 iy.1 iz.2)
    (constGrid_get_int c ix.1 iy.2 iz.2) (constGrid_get_int c ix.2 iy.2 iz.2)

theorem sample_add_vec (a b : Vector3d) :
    Sample.add a b = (⟨Double.add a.x b.x, Double.add a.y b.y, Double.add a.z b.z⟩ : Vector3d) :=
  rfl

theorem sample_scale_vec (w : Double) (a : Vector3d) :
    Sample.scale w a = (⟨Double.mul w a.x, Double.mul w a.y, Double.mul w a.z⟩ : Vector3d) :=
  rfl

theorem sample_zero_vec : (Sample.zero : Vector3d) = ⟨fin 0, fin 0, fin 0⟩ := rfl

/-- The sum `2^-52 + (1 - 2^-52)` is exactly `1`. -/
theorem ulp_add_w : add (fin (1 / 2 ^ 52)) (fin (1 - 1 / 2 ^ 52)) = fin 1 := by
  rw [add_fin, round_of_isBinary64 false (q := 1 / 2 ^ 52 + (1 - 1 / 2 ^ 52))
    ⟨1, 0, by norm_num, by norm_num, by norm_num, by norm_num [abs_lt]⟩ (by norm_num)]
  norm_num

theorem three_ulp_add_u3 : add (fin (3 / 2 ^ 53)) (fin (1 - 3 / 2 ^ 53)) = fin 1 := by
  rw [add_fin, round_of_isBinary64 false (q := 3 / 2 ^ 53 + (1 - 3 / 2 ^ 53))
    ⟨1, 0, by norm_num, by norm_num, by norm_num, by norm_num [abs_lt]⟩ (by norm_num)]
  norm_num

theorem isBinary64_ulp : IsBinary64 (fin (1 / 2 ^ 52)) :=
  ⟨1, -52, by norm_num, by norm_num, by norm_num, by norm_num [abs_lt]⟩

theorem isBinary64_three_ulp : IsBinary64 (fin (3 / 2 ^ 53)) :=
  ⟨3, -53, by norm_num, by norm_num, by norm_num, by norm_num [abs_lt]⟩

/-- On the grid of ones, at the grid node `(1, 1, 1)`: the value is `1`. -/
theorem interpolate3d_ones_node :
    interpolate3d (constGrid (fin 1)) ⟨fin 1, fin 1, fin 1⟩ = some (fin 1) := by
  rw [interpolate3d_constGrid (fin 1) ⟨fin 1, fin 1, fin 1⟩ _ _ _ inBound_one inBound_one
    inBound_one axisCell_one axisCell_one axisCell_one (by norm_num) (by norm_num) (by norm_num)]
  simp only [sample_add, sample_scale, one_mul_of_isBinary64 isBinary64_one,
    zero_mul_fin (q := 1) (by norm_num), add_fin_zero isBinary64_one]

/-- On the grid of ones, just below the face `y = 1`: the value is `2`. -/
theorem interpolate3d_ones_belowOne_y :
    interpolate3d (constGrid (fin 1)) ⟨fin 1, fin (1 - 1 / 2 ^ 53), fin 1⟩ = some (fin 2) := by
  rw [interpolate3d_constGrid (fin 1) ⟨fin 1, fin (1 - 1 / 2 ^ 53), fin 1⟩ _ _ _ inBound_one
    inBound_belowOne inBound_one axisCell_one axisCell_belowOne axisCell_one
    (by norm_num) (by norm_num) (by norm_num)]
  simp only [sample_add, sample_scale, one_mul_of_isBinary64 isBinary64_one,
    zero_mul_fin (q := 1) (by norm_num), add_fin_zero isBinary64_one,
    mul_one_of_isBinary64 isBinary64_belowOne, one_add_belowOne,
    one_mul_of_isBinary64 isBinary64_two, zero_mul_fin (q := 2) (by norm_num),
    add_fin_zero isBinary64_two]

/-- On the grid of ones, just below the face `z = 1`: the value is `2`. -/
theorem interpolate3d_ones_belowOne_z :
    interpolate3d (constGrid (fin 1)) ⟨fin 1, fin 1, fin (1 - 1 / 2 ^ 53)⟩ = some (fin 2) := by
  rw [interpolate3d_constGrid (fin 1) ⟨fin 1, fin 1, fin (1 - 1 / 2 ^ 53)⟩ _ _ _ inBound_one
    inBound_one inBound_belowOne axisCell_one axisCell_one axisCell_belowOne
    (by norm_num) (by norm_num) (by norm_num)]
  simp only [sample_add, sample_scale, one_mul_of_isBinary64 isBinary64_one,
    zero_mul_fin (q := 1) (by norm_num), add_fin_zero isBinary64_one,
    mul_one_of_isBinary64 isBinary64_belowOne, one_add_belowOne]

/-- On the grid of ones, two units in the last place below the face `y = 1`:
the value is `1`. -/
theorem interpolate3d_ones_w_y :
    interpolate3d (constGrid (fin 1)) ⟨fin 1, fin (1 - 1 / 2 ^ 52), fin 1⟩ = some (fin 1) := by
  rw [interpolate3d_constGrid (fin 1) ⟨fin 1, fin (1 - 1 / 2 ^ 52), fin 1⟩ _ _ _ inBound_one
    inBound_w inBound_one axisCell_one axisCell_w axisCell_one
    (by norm_num) (by norm_num) (by norm_num)]
  simp only [sample_add, sample_scale, one_mul_of_isBinary64 isBinary64_one,
    zero_mul_fin (q := 1) (by norm_num), add_fin_zero isBinary64_one,
    mul_one_of_isBinary64 isBinary64_w, mul_one_of_isBinary64 isBinary64_ulp, ulp_add_w]

/-- On the grid of ones, two units in the last place below the face `x = 1`:
the value is `1`. -/
theorem interpolate3d_ones_w_x :
    interpolate3d (constGrid (fin 1)) ⟨fin (1 - 1 / 2 ^ 52), fin 1, fin 1⟩ = some (fin 1) := by
  rw [interpolate3d_constGrid (fin 1) ⟨fin (1 - 1 / 2 ^ 52), fin 1, fin 1⟩ _ _ _ inBound_w
    inBound_one inBound_one axisCell_w axisCell_one axisCell_one
    (by norm_num) (by norm_num) (by norm_num)]
  simp only [sample_add, sample_scale, one_mul_of_isBinary64 isBinary64_one,
    zero_mul_fin (q := 1) (by norm_num), add_fin_zero isBinary64_one,
    mul_one_of_isBinary64 isBinary64_w, mul_one_of_isBinary64 isBinary64_ulp, ulp_add_w]

/-- On the grid of ones, three units in the last place below the face `x = 1`:
the value is `1`. -/
theorem interpolate3d_ones_u3_x :
    interpolate3d (constGrid (fin 1)) ⟨fin (1 - 3 / 2 ^ 53), fin 1, fin 1⟩ = some (fin 1) := by
  rw [interpolate3d_constGrid (fin 1) ⟨fin (1 - 3 / 2 ^ 53), fin 1, fin 1⟩ _ _ _ inBound_u3
    inBound_one inBound_one axisCell_u3 axisCell_one axisCell_one
    (by norm_num) (by norm_num) (by norm_num)]
  simp only [sample_add, sample_scale, one_mul_of_isBinary64 isBinary64_one,
    zero_mul_fin (q := 1) (by norm_num), add_fin_zero isBinary64_one,
    mul_one_of_isBinary64 isBinary64_u3, mul_one_of_isBinary64 isBinary64_three_ulp,
    three_ulp_add_u3]

/-- On the grid of ones at `x = 2^-70`: the value is `1`. -/
theorem interpolate3d_ones_tiny :
    interpolate3d (constGrid (fin 1)) ⟨fin (1 / 2 ^ 70), fin 1, fin 1⟩ = some (fin 1) := by
  rw [interpolate3d_constGrid (fin 1) ⟨fin (1 / 2 ^ 70), fin 1, fin 1⟩ _ _ _ inBound_tiny
    inBound_one inBound_one axisCell_tiny axisCell_one axisCell_one
    (by norm_num) (by norm_num) (by norm_num)]
  simp only [sample_add, sample_scale, one_mul_of_isBinary64 isBinary64_one,
    zero_mul_fin (q := 1) (by norm_num), add_fin_zero isBinary64_one,
    mul_one_of_isBinary64 isBinary64_tiny, one_add_tiny]

/-- On the vector grid of ones at `x = 2^-70`: the value is `(1, 1, 1)`. -/
theorem interpolate3d_vec_ones_tiny :
    interpolate3d (constGrid (⟨fin 1, fin 1, fin 1⟩ : Vector3d))
      ⟨fin (1 / 2 ^ 70), fin 1, fin 1⟩ = some ⟨fin 1, fin 1, fin 1⟩ := by
  rw [interpolate3d_constGrid _ ⟨fin (1 / 2 ^ 70), fin 1, fin 1⟩ _ _ _ inBound_tiny
    inBound_one inBound_one axisCell_tiny axisCell_one axisCell_one
    (by norm_num) (by norm_num) (by norm_num)]
  simp only [sample_add_vec, sample_scale_vec, one_mul_of_isBinary64 isBinary64_one,
    zero_mul_fin (q := 1) (by norm_num), add_fin_zero isBinary64_one,
    mul_one_of_isBinary64 isBinary64_tiny, one_add_tiny]

end fp

namespace fp

/-- C6 (failing input): the in-bounds coordinate `(1 - 2^-53, 1, 1)` on a grid
of extents `3 x 3 x 3`. The sum `x + 1.` rounds to `2`, so `interpolate3d`
pairs the indices `x0 = 0`, `x1 = 2` with the weights `xd = 1 - 2^-53` and
`xdm = 1`. Each of the 8 products lies in `[0, 1]`, but their sum is
`2 - 2^-53`, not `1`: the corner `[0][1][1]` alone has weight `1` and the corner
`[2][1][1]` has weight `1 - 2^-53`, and the interpolated value of the grid of
ones is `2`. -/
theorem interpolate3d_weights_sum_two :
    IsBinary64 (fin (1 - 1 / 2 ^ 53)) ∧
    (inBound (fin (1 - 1 / 2 ^ 53)) 3 = true ∧ inBound (fin 1) 3 = true) ∧
    (∃ cx cy cz : AxisCell,
      axisCell (fin (1 - 1 / 2 ^ 53)) = some cx ∧ axisCell (fin 1) = some cy ∧
      axisCell (fin 1) = some cz ∧
      cx.dm.toRat * cy.dm.toRat * cz.dm.toRat + cx.d.toRat * cy.dm.toRat * cz.dm.toRat +
        cx.dm.toRat * cy.d.toRat * cz.dm.toRat + cx.d.toRat * cy.d.toRat * cz.dm.toRat +
        cx.dm.toRat * cy.dm.toRat * cz.d.toRat + cx.d.toRat * cy.dm.toRat * cz.d.toRat +
        cx.dm.toRat * cy.d.toRat * cz.d.toRat + cx.d.toRat * cy.d.toRat * cz.d.toRat
        = 2 - 1 / 2 ^ 53) ∧
    interpolate3d (unitGrid 0 1 1) ⟨fin (1 - 1 / 2 ^ 53), fin 1, fin 1⟩ = some (fin 1) ∧
    interpolate3d (unitGrid 2 1 1) ⟨fin (1 - 1 / 2 ^ 53), fin 1, fin 1⟩ =
      some (fin (1 - 1 / 2 ^ 53)) ∧
    interpolate3d (constGrid (fin 1)) ⟨fin (1 - 1 / 2 ^ 53), fin 1, fin 1⟩ = some (fin 2) := by
  refine ⟨isBinary64_belowOne, ⟨inBound_belowOne, inBound_one⟩,
    ⟨_, _, _, axisCell_belowOne, axisCell_one, axisCell_one, ?_⟩,
    interpolate3d_unit_low, interpolate3d_unit_high, interpolate3d_ones_belowOne_x⟩
  norm_num [toRat]

/-- C9 (failing input): the coordinate `(2 - 2^-52, 1, 1)` on any grid of
extents `3 x 3 x 3`. It passes the bounds test (`0 < x < 2`), but `x + 1.`
rounds to `3`, so `x1 = int(std::floor(x + 1.))` is `3 > size - 1 = 2` and the
read `array[x1][y0][z0]` is outside the grid: the call is undefined. The
coordinate is what `pointToArray` computes for the world point
`(0.3, 0.2, 0.2)` with start and scale `0.1`, so `penality` reaches it. -/
theorem interpolate3d_index_past_end :
    IsBinary64 (fin (2 - 1 / 2 ^ 52)) ∧
    (inBound (fin (2 - 1 / 2 ^ 52)) 3 = true ∧ inBound (fin 1) 3 = true) ∧
    axisCell (fin (2 - 1 / 2 ^ 52)) =
      some ⟨1, 3, fin (1 - 1 / 2 ^ 52), fin (1 + 1 / 2 ^ 52)⟩ ∧
    (∀ a : MultiArray Double, a.shape0 = 3 → a.shape1 = 3 → a.shape2 = 3 →
      interpolate3d a ⟨fin (2 - 1 / 2 ^ 52), fin 1, fin 1⟩ = none) ∧
    (∀ a : MultiArray Vector3d, a.shape0 = 3 → a.shape1 = 3 → a.shape2 = 3 →
      interpolate3d a ⟨fin (2 - 1 / 2 ^ 52), fin 1, fin 1⟩ = none) ∧
    pointToArray ⟨ofRat (3 / 10), ofRat (2 / 10), ofRat (2 / 10)⟩
        ⟨ofRat (1 / 10), ofRat (1 / 10), ofRat (1 / 10)⟩
        ⟨ofRat (1 / 10), ofRat (1 / 10), ofRat (1 / 10)⟩ =
      ⟨fin (2 - 1 / 2 ^ 52), fin 1, fin 1⟩ ∧
    ∀ (self : ObsPen) (v g : Double) (uninit : Vector3d), ∃ f,
      self.setPen ⟨ofRat (1 / 10), ofRat (1 / 10), ofRat (1 / 10)⟩
        ⟨ofRat (1 / 10), ofRat (1 / 10), ofRat (1 / 10)⟩ 3 3 3
        (List.replicate 27 v) (List.replicate 27 g) (List.replicate 27 g)
        (List.replicate 27 g) uninit = some f ∧
      f.penality ⟨ofRat (3 / 10), ofRat (2 / 10), ofRat (2 / 10)⟩ = none ∧
      f.penalityGrad ⟨ofRat (3 / 10), ofRat (2 / 10), ofRat (2 / 10)⟩ = none := by
  have key : ∀ {T : Type} [Sample T] (a : MultiArray T), a.shape0 = 3 → a.shape1 = 3 →
      a.shape2 = 3 → interpolate3d a ⟨fin (2 - 1 / 2 ^ 52), fin 1, fin 1⟩ = none := by
    intro T _ a h0 h1 h2
    exact interpolate3d_none a _ _ _ _ (by rw [h0]; exact inBound_belowTwo)
      (by rw [h1]; exact inBound_one) (by rw [h2]; exact inBound_one)
      axisCell_belowTwo axisCell_one axisCell_one (by rw [h0]; norm_num)
  have hp : pointToArray ⟨ofRat (3 / 10), ofRat (2 / 10), ofRat (2 / 10)⟩
        ⟨ofRat (1 / 10), ofRat (1 / 10), ofRat (1 / 10)⟩
        ⟨ofRat (1 / 10), ofRat (1 / 10), ofRat (1 / 10)⟩ =
      ⟨fin (2 - 1 / 2 ^ 52), fin 1, fin 1⟩ := by
    unfold pointToArray
    simp only [three_tenths_quotient, two_tenths_quotient]
  refine ⟨isBinary64_belowTwo, ⟨inBound_belowTwo, inBound_one⟩, axisCell_belowTwo,
    fun a => key a, fun a => key a, hp, ?_⟩
  intro self v g uninit
  refine ⟨_, setPen_const self _ _ v g uninit, ?_, ?_⟩
  · unfold ObsPen.penality
    rw [hp]
    exact key _ rfl rfl rfl
  · unfold ObsPen.penalityGrad
    rw [hp]
    exact key _ rfl rfl rfl

/-- C15 (failing input): the coordinate values `v = 1 - 2^-53` and
`v = 2 - 2^-52`. At the first the code computes `a0 = 0` and `a1 = 2`, with
`d = 1 - 2^-53` and `dm = 1`; at the second `a0 = 1` and `a1 = 3`, with
`d = 1 - 2^-52` and `dm = 1 + 2^-52`. So `a1 = a0 + 2`, `d + dm` is about `2`
and, at the second value, `dm` exceeds `1`. -/
theorem axisCell_high_index_skips :
    (IsBinary64 (fin (1 - 1 / 2 ^ 53)) ∧ IsBinary64 (fin (2 - 1 / 2 ^ 52))) ∧
    (∃ c, axisCell (fin (1 - 1 / 2 ^ 53)) = some c ∧ c.a0 = 0 ∧ c.a1 = c.a0 + 2 ∧
      c.d = fin (1 - 1 / 2 ^ 53) ∧ c.dm = fin 1 ∧ c.d.toRat + c.dm.toRat = 2 - 1 / 2 ^ 53 ∧
      c.d + c.dm = fin 2) ∧
    (∃ c, axisCell (fin (2 - 1 / 2 ^ 52)) = some c ∧ c.a0 = 1 ∧ c.a1 = c.a0 + 2 ∧
      c.d = fin (1 - 1 / 2 ^ 52) ∧ c.dm = fin (1 + 1 / 2 ^ 52) ∧
      c.d.toRat + c.dm.toRat = 2 ∧ 1 < c.dm.toRat) := by
  refine ⟨⟨isBinary64_belowOne, isBinary64_belowTwo⟩,
    ⟨_, axisCell_belowOne, rfl, rfl, rfl, rfl, by norm_num [toRat], ?_⟩,
    ⟨_, axisCell_belowTwo, rfl, rfl, rfl, rfl, by norm_num [toRat], by norm_num [toRat]⟩⟩
  exact belowOne_add_one

end fp

namespace Double

theorem div_one_of_isBinary64 {q : ℚ} (h : IsBinary64 (fin q)) : fin q / fin 1 = fin q := by
  rw [div_fin _ _ (by norm_num), div_one]
  by_cases h0 : q = 0
  · subst h0; simpa using round_zero false
  · exact round_of_isBinary64 _ h h0

end Double

namespace fp

/-- With start `(0, 0, 0)` and scale `(1, 1, 1)` a point of finite binary64
coordinates is mapped to itself. -/
theorem pointToArray_unit_fp {a b c : ℚ} (ha : IsBinary64 (fin a)) (hb : IsBinary64 (fin b))
    (hc : IsBinary64 (fin c)) :
    pointToArray ⟨fin a, fin b, fin c⟩ ⟨fin 0, fin 0, fin 0⟩ ⟨fin 1, fin 1, fin 1⟩ =
      ⟨fin a, fin b, fin c⟩ := by
  unfold pointToArray
  simp only [sub_fin_zero, div_one_of_isBinary64 ha, div_one_of_isBinary64 hb,
    div_one_of_isBinary64 hc]

/-- C16 (failing input): the grid of extents `3 x 3 x 3` whose samples all are
`1`, at `(1, 1 - 2^-53, 1)`, the last coordinate before the cell face `y = 1`.
At the face the value is `1` (computed from the cell `[1, 2]` with `d = 0`),
and two units in the last place below the face it is `1`, but at the last
`double` below the face the code pairs the indices `0` and `2` with weights
`1` and `1 - 2^-53` and returns `2`: the values computed as `d` tends to `1` do
not tend to the value at the face. -/
theorem interpolate3d_jump_below_face :
    (IsBinary64 (fin (1 - 1 / 2 ^ 52)) ∧ IsBinary64 (fin (1 - 1 / 2 ^ 53))) ∧
    (inBound (fin (1 - 1 / 2 ^ 52)) 3 = true ∧ inBound (fin (1 - 1 / 2 ^ 53)) 3 = true ∧
      inBound (fin 1) 3 = true) ∧
    interpolate3d (constGrid (fin 1)) ⟨fin 1, fin (1 - 1 / 2 ^ 52), fin 1⟩ = some (fin 1) ∧
    interpolate3d (constGrid (fin 1)) ⟨fin 1, fin (1 - 1 / 2 ^ 53), fin 1⟩ = some (fin 2) ∧
    interpolate3d (constGrid (fin 1)) ⟨fin 1, fin 1, fin 1⟩ = some (fin 1) :=
  ⟨⟨isBinary64_w, isBinary64_belowOne⟩, ⟨inBound_w, inBound_belowOne, inBound_one⟩,
    interpolate3d_ones_w_y, interpolate3d_ones_belowOne_y, interpolate3d_ones_node⟩

/-- C17 (failing input): the grid of ones of extents `3 x 3 x 3`, the
coordinates `u = (1 - 3*2^-53, 1, 1)` and `u' = (1 - 2^-53, 1, 1)`, which are
in bounds, have the same floor on every axis and differ on the x axis only, and
`t = 1/2`. The combination `t*u + (1-t)*u'` is `(1 - 2^-52, 1, 1)`, computed
without rounding. The code returns `1` at `u`, `2` at `u'` and `1` at the
combination, but `t*1 + (1-t)*2` is `3/2`. -/
theorem interpolate3d_not_affine_in_cell :
    (IsBinary64 (fin (1 - 3 / 2 ^ 53)) ∧ IsBinary64 (fin (1 - 1 / 2 ^ 53))) ∧
    (inBound (fin (1 - 3 / 2 ^ 53)) 3 = true ∧ inBound (fin (1 - 1 / 2 ^ 53)) 3 = true ∧
      inBound (fin 1) 3 = true) ∧
    (Double.floor (fin (1 - 3 / 2 ^ 53)) = Double.floor (fin (1 - 1 / 2 ^ 53))) ∧
    (fin 1 - fin (1 / 2) = fin (1 / 2)) ∧
    ((⟨fin (1 / 2) * fin (1 - 3 / 2 ^ 53) + fin (1 / 2) * fin (1 - 1 / 2 ^ 53),
       fin (1 / 2) * fin 1 + fin (1 / 2) * fin 1,
       fin (1 / 2) * fin 1 + fin (1 / 2) * fin 1⟩ : Vector3d) =
      ⟨fin (1 - 1 / 2 ^ 52), fin 1, fin 1⟩) ∧
    interpolate3d (constGrid (fin 1)) ⟨fin (1 - 3 / 2 ^ 53), fin 1, fin 1⟩ = some (fin 1) ∧
    interpolate3d (constGrid (fin 1)) ⟨fin (1 - 1 / 2 ^ 53), fin 1, fin 1⟩ = some (fin 2) ∧
    interpolate3d (constGrid (fin 1)) ⟨fin (1 - 1 / 2 ^ 52), fin 1, fin 1⟩ = some (fin 1) ∧
    fin (1 / 2) * fin 1 + fin (1 / 2) * fin 2 = fin (3 / 2) ∧
    fin (3 / 2) ≠ fin 1 := by
  have hhalf : IsBinary64 (fin (1 / 2)) :=
    ⟨1, -1, by norm_num, by norm_num, by norm_num, by norm_num [abs_lt]⟩
  have m1 : fin (1 / 2) * fin (1 - 3 / 2 ^ 53) = fin (1 / 2 - 3 / 2 ^ 54) := by
    rw [mul_def, mul_fin, round_of_isBinary64 _ (q := 1 / 2 * (1 - 3 / 2 ^ 53))
      ⟨2 ^ 53 - 3, -54, by norm_num, by norm_num, by norm_num, by norm_num [abs_lt]⟩
      (by norm_num)]
    norm_num
  have m2 : fin (1 / 2) * fin (1 - 1 / 2 ^ 53) = fin (1 / 2 - 1 / 2 ^ 54) := by
    rw [mul_def, mul_fin, round_of_isBinary64 _ (q := 1 / 2 * (1 - 1 / 2 ^ 53))
      ⟨2 ^ 53 - 1, -54, by norm_num, by norm_num, by norm_num, by norm_num [abs_lt]⟩
      (by norm_num)]
    norm_num
  have m3 : fin (1 / 2 - 3 / 2 ^ 54) + fin (1 / 2 - 1 / 2 ^ 54) = fin (1 - 1 / 2 ^ 52) := by
    rw [add_def, add_fin, round_of_isBinary64 _ (q := 1 / 2 - 3 / 2 ^ 54 + (1 / 2 - 1 / 2 ^ 54))
      ⟨2 ^ 53 - 2, -53, by norm_num, by norm_num, by norm_num, by norm_num [abs_lt]⟩
      (by norm_num)]
    norm_num
  have m4 : fin (1 / 2) * fin 1 = fin (1 / 2) := mul_one_of_isBinary64 hhalf
  have m5 : fin (1 / 2) + fin (1 / 2) = fin 1 := by
    rw [add_def, add_fin, round_of_isBinary64 _ (q := 1 / 2 + 1 / 2)
      ⟨1, 0, by norm_num, by norm_num, by norm_num, by norm_num [abs_lt]⟩ (by norm_num)]
    norm_num
  have m6 : fin (1 / 2) * fin 2 = fin 1 := by
    rw [mul_def, mul_fin, round_of_isBinary64 _ (q := 1 / 2 * 2)
      ⟨1, 0, by norm_num, by norm_num, by norm_num, by norm_num [abs_lt]⟩ (by norm_num)]
    norm_num
  have m7 : fin (1 / 2) + fin 1 = fin (3 / 2) := by
    rw [add_def, add_fin, round_of_isBinary64 _ (q := 1 / 2 + 1)
      ⟨3, -1, by norm_num, by norm_num, by norm_num, by norm_num [abs_lt]⟩ (by norm_num)]
    norm_num
  have m8 : fin 1 - fin (1 / 2) = fin (1 / 2) := by
    rw [sub_fin _ _ (by norm_num), round_of_isBinary64 _ (q := 1 - 1 / 2)
      ⟨1, -1, by norm_num, by norm_num, by norm_num, by norm_num [abs_lt]⟩ (by norm_num)]
    norm_num
  refine ⟨⟨isBinary64_u3, isBinary64_belowOne⟩, ⟨inBound_u3, inBound_belowOne, inBound_one⟩,
    ?_, m8, ?_, interpolate3d_ones_u3_x, interpolate3d_ones_belowOne_x, interpolate3d_ones_w_x,
    ?_, ?_⟩
  · rw [floor_fin, floor_fin]
    have e1 : ⌊(1 - 3 / 2 ^ 53 : ℚ)⌋ = 0 := by rw [Int.floor_eq_iff]; norm_num
    have e2 : ⌊(1 - 1 / 2 ^ 53 : ℚ)⌋ = 0 := by rw [Int.floor_eq_iff]; norm_num
    rw [e1, e2]
  · rw [m1, m2, m3, m4, m5]
  · rw [m4, m6, m7]
  · intro h
    have := Double.fin.inj h
    norm_num at this

/-- C18 (failing input): the grid of ones of extents `3 x 3 x 3` at the
in-bounds coordinate `(1, 1, 1 - 2^-53)`. Every sample of the grid, so each of
the 8 corners read, is `1`, and `interpolate3d` returns `2`, above their
maximum; `penality` of the field that `setPen` loads with 27 ones, start
`(0, 0, 0)` and scale `(1, 1, 1)` returns this `2` at that world point, outside
the range spanned by `0` and the loaded samples. -/
theorem interpolate3d_exceeds_samples :
    IsBinary64 (fin (1 - 1 / 2 ^ 53)) ∧
    (inBound (fin 1) 3 = true ∧ inBound (fin (1 - 1 / 2 ^ 53)) 3 = true) ∧
    (∀ x y z : Int, ∀ s, (constGrid (fin 1)).get? x y z = some s → s = fin 1) ∧
    interpolate3d (constGrid (fin 1)) ⟨fin 1, fin 1, fin (1 - 1 / 2 ^ 53)⟩ = some (fin 2) ∧
    Double.lt (fin 1) (fin 2) = true ∧
    ∀ (self : ObsPen) (g : Double) (uninit : Vector3d), ∃ f,
      self.setPen ⟨fin 0, fin 0, fin 0⟩ ⟨fin 1, fin 1, fin 1⟩ 3 3 3
        (List.replicate 27 (fin 1)) (List.replicate 27 g) (List.replicate 27 g)
        (List.replicate 27 g) uninit = some f ∧
      f.penality ⟨fin 1, fin 1, fin (1 - 1 / 2 ^ 53)⟩ = some (fin 2) := by
  refine ⟨isBinary64_belowOne, ⟨inBound_one, inBound_belowOne⟩, ?_,
    interpolate3d_ones_belowOne_z, by rw [lt_fin]; norm_num, ?_⟩
  · intro x y z s h
    exact List.eq_of_mem_replicate (MultiArray.get?_mem h)
  · intro self g uninit
    refine ⟨_, setPen_const self _ _ _ g uninit, ?_⟩
    unfold ObsPen.penality
    rw [pointToArray_unit_fp isBinary64_one isBinary64_one isBinary64_belowOne]
    exact interpolate3d_ones_belowOne_z

/-- C19 (counterexample): extents `3 x 3 x 3`, all penalty samples and all
gradient components `1`, start `s = (1, 0, 0)`, scale `c = (1, 1, 1)` and the
fractional coordinate `u = (2^-70, 1, 1)`. The world point `s + c*u` is
`(1, 1, 1)`, because `1 + 2^-70` rounds to `1`. The field loaded with `(s, c)`
maps it to `(0, 1, 1)`, which is out of bounds, and returns `0` and
`(0, 0, 0)`; the field loaded with start `(0, 0, 0)` and scale `(1, 1, 1)`
returns `1` and `(1, 1, 1)` at `u`. -/
theorem query_start_scale_counterexample :
    ∃ f g : ObsPen,
      ObsPen.setPen ⟨MultiArray.empty, MultiArray.empty, ⟨fin 0, fin 0, fin 0⟩,
          ⟨fin 0, fin 0, fin 0⟩⟩ ⟨fin 1, fin 0, fin 0⟩ ⟨fin 1, fin 1, fin 1⟩ 3 3 3
        (List.replicate 27 (fin 1)) (List.replicate 27 (fin 1)) (List.replicate 27 (fin 1))
        (List.replicate 27 (fin 1)) ⟨fin 0, fin 0, fin 0⟩ = some f ∧
      ObsPen.setPen ⟨MultiArray.empty, MultiArray.empty, ⟨fin 0, fin 0, fin 0⟩,
          ⟨fin 0, fin 0, fin 0⟩⟩ ⟨fin 0, fin 0, fin 0⟩ ⟨fin 1, fin 1, fin 1⟩ 3 3 3
        (List.replicate 27 (fin 1)) (List.replicate 27 (fin 1)) (List.replicate 27 (fin 1))
        (List.replicate 27 (fin 1)) ⟨fin 0, fin 0, fin 0⟩ = some g ∧
      IsBinary64 (fin (1 / 2 ^ 70)) ∧
      ((⟨fin 1 + fin 1 * fin (1 / 2 ^ 70), fin 0 + fin 1 * fin 1, fin 0 + fin 1 * fin 1⟩ :
        Vector3d) = ⟨fin 1, fin 1, fin 1⟩) ∧
      f.penality ⟨fin 1, fin 1, fin 1⟩ = some (fin 0) ∧
      g.penality ⟨fin (1 / 2 ^ 70), fin 1, fin 1⟩ = some (fin 1) ∧
      f.penalityGrad ⟨fin 1, fin 1, fin 1⟩ = some ⟨fin 0, fin 0, fin 0⟩ ∧
      g.penalityGrad ⟨fin (1 / 2 ^ 70), fin 1, fin 1⟩ = some ⟨fin 1, fin 1, fin 1⟩ ∧
      fin 0 ≠ fin 1 := by
  have hw : (⟨fin 1 + fin 1 * fin (1 / 2 ^ 70), fin 0 + fin 1 * fin 1,
      fin 0 + fin 1 * fin 1⟩ : Vector3d) = ⟨fin 1, fin 1, fin 1⟩ := by
    simp only [add_def, mul_def, one_mul_of_isBinary64 isBinary64_tiny,
      one_mul_of_isBinary64 isBinary64_one, one_add_tiny, zero_add_fin isBinary64_one]
  have hp : pointToArray ⟨fin 1, fin 1, fin 1⟩ ⟨fin 1, fin 0, fin 0⟩ ⟨fin 1, fin 1, fin 1⟩ =
      ⟨fin 0, fin 1, fin 1⟩ := by
    have e : fin 1 - fin 1 = fin 0 := by
      rw [sub_fin _ _ (by norm_num), sub_self]; simpa using round_zero false
    unfold pointToArray
    simp only [e, sub_fin_zero, div_one_of_isBinary64 isBinary64_one,
      div_one_of_isBinary64 isBinary64_zero]
  refine ⟨_, _, setPen_const _ _ _ _ _ _, setPen_const _ _ _ _ _ _, isBinary64_tiny, hw,
    ?_, ?_, ?_, ?_, ?_⟩
  · unfold ObsPen.penality
    rw [hp]
    exact interpolate3d_outside_fp _ _ (Or.inl inBound_zero)
  · unfold ObsPen.penality
    rw [pointToArray_unit_fp isBinary64_tiny isBinary64_one isBinary64_one]
    exact interpolate3d_ones_tiny
  · unfold ObsPen.penalityGrad
    rw [hp]
    exact interpolate3d_outside_fp _ _ (Or.inl inBound_zero)
  · unfold ObsPen.penalityGrad
    rw [pointToArray_unit_fp isBinary64_tiny isBinary64_one isBinary64_one]
    exact interpolate3d_vec_ones_tiny
  · intro h
    have := Double.fin.inj h
    norm_num at this

end fp

namespace Double

theorem eq_fin_of_toRat {r : Double} {q : ℚ} (hf : r.isFinite = true) (h : r.toRat = q)
    (hq : q ≠ 0) : r = fin q := by
  cases r with
  | fin p => simp only [toRat] at h; rw [h]
  | negZero => simp only [toRat] at h; exact absurd h.symm hq
  | inf s => simp [isFinite] at hf
  | nan => simp [isFinite] at hf

/-- A finite value that is the same number as a finite non-zero value is that
value. -/
theorem eq_of_toRat_of_ne_zero {r s : Double} (hr : r.isFinite = true) (hs : s.isFinite = true)
    (h : r.toRat = s.toRat) (h0 : s.isZero = false) : r = s := by
  cases s with
  | fin q =>
    have hq : q ≠ 0 := by simpa [isZero] using h0
    exact eq_fin_of_toRat hr h hq
  | negZero => simp [isZero] at h0
  | inf s => simp [isFinite] at hs
  | nan => simp [isFinite] at hs

end Double

namespace fp

/-! ## Lemmas: integer coordinates -/

theorem inBound_intCast {i : Int} {n : Nat} (hn : (n : Int) ≤ INT_MAX) (h0 : 0 < i)
    (h1 : i < (n : Int) - 1) : inBound (fin (i : ℚ)) n = true := by
  have hI : INT_MAX = 2147483647 := rfl
  rw [inBound_fin _ (by omega) (by omega)]
  have a : (0 : ℚ) < (i : ℚ) := by exact_mod_cast h0
  have b : (i : ℚ) < (n : ℚ) - 1 := by exact_mod_cast h1
  simp [a, b]

/-- At integer coordinates strictly inside a well-formed grid the result is the
nested blend, with weights `dm = 1` and `d = 0` on every axis, of samples that
have a property `Good` kept by such blends; the blend keeps `val` of its low
sample. -/
theorem interpolate3d_node {T α : Type} [Sample T] (Good : T → Prop) (val : T → α)
    (hblend : ∀ s b, Good s → Good b →
      Good (Sample.add (Sample.scale (fin 1) s) (Sample.scale (fin 0) b)) ∧
      val (Sample.add (Sample.scale (fin 1) s) (Sample.scale (fin 0) b)) = val s)
    (a : MultiArray T) (hwf : a.WF) (i j k : Int)
    (hi : 0 < i ∧ i < (a.shape0 : Int) - 1) (hj : 0 < j ∧ j < (a.shape1 : Int) - 1)
    (hk : 0 < k ∧ k < (a.shape2 : Int) - 1)
    (hgood : ∀ x y z s, (x = i ∨ x = i + 1) → (y = j ∨ y = j + 1) → (z = k ∨ z = k + 1) →
      a.get? x y z = some s → Good s) :
    ∃ r s, interpolate3d a ⟨fin (i : ℚ), fin (j : ℚ), fin (k : ℚ)⟩ = some r ∧
      a.get? i j k = some s ∧ Good r ∧ val r = val s := by
  obtain ⟨hlen, m0, m1, m2⟩ := hwf
  have hI : INT_MAX = 2147483647 := rfl
  have rd : ∀ x y z, (x = i ∨ x = i + 1) → (y = j ∨ y = j + 1) → (z = k ∨ z = k + 1) →
      ∃ s, a.get? x y z = some s ∧ Good s := by
    intro x y z hx hy hz
    obtain ⟨s, hs⟩ := MultiArray.get?_isSome ⟨hlen, m0, m1, m2⟩ (x := x) (y := y) (z := z)
      (by rw [MultiArray.validIndex_iff]; omega)
    exact ⟨s, hs, hgood x y z s hx hy hz hs⟩
  obtain ⟨s000, r000, g000⟩ := rd i j k (Or.inl rfl) (Or.inl rfl) (Or.inl rfl)
  obtain ⟨s100, r100, g100⟩ := rd (i + 1) j k (Or.inr rfl) (Or.inl rfl) (Or.inl rfl)
  obtain ⟨s010, r010, g010⟩ := rd i (j + 1) k (Or.inl rfl) (Or.inr rfl) (Or.inl rfl)
  obtain ⟨s110, r110, g110⟩ := rd (i + 1) (j + 1) k (Or.inr rfl) (Or.inr rfl) (Or.inl rfl)
  obtain ⟨s001, r001, g001⟩ := rd i j (k + 1) (Or.inl rfl) (Or.inl rfl) (Or.inr rfl)
  obtain ⟨s101, r101, g101⟩ := rd (i + 1) j (k + 1) (Or.inr rfl) (Or.inl rfl) (Or.inr rfl)
  obtain ⟨s011, r011, g011⟩ := rd i (j + 1) (k + 1) (Or.inl rfl) (Or.inr rfl) (Or.inr rfl)
  obtain ⟨s111, r111, g111⟩ := rd (i + 1) (j + 1) (k + 1) (Or.inr rfl) (Or.inr rfl) (Or.inr rfl)
  have e := interpolate3d_eval_fp a ⟨fin (i : ℚ), fin (j : ℚ), fin (k : ℚ)⟩
    ⟨i, i + 1, fin 0, fin 1⟩ ⟨j, j + 1, fin 0, fin 1⟩ ⟨k, k + 1, fin 0, fin 1⟩
    s000 s100 s010 s110 s001 s101 s011 s111
    (inBound_intCast m0 hi.1 hi.2) (inBound_intCast m1 hj.1 hj.2) (inBound_intCast m2 hk.1 hk.2)
    (axisCell_intCast hi.1 (by omega)) (axisCell_intCast hj.1 (by omega))
    (axisCell_intCast hk.1 (by omega)) r000 r100 r010 r110 r001 r101 r011 r111
  obtain ⟨b00, v00⟩ := hblend s000 s100 g000 g100
  obtain ⟨b10, -⟩ := hblend s010 s110 g010 g110
  obtain ⟨b01, -⟩ := hblend s001 s101 g001 g101
  obtain ⟨b11, -⟩ := hblend s011 s111 g011 g111
  obtain ⟨b0, v0⟩ := hblend _ _ b00 b10
  obtain ⟨b1, -⟩ := hblend _ _ b01 b11
  obtain ⟨b, v⟩ := hblend _ _ b0 b1
  exact ⟨_, s000, e, r000, b, v.trans (v0.trans v00)⟩

/-- The blend with weights `1` and `0` of finite binary64 vectors. -/
theorem blend_one_zero_vec {s b : Vector3d}
    (hs : s.isFinite = true ∧ s.IsBinary64) (hb : b.isFinite = true ∧ b.IsBinary64) :
    ((Sample.add (Sample.scale (fin 1) s) (Sample.scale (fin 0) b) : Vector3d).isFinite = true ∧
      (Sample.add (Sample.scale (fin 1) s) (Sample.scale (fin 0) b) : Vector3d).IsBinary64) ∧
    (fun v : Vector3d => (v.x.toRat, v.y.toRat, v.z.toRat))
      (Sample.add (Sample.scale (fin 1) s) (Sample.scale (fin 0) b)) =
      (s.x.toRat, s.y.toRat, s.z.toRat) := by
  obtain ⟨sf, sx, sy, sz⟩ := hs
  obtain ⟨bf, -⟩ := hb
  simp only [Vector3d.isFinite, Bool.and_eq_true] at sf bf
  obtain ⟨x1, x2, x3⟩ := blend_one_zero sx sf.1.1 bf.1.1
  obtain ⟨y1, y2, y3⟩ := blend_one_zero sy sf.1.2 bf.1.2
  obtain ⟨z1, z2, z3⟩ := blend_one_zero sz sf.2 bf.2
  rw [sample_scale_vec, sample_scale_vec, sample_add_vec]
  refine ⟨⟨?_, x1, y1, z1⟩, ?_⟩
  · simp only [Vector3d.isFinite, x2, y2, z2, Bool.and_self]
  · simp only [x3, y3, z3]

end fp

namespace fp

theorem isBinary64_five : IsBinary64 (fin 5) := by
  simpa using isBinary64_intCast 5 (by norm_num)

/-- C5 (counterexample): on the `3 x 3 x 3` grid with the sample `5` everywhere
except `+inf` at `[2][1][1]`, the integer coordinate `(1, 1, 1)` lies strictly
inside `(0, 2)` on every axis and the stored sample `array[1][1][1]` is `5`,
but the blend contains the product `0 * inf`, which is a NaN, and the result
is a NaN. Likewise a stored `-0` at `[1][1][1]` comes back as `+0`. -/
theorem interpolate3d_at_sample_counterexample :
    inBound (fin 1) 3 = true ∧
    ((spikeGrid (fin 5) (inf false) 2 1 1).get? 1 1 1 = some (fin 5) ∧
      interpolate3d (spikeGrid (fin 5) (inf false) 2 1 1) ⟨fin 1, fin 1, fin 1⟩ = some nan ∧
      nan ≠ fin 5) ∧
    ((spikeGrid (fin 5) negZero 1 1 1).get? 1 1 1 = some negZero ∧
      interpolate3d (spikeGrid (fin 5) negZero 1 1 1) ⟨fin 1, fin 1, fin 1⟩ = some (fin 0) ∧
      fin 0 ≠ negZero) := by
  have z5 : mul (fin 0) (fin 5) = fin 0 := zero_mul_fin (by norm_num)
  have o5 : mul (fin 1) (fin 5) = fin 5 := one_mul_of_isBinary64 isBinary64_five
  have a5 : add (fin 5) (fin 0) = fin 5 := add_fin_zero isBinary64_five
  have zi : mul (fin 0) (inf false) = nan := by
    show (if decide ((0 : ℚ) = 0) then nan else inf (xor (decide ((0 : ℚ) < 0)) false)) = nan
    norm_num
  have o1n : mul (fin 1) nan = nan := rfl
  have an : ∀ d, add nan d = nan := fun d => by cases d <;> rfl
  have na : add (fin 5) nan = nan := rfl
  have oz : mul (fin 1) negZero = negZero := one_mul_of_isBinary64 trivial
  have nz : add negZero (fin 0) = fin 0 := rfl
  have o0 : mul (fin 1) (fin 0) = fin 0 := one_mul_of_isBinary64 isBinary64_zero
  have a0 : add (fin 0) (fin 0) = fin 0 := add_fin_zero isBinary64_zero
  refine ⟨inBound_one, ⟨?_, ?_, by simp⟩, ⟨?_, ?_, by simp⟩⟩
  · exact spikeGrid_get_other _ _ 2 1 1 (x := 1) (y := 1) (z := 1) (by norm_num) (by norm_num)
      (by norm_num) (by norm_num) (by norm_num) (by decide)
  · rw [interpolate3d_eval_fp (spikeGrid (fin 5) (inf false) 2 1 1) ⟨fin 1, fin 1, fin 1⟩
      ⟨1, 2, fin 0, fin 1⟩ ⟨1, 2, fin 0, fin 1⟩ ⟨1, 2, fin 0, fin 1⟩
      (fin 5) (inf false) (fin 5) (fin 5) (fin 5) (fin 5) (fin 5) (fin 5)
      inBound_one inBound_one inBound_one axisCell_one axisCell_one axisCell_one
      (spikeGrid_get_other _ _ 2 1 1 (x := 1) (y := 1) (z := 1) (by norm_num) (by norm_num)
        (by norm_num) (by norm_num) (by norm_num) (by decide))
      (spikeGrid_get_same _ _ 2 1 1 (by norm_num) (by norm_num) (by norm_num))
      (spikeGrid_get_other _ _ 2 1 1 (x := 1) (y := 2) (z := 1) (by norm_num) (by norm_num)
        (by norm_num) (by norm_num) (by norm_num) (by decide))
      (spikeGrid_get_other _ _ 2 1 1 (x := 2) (y := 2) (z := 1) (by norm_num) (by norm_num)
        (by norm_num) (by norm_num) (by norm_num) (by decide))
      (spikeGrid_get_other _ _ 2 1 1 (x := 1) (y := 1) (z := 2) (by norm_num) (by norm_num)
        (by norm_num) (by norm_num) (by norm_num) (by decide))
      (spikeGrid_get_other _ _ 2 1 1 (x := 2) (y := 1) (z := 2) (by norm_num) (by norm_num)
        (by norm_num) (by norm_num) (by norm_num) (by decide))
      (spikeGrid_get_other _ _ 2 1 1 (x := 1) (y := 2) (z := 2) (by norm_num) (by norm_num)
        (by norm_num) (by norm_num) (by norm_num) (by decide))
      (spikeGrid_get_other _ _ 2 1 1 (x := 2) (y := 2) (z := 2) (by norm_num) (by norm_num)
        (by norm_num) (by norm_num) (by norm_num) (by decide))]
    simp only [sample_add, sample_scale, z5, o5, a5, zi, o1n, an, na]
  · exact spikeGrid_get_same _ _ 1 1 1 (by norm_num) (by norm_num) (by norm_num)
  · rw [interpolate3d_eval_fp (spikeGrid (fin 5) negZero 1 1 1) ⟨fin 1, fin 1, fin 1⟩
      ⟨1, 2, fin 0, fin 1⟩ ⟨1, 2, fin 0, fin 1⟩ ⟨1, 2, fin 0, fin 1⟩
      negZero (fin 5) (fin 5) (fin 5) (fin 5) (fin 5) (fin 5) (fin 5)
      inBound_one inBound_one inBound_one axisCell_one axisCell_one axisCell_one
      (spikeGrid_get_same _ _ 1 1 1 (by norm_num) (by norm_num) (by norm_num))
      (spikeGrid_get_other _ _ 1 1 1 (x := 2) (y := 1) (z := 1) (by norm_num) (by norm_num)
        (by norm_num) (by norm_num) (by norm_num) (by decide))
      (spikeGrid_get_other _ _ 1 1 1 (x := 1) (y := 2) (z := 1) (by norm_num) (by norm_num)
        (by norm_num) (by norm_num) (by norm_num) (by decide))
      (spikeGrid_get_other _ _ 1 1 1 (x := 2) (y := 2) (z := 1) (by norm_num) (by norm_num)
        (by norm_num) (by norm_num) (by norm_num) (by decide))
      (spikeGrid_get_other _ _ 1 1 1 (x := 1) (y := 1) (z := 2) (by norm_num) (by norm_num)
        (by norm_num) (by norm_num) (by norm_num) (by decide))
      (spikeGrid_get_other _ _ 1 1 1 (x := 2) (y := 1) (z := 2) (by norm_num) (by norm_num)
        (by norm_num) (by norm_num) (by norm_num) (by decide))
      (spikeGrid_get_other _ _ 1 1 1 (x := 1) (y := 2) (z := 2) (by norm_num) (by norm_num)
        (by norm_num) (by norm_num) (by norm_num) (by decide))
      (spikeGrid_get_other _ _ 1 1 1 (x := 2) (y := 2) (z := 2) (by norm_num) (by norm_num)
        (by norm_num) (by norm_num) (by norm_num) (by decide))]
    simp only [sample_add, sample_scale, z5, o5, a5, oz, nz, o0, a0]

/-- C5 (amended): in binary64 arithmetic, for every well-formed grid of doubles
or of 3-vectors and every coordinate whose components are integers `i`, `j`, `k`
strictly inside `(0, size-1)` on their axes, if the eight samples
`array[i..i+1][j..j+1][k..k+1]` are finite numbers, `interpolate3d` returns a
finite value that compares equal (`==`) to the stored sample `array[i][j][k]`,
and is that very sample unless the sample is a zero (a stored `-0` may come back
as `+0`). -/
theorem interpolate3d_at_finite_sample (i j k : Int) :
    (∀ a : MultiArray Double, a.WF →
      (0 < i ∧ i < (a.shape0 : Int) - 1) → (0 < j ∧ j < (a.shape1 : Int) - 1) →
      (0 < k ∧ k < (a.shape2 : Int) - 1) →
      (∀ x y z s, (x = i ∨ x = i + 1) → (y = j ∨ y = j + 1) → (z = k ∨ z = k + 1) →
        a.get? x y z = some s → s.isFinite = true ∧ s.IsBinary64) →
      ∃ r s, interpolate3d a ⟨fin (i : ℚ), fin (j : ℚ), fin (k : ℚ)⟩ = some r ∧
        a.get? i j k = some s ∧ r.isFinite = true ∧ Double.eq r s = true ∧
        (s.isZero = false → r = s)) ∧
    (∀ a : MultiArray Vector3d, a.WF →
      (0 < i ∧ i < (a.shape0 : Int) - 1) → (0 < j ∧ j < (a.shape1 : Int) - 1) →
      (0 < k ∧ k < (a.shape2 : Int) - 1) →
      (∀ x y z s, (x = i ∨ x = i + 1) → (y = j ∨ y = j + 1) → (z = k ∨ z = k + 1) →
        a.get? x y z = some s → s.isFinite = true ∧ s.IsBinary64) →
      ∃ r s, interpolate3d a ⟨fin (i : ℚ), fin (j : ℚ), fin (k : ℚ)⟩ = some r ∧
        a.get? i j k = some s ∧ r.isFinite = true ∧ Vector3d.eq r s = true ∧
        (s.x.isZero = false → r.x = s.x) ∧ (s.y.isZero = false → r.y = s.y) ∧
        (s.z.isZero = false → r.z = s.z)) := by
  constructor
  · intro a hwf hi hj hk hfin
    obtain ⟨r, s, hr, hs, ⟨rf, -⟩, hv⟩ := interpolate3d_node
      (fun s : Double => s.isFinite = true ∧ s.IsBinary64) Double.toRat
      (fun s b hs hb => by
        obtain ⟨p1, p2, p3⟩ := blend_one_zero hs.2 hs.1 hb.1
        exact ⟨⟨p2, p1⟩, p3⟩)
      a hwf i j k hi hj hk hfin
    have sf := (hfin i j k s (Or.inl rfl) (Or.inl rfl) (Or.inl rfl) hs).1
    exact ⟨r, s, hr, hs, rf, eq_of_toRat rf sf hv, eq_of_toRat_of_ne_zero rf sf hv⟩
  · intro a hwf hi hj hk hfin
    obtain ⟨r, s, hr, hs, ⟨rf, -⟩, hv⟩ := interpolate3d_node
      (fun s : Vector3d => s.isFinite = true ∧ s.IsBinary64)
      (fun v : Vector3d => (v.x.toRat, v.y.toRat, v.z.toRat))
      (fun s b hs hb => blend_one_zero_vec hs hb)
      a hwf i j k hi hj hk hfin
    have sf := (hfin i j k s (Or.inl rfl) (Or.inl rfl) (Or.inl rfl) hs).1
    simp only [Vector3d.isFinite, Bool.and_eq_true] at rf sf
    simp only [Prod.mk.injEq] at hv
    obtain ⟨vx, vy, vz⟩ := hv
    refine ⟨r, s, hr, hs, by simp only [Vector3d.isFinite, rf, Bool.and_self], ?_,
      eq_of_toRat_of_ne_zero rf.1.1 sf.1.1 vx, eq_of_toRat_of_ne_zero rf.1.2 sf.1.2 vy,
      eq_of_toRat_of_ne_zero rf.2 sf.2 vz⟩
    simp only [Vector3d.eq, eq_of_toRat rf.1.1 sf.1.1 vx, eq_of_toRat rf.1.2 sf.1.2 vy,
      eq_of_toRat rf.2 sf.2 vz, Bool.and_self]

theorem constGrid_WF {T : Type} (c : T) : (constGrid c).WF :=
  ⟨rfl, by show ((3 : Nat) : Int) ≤ INT_MAX; decide, by show ((3 : Nat) : Int) ≤ INT_MAX; decide,
    by show ((3 : Nat) : Int) ≤ INT_MAX; decide⟩

/-- C5 (amended), witness: the node `(1, 1, 1)` of the grid of fives and of the
vector grid of `(5, 0, -0)`. -/
theorem interpolate3d_at_finite_sample_witness :
    (∃ r s, interpolate3d (constGrid (fin 5)) ⟨fin ((1 : Int) : ℚ), fin ((1 : Int) : ℚ),
        fin ((1 : Int) : ℚ)⟩ = some r ∧
      (constGrid (fin 5)).get? 1 1 1 = some s ∧ r.isFinite = true ∧ Double.eq r s = true ∧
      (s.isZero = false → r = s)) ∧
    (∃ r s, interpolate3d (constGrid (⟨fin 5, fin 0, negZero⟩ : Vector3d))
        ⟨fin ((1 : Int) : ℚ), fin ((1 : Int) : ℚ), fin ((1 : Int) : ℚ)⟩ = some r ∧
      (constGrid (⟨fin 5, fin 0, negZero⟩ : Vector3d)).get? 1 1 1 = some s ∧
      r.isFinite = true ∧ Vector3d.eq r s = true ∧
      (s.x.isZero = false → r.x = s.x) ∧ (s.y.isZero = false → r.y = s.y) ∧
      (s.z.isZero = false → r.z = s.z)) :=
  ⟨(interpolate3d_at_finite_sample 1 1 1).1 (constGrid (fin 5)) (constGrid_WF _)
      (by decide) (by decide) (by decide)
      (fun x y z s _ _ _ h => by
        rw [List.eq_of_mem_replicate (MultiArray.get?_mem h)]
        exact ⟨rfl, isBinary64_five⟩),
    (interpolate3d_at_finite_sample 1 1 1).2 (constGrid ⟨fin 5, fin 0, negZero⟩)
      (constGrid_WF _) (by decide) (by decide) (by decide)
      (fun x y z s _ _ _ h => by
        rw [List.eq_of_mem_replicate (MultiArray.get?_mem h)]
        exact ⟨rfl, isBinary64_five, isBinary64_zero, trivial⟩)⟩

end fp

end tpg
